import Mathlib

/-! # ngx_rtmp_codec_module.c: a shallow embedding

Bytes are natural numbers (a well-formed byte is below 256), `ngx_uint_t`
is a 64-bit word, buffers are lists of bytes and the per-connection
`ngx_rtmp_codec_ctx_t` is a record that every operation takes and returns.
-/

namespace NgxRtmpCodec

/-! ## Return codes and constants -/

def NGX_OK : Int := 0

def NGX_ERROR : Int := -1

/-- Modulus of `ngx_uint_t` and `uint64_t` arithmetic (64-bit words). -/
def NGX_UINT_MOD : Nat := 2 ^ 64

/-- Modulus of `uint32_t` arithmetic. -/
def UINT32_MOD : Nat := 2 ^ 32

def NGX_RTMP_CODEC_META_OFF : Nat := 0

def NGX_RTMP_CODEC_META_ON : Nat := 1

def NGX_RTMP_CODEC_META_COPY : Nat := 2

def NGX_RTMP_CODEC_NON_SEQ_HEADER : Nat := 0

def NGX_RTMP_CODEC_SINGLE_SEQ_HEADER : Nat := 1

def NGX_RTMP_CODEC_COMBO_SEQ_HEADER : Nat := 2

/-- Modelled from the spec: the message type of an audio message (the constant
is declared in ngx_rtmp.h, which is not among the sources). -/
def NGX_RTMP_MSG_AUDIO_TYPE : Nat := 8

/-- Modelled from the spec: the message type of a video message (declared in
ngx_rtmp.h). -/
def NGX_RTMP_MSG_VIDEO : Nat := 9

/-- Modelled from the spec: the frame-type nibble of a key frame (declared in
ngx_rtmp.h); the source comments it as `1: keyframe (IDR)`. -/
def NGX_RTMP_VIDEO_KEY_FRAME : Nat := 1

/-- Modelled from the spec: the IDR frame type the synthesizer requires
(declared in a header that is not among the sources). -/
def NGX_RTMP_FRAME_IDR : Nat := 1

/-- Modelled from the spec: NAL unit type of a sequence parameter set. -/
def NGX_RTMP_NALU_SPS : Nat := 7

/-- Modelled from the spec: NAL unit type of a picture parameter set. -/
def NGX_RTMP_NALU_PPS : Nat := 8

/-- Modelled from the spec: audio codec id of AAC, the index of "AAC" in
`audio_codecs`. -/
def NGX_RTMP_AUDIO_AAC : Nat := 10

/-- Modelled from the spec: the id stored for uncompressed audio, the index of
"Uncompressed" in `audio_codecs`. -/
def NGX_RTMP_AUDIO_UNCOMPRESSED : Nat := 16

/-- Modelled from the spec: video codec id of H.264, the index of "H264" in
`video_codecs`. -/
def NGX_RTMP_VIDEO_H264 : Nat := 7

/-- Modelled from the spec: video codec id of H.265, the index of "H265" in
`video_codecs`. -/
def NGX_RTMP_VIDEO_H265 : Nat := 12

/-! ## Codec name tables (lines 103-158) -/

def audio_codecs : List String :=
  ["", "ADPCM", "MP3", "LinearLE", "Nellymoser16", "Nellymoser8", "Nellymoser",
   "G711A", "G711U", "", "AAC", "Speex", "", "", "MP3-8K", "DeviceSpecific",
   "Uncompressed"]

def video_codecs : List String :=
  ["", "Jpeg", "Sorenson-H263", "ScreenVideo", "On2-VP6", "On2-VP6-Alpha",
   "ScreenVideo2", "H264", "", "", "", "", "H265"]

def ngx_rtmp_get_audio_codec_name (id : Nat) : String :=
  if id < audio_codecs.length then audio_codecs.getD id "" else ""

def ngx_rtmp_get_video_codec_name (id : Nat) : String :=
  if id < video_codecs.length then video_codecs.getD id "" else ""

/-! ## Buffers, chains and the per-connection context -/

/-- An `ngx_buf_t`: `data` are the bytes of `[pos, last)`, `spare` the bytes
of `[last, end)` that are allocated but are not part of the payload. -/
structure ngx_buf_t where
  data : List Nat
  spare : List Nat
deriving DecidableEq, Repr

/-- A non-NULL `ngx_chain_t *`: its first buffer and the buffers linked
through `next`. -/
structure ngx_chain_t where
  buf : ngx_buf_t
  next : List ngx_buf_t
deriving DecidableEq, Repr

/-- A chain of one buffer holding `bytes`, with nothing allocated past them. -/
def chain_of (bytes : List Nat) : ngx_chain_t :=
  { buf := { data := bytes, spare := [] }, next := [] }

/-- All payload bytes of a chain, in order. -/
def chain_bytes (c : ngx_chain_t) : List Nat :=
  c.buf.data ++ (c.next.map (fun b => b.data)).flatten

/-- The `ngx_rtmp_codec_ctx_t` fields the module reads and writes
(the struct is declared in ngx_rtmp_codec_module.h). -/
structure ngx_rtmp_codec_ctx_t where
  width : Nat
  height : Nat
  duration : Nat
  frame_rate : Nat
  video_data_rate : Nat
  video_codec_id : Nat
  audio_data_rate : Nat
  audio_codec_id : Nat
  aac_profile : Nat
  aac_chan_conf : Nat
  aac_sbr : Nat
  aac_ps : Nat
  avc_profile : Nat
  avc_compat : Nat
  avc_level : Nat
  avc_nal_bytes : Nat
  avc_ref_frames : Nat
  sample_rate : Nat
  sample_size : Nat
  audio_channels : Nat
  profile : List Nat
  level : List Nat
  avc_header : Option (List Nat)
  aac_header : Option (List Nat)
  meta : Option (List Nat)
  meta_version : Nat
deriving DecidableEq, Repr

/-- The context `ngx_pcalloc` returns: every field zero, every pointer NULL. -/
def ctx_zero : ngx_rtmp_codec_ctx_t :=
  { width := 0, height := 0, duration := 0, frame_rate := 0,
    video_data_rate := 0, video_codec_id := 0, audio_data_rate := 0,
    audio_codec_id := 0, aac_profile := 0, aac_chan_conf := 0, aac_sbr := 0,
    aac_ps := 0, avc_profile := 0, avc_compat := 0, avc_level := 0,
    avc_nal_bytes := 0, avc_ref_frames := 0, sample_rate := 0,
    sample_size := 0, audio_channels := 0, profile := List.replicate 32 0,
    level := List.replicate 32 0, avc_header := none, aac_header := none,
    meta := none, meta_version := 0 }

/-- Modelled from the spec: ngx_rtmp_append_shared_bufs (shared-buffer chain
management, not among the sources) called with a NULL head: the cached buffer
it returns holds a copy of the payload bytes of the chain. -/
def ngx_rtmp_append_shared_bufs (c : ngx_chain_t) : Option (List Nat) :=
  some (chain_bytes c)

/-! ## Reading an input chain: ngx_rtmp_hls_copy -/

/-- The read cursor `(p, in)` of the synthesizer: `none` is `in == NULL`,
`some (cur, rest)` are the bytes from `p` to the end of the current buffer
and the buffers after it. -/
abbrev chain_cursor := Option (List Nat × List ngx_buf_t)

structure copy_result where
  rc : Int
  bytes : List Nat
  cur : chain_cursor
deriving DecidableEq, Repr

/-- Modelled from the spec: the tail of ngx_rtmp_hls_copy, which after a
successful copy steps over every buffer that has been read to its end, so that
`in` is NULL once the chain is exhausted. -/
def hls_skip : List Nat → List ngx_buf_t → chain_cursor
  | [], [] => none
  | [], b :: bs => hls_skip b.data bs
  | x :: xs, rest => some (x :: xs, rest)

/-- Modelled from the spec: the loop of ngx_rtmp_hls_copy
(hls/ngx_rtmp_hls_module.c, not among the sources). It reads `n` bytes at the
cursor, crossing buffer boundaries; `bytes` are the bytes it stored through
`dst`. When the chain ends first it fails with `in` set to NULL, after it has
stored the bytes that were there. -/
def hls_copy_loop : Nat → List Nat → List ngx_buf_t → copy_result
  | n, cur, [] =>
    if n ≤ cur.length then ⟨NGX_OK, cur.take n, hls_skip (cur.drop n) []⟩
    else ⟨NGX_ERROR, cur, none⟩
  | n, cur, b :: bs =>
    if n ≤ cur.length then ⟨NGX_OK, cur.take n, hls_skip (cur.drop n) (b :: bs)⟩
    else
      let r := hls_copy_loop (n - cur.length) b.data bs
      ⟨r.rc, cur ++ r.bytes, r.cur⟩

/-- Modelled from the spec: ngx_rtmp_hls_copy(s, dst, &p, n, &in); it fails
at once when `in` is NULL. -/
def ngx_rtmp_hls_copy (n : Nat) : chain_cursor → copy_result
  | none => ⟨NGX_ERROR, [], none⟩
  | some (cur, rest) => hls_copy_loop n cur rest

/-- Modelled from the spec: the value ngx_rtmp_rmemcpy leaves in the
zero-initialised `uint32_t len` after reversing the length bytes into it: the
big-endian number they spell. -/
def be_value : List Nat → Nat
  | [] => 0
  | b :: bs => b * 256 ^ bs.length + be_value bs

/-! ## Classifying a payload (lines 213-272) -/

/-- Modelled from the spec: ngx_rtmp_is_codec_header (ngx_rtmp.h, not among
the sources): the packet-type byte, byte 1 of the payload, is there and holds
the sequence-header value 0. -/
def ngx_rtmp_is_codec_header (c : ngx_chain_t) : Bool :=
  decide (1 < c.buf.data.length) && (c.buf.data.getD 1 0 == 0)

/-- The byte `in->buf->pos[i]`: a payload byte when `i` is below the payload
length, else the byte of the buffer memory that follows the payload (0 stands
for a read past the allocation). -/
def buf_at (b : ngx_buf_t) (i : Nat) : Nat :=
  (b.data ++ b.spare).getD i 0

/-- Modelled from the spec: ngx_rtmp_get_video_frame_type (ngx_rtmp.h, not
among the sources): the frame-type nibble of byte 0. -/
def ngx_rtmp_get_video_frame_type (c : ngx_chain_t) : Nat :=
  (buf_at c.buf 0 &&& 0xf0) >>> 4

def ngx_rtmp_codec_video_is_combined_nals (c : ngx_chain_t)
    (s : Option ngx_rtmp_codec_ctx_t) : Int :=
  match s with
  | none => NGX_ERROR
  | some ctx =>
    if ctx.avc_nal_bytes = 0 then NGX_ERROR
    else if ngx_rtmp_get_video_frame_type c ≠ NGX_RTMP_VIDEO_KEY_FRAME then NGX_ERROR
    else if 5 + ctx.avc_nal_bytes ≤ c.buf.data.length then
      let src_nal_type := buf_at c.buf (5 + ctx.avc_nal_bytes)
      if ctx.video_codec_id = NGX_RTMP_VIDEO_H264 then
        let nal_type := src_nal_type &&& 0x1f
        if NGX_RTMP_NALU_SPS ≤ nal_type ∧ nal_type ≤ NGX_RTMP_NALU_PPS then NGX_OK
        else NGX_ERROR
      else NGX_ERROR
    else NGX_ERROR

def ngx_rtmp_get_codec_header_type (s : Option ngx_rtmp_codec_ctx_t) (h_type : Nat)
    (c : ngx_chain_t) : Nat :=
  if ngx_rtmp_is_codec_header c then NGX_RTMP_CODEC_SINGLE_SEQ_HEADER
  else if h_type = NGX_RTMP_MSG_VIDEO ∧
      ngx_rtmp_codec_video_is_combined_nals c s = NGX_OK then
    NGX_RTMP_CODEC_COMBO_SEQ_HEADER
  else NGX_RTMP_CODEC_NON_SEQ_HEADER

/-! ## Synthesizing an AVC header from a key frame (lines 275-457) -/

/-- What ngx_rtmp_codec_parse_avc_header_in_keyframe leaves behind: its return
code, the bytes of `[out->pos, out->last)`, and `written`, the number of bytes
of the scratch memory, counted from `out->pos`, that it has stored into. -/
structure keyframe_result where
  rc : Int
  out : List Nat
  written : Nat
deriving DecidableEq, Repr

/-- The `while (in)` loop of lines 375-454. `cap` is NGX_RTMP_SPS_MAX_LENGTH
(defined in a header that is not among the sources). Every iteration that
does not return reads at least `nal_bytes` bytes, so with `nal_bytes ≥ 1`
a `fuel` above the number of unread bytes is never used up. -/
def avc_nal_loop (cap nal_bytes : Nat) :
    Nat → chain_cursor → List Nat → Nat → keyframe_result
  | 0, _, out, _ => ⟨NGX_ERROR, out, out.length⟩
  | fuel + 1, cur, out, has_sps =>
    match cur with
    | none => ⟨if has_sps = 1 then NGX_OK else NGX_ERROR, out, out.length⟩
    | some c =>
      let r1 := ngx_rtmp_hls_copy nal_bytes (some c)
      if r1.rc ≠ NGX_OK then ⟨NGX_OK, out, out.length⟩
      else
        let len := be_value r1.bytes % UINT32_MOD
        if len = 0 then avc_nal_loop cap nal_bytes fuel r1.cur out has_sps
        else
          let r2 := ngx_rtmp_hls_copy 1 r1.cur
          if r2.rc ≠ NGX_OK then ⟨NGX_OK, out, out.length⟩
          else
            let src_nal_type := r2.bytes.getD 0 0
            let nal_type := src_nal_type &&& 0x1f
            if ¬ (NGX_RTMP_NALU_SPS ≤ nal_type ∧ nal_type ≤ NGX_RTMP_NALU_PPS) then
              let r3 := ngx_rtmp_hls_copy (len - 1) r2.cur
              if r3.rc ≠ NGX_OK then ⟨NGX_ERROR, out, out.length⟩
              else avc_nal_loop cap nal_bytes fuel r3.cur out has_sps
            else
              let left := (cap + NGX_UINT_MOD - out.length % NGX_UINT_MOD) % NGX_UINT_MOD
              if (len + 3) % UINT32_MOD > left then ⟨NGX_ERROR, out, out.length⟩
              else
                let out1 := out ++ [(len >>> 8) % 256, len &&& 0xff, src_nal_type]
                let r4 := ngx_rtmp_hls_copy (len - 1) r2.cur
                if r4.rc ≠ NGX_OK then
                  ⟨NGX_ERROR, out1, out1.length + r4.bytes.length⟩
                else
                  avc_nal_loop cap nal_bytes fuel r4.cur (out1 ++ r4.bytes ++ [0x01]) 1

/-- Lines 275-457. `s` is the codec context of the session (none for a NULL
context), `out` is the non-NULL, empty scratch buffer that ngx_rtmp_codec_av
passes (line 488), of capacity `cap`. The result carries the return code, the
bytes stored in `out` and the number of bytes written to it. -/
def ngx_rtmp_codec_parse_avc_header_in_keyframe (cap : Nat)
    (s : Option ngx_rtmp_codec_ctx_t) (c : ngx_chain_t) : keyframe_result :=
  match s with
  | none => ⟨NGX_ERROR, [], 0⟩
  | some ctx =>
    if ctx.video_codec_id ≠ NGX_RTMP_VIDEO_H264 ∨ ctx.avc_nal_bytes = 0 then
      ⟨NGX_ERROR, [], 0⟩
    else
      let r1 := ngx_rtmp_hls_copy 1 (some (c.buf.data, c.next))
      if r1.rc ≠ NGX_OK then ⟨NGX_ERROR, [], 0⟩
      else
        let fmt := r1.bytes.getD 0 0
        let ftype := (fmt &&& 0xf0) >>> 4
        if ftype ≠ NGX_RTMP_FRAME_IDR then ⟨NGX_ERROR, [], 0⟩
        else
          let r2 := ngx_rtmp_hls_copy 1 r1.cur
          if r2.rc ≠ NGX_OK then ⟨NGX_ERROR, [], 0⟩
          else
            let htype := r2.bytes.getD 0 0
            if htype ≠ 1 then ⟨NGX_OK, [], 0⟩
            else
              let out2 := [(((ftype &&& 0x0f) <<< 4) ||| NGX_RTMP_NALU_SPS) % 256, 0x00]
              let r3 := ngx_rtmp_hls_copy 3 r2.cur
              if r3.rc ≠ NGX_OK then ⟨NGX_ERROR, out2, 2⟩
              else
                let out11 := out2 ++ [0x00, 0x00, 0x00, 0x01, ctx.avc_profile % 256,
                  ctx.avc_compat % 256, ctx.avc_level % 256, 0xff, 0xe1]
                avc_nal_loop cap ctx.avc_nal_bytes (chain_bytes c).length r3.cur out11 0

/-- The scratch chain `sps` after a successful synthesis: one buffer holding
the synthesized bytes (what follows them in the scratch array is not
modelled). -/
def sps_chain (out : List Nat) : ngx_chain_t :=
  { buf := { data := out, spare := [] }, next := [] }

/-! ## The bit reader (ngx_rtmp_bitop) -/

/-- Modelled from the spec: ngx_rtmp_bit_reader_t (ngx_rtmp_bitop.h, not among
the sources), a bounded bit cursor over the bytes `[pos, last)`: `pos` counts
the bits consumed and `err` is the end-of-data condition. -/
structure ngx_rtmp_bit_reader_t where
  data : List Nat
  pos : Nat
  err : Bool
deriving DecidableEq, Repr

/-- Modelled from the spec: ngx_rtmp_bit_init_reader. -/
def ngx_rtmp_bit_init_reader (data : List Nat) : ngx_rtmp_bit_reader_t :=
  { data := data, pos := 0, err := false }

/-- Bit `i` of a byte string, most significant bit of each byte first. -/
def bit_at (data : List Nat) (i : Nat) : Nat :=
  (data.getD (i / 8) 0 / 2 ^ (7 - i % 8)) % 2

/-- The number spelled by the `n` bits that start at bit `pos`. -/
def bits_value (data : List Nat) (pos : Nat) : Nat → Nat
  | 0 => 0
  | n + 1 => 2 * bits_value data pos n + bit_at data (pos + n)

abbrev BitM := StateM ngx_rtmp_bit_reader_t

/-- Modelled from the spec: ngx_rtmp_bit_read(br, n) (ngx_rtmp_bitop.c, not
among the sources). It returns the next `n` bits as a `uint64_t`, most
significant first. Reading past the end of the buffer does not touch memory
beyond it: the reader records the end-of-data condition in `err`, stays at the
end, and the call, whose C callers use its result as a number without testing
the condition, yields 0. -/
def ngx_rtmp_bit_read (n : Nat) : BitM Nat := fun br =>
  if br.pos + n ≤ 8 * br.data.length then
    (bits_value br.data br.pos n % NGX_UINT_MOD, { br with pos := br.pos + n })
  else
    (0, { br with pos := 8 * br.data.length, err := true })

/-- Modelled from the spec: the macro ngx_rtmp_bit_read_8. -/
def ngx_rtmp_bit_read_8 : BitM Nat := do
  let v ← ngx_rtmp_bit_read 8
  return v % 256

/-- Modelled from the spec: the macro ngx_rtmp_bit_read_16. -/
def ngx_rtmp_bit_read_16 : BitM Nat := do
  let v ← ngx_rtmp_bit_read 16
  return v % 65536

/-- Modelled from the spec: the macro ngx_rtmp_bit_read_32. -/
def ngx_rtmp_bit_read_32 : BitM Nat := do
  let v ← ngx_rtmp_bit_read 32
  return v % 4294967296

/-- Modelled from the spec: the zero-counting loop of ngx_rtmp_bit_read_golomb:
read one bit at a time until a 1 bit or the end of data. Each round that goes
on has consumed a bit, so a `fuel` above the number of unread bits is never
used up. -/
def golomb_zeros : Nat → Nat → BitM Nat
  | 0, n => pure n
  | fuel + 1, n => do
    let b ← ngx_rtmp_bit_read 1
    let br ← get
    if b = 0 ∧ br.err = false then golomb_zeros fuel (n + 1) else pure n

/-- Modelled from the spec: ngx_rtmp_bit_read_golomb, the unsigned Exp-Golomb
read `ue(v)`: count the zero bits before the first 1, read that many more
bits, the value is `2^count - 1 + suffix` in `uint64_t` arithmetic. -/
def ngx_rtmp_bit_read_golomb : BitM Nat := do
  let br ← get
  let n ← golomb_zeros (8 * br.data.length - br.pos + 1) 0
  let v ← ngx_rtmp_bit_read n
  return (2 ^ n + v - 1) % NGX_UINT_MOD

/-- Call `ngx_rtmp_bit_read(br, 1)` `n` times, ignoring the bits. -/
def read_flags : Nat → BitM Unit
  | 0 => pure ()
  | n + 1 => do
    let _ ← ngx_rtmp_bit_read 1
    read_flags n

/-- Call `ngx_rtmp_bit_read_golomb(br)` `n` times, ignoring the values. -/
def read_golombs : Nat → BitM Unit
  | 0 => pure ()
  | n + 1 => do
    let _ ← ngx_rtmp_bit_read_golomb
    read_golombs n

/-! ## ngx_rtmp_codec_parse_aac_header (lines 589-672) -/

def aac_sample_rates : List Nat :=
  [96000, 88200, 64000, 48000, 44100, 32000, 24000, 22050,
   16000, 12000, 11025, 8000, 7350, 0, 0, 0]

/-- The object type of lines 612-615 and 641-644: 5 bits, or 6 bits + 32 when
they read 31. -/
def aac_read_object_type : BitM Nat := do
  let t ← ngx_rtmp_bit_read 5
  if t = 31 then
    let e ← ngx_rtmp_bit_read 6
    return (e + 32) % NGX_UINT_MOD
  else return t

/-- The sample rate of lines 617-622 and 634-639: a 4-bit index into
`aac_sample_rates`, or 24 explicit bits when the index is 15. -/
def aac_read_sample_rate : BitM Nat := do
  let idx ← ngx_rtmp_bit_read 4
  if idx = 15 then ngx_rtmp_bit_read 24
  else return aac_sample_rates.getD idx 0

/-- Lines 608-645. The assignments to `ctx` are gathered into one record
update per path: no read depends on a field of `ctx`, and `aac_profile` is
read back only as the object type `t` just stored. -/
def aac_decode (ctx : ngx_rtmp_codec_ctx_t) : BitM ngx_rtmp_codec_ctx_t := do
  let _ ← ngx_rtmp_bit_read 16
  let t ← aac_read_object_type
  let sr ← aac_read_sample_rate
  let cc ← ngx_rtmp_bit_read 4
  if t = 5 ∨ t = 29 then
    let sr2 ← aac_read_sample_rate
    let t2 ← aac_read_object_type
    return { ctx with aac_profile := t2, sample_rate := sr2, aac_chan_conf := cc,
                      aac_ps := if t = 29 then 1 else ctx.aac_ps, aac_sbr := 1 }
  else
    return { ctx with aac_profile := t, sample_rate := sr, aac_chan_conf := cc }

def ngx_rtmp_codec_parse_aac_header (ctx : ngx_rtmp_codec_ctx_t) (c : ngx_chain_t) :
    ngx_rtmp_codec_ctx_t :=
  (aac_decode ctx (ngx_rtmp_bit_init_reader c.buf.data)).1

/-! ## ngx_rtmp_codec_parse_avc_header (lines 675-851) -/

/-- Subtraction of `ngx_uint_t` values, wrapping modulo 2^64. -/
def usub (a b : Nat) : Nat :=
  (a % NGX_UINT_MOD + NGX_UINT_MOD - b % NGX_UINT_MOD) % NGX_UINT_MOD

/-- The local variables of ngx_rtmp_codec_parse_avc_header that the SPS decode
of lines 717-838 leaves for the final computation: `width` and `height` are
pic_width_in_mbs_minus1 and pic_height_in_map_units_minus1. -/
structure sps_fields where
  num_ref_frames : Nat
  width : Nat
  height : Nat
  frame_mbs_only : Nat
  crop_left : Nat
  crop_right : Nat
  crop_top : Nat
  crop_bottom : Nat
deriving DecidableEq, Repr

/-- Lines 732-765, read for the high profiles only. -/
def sps_high_profile : BitM Unit := do
  let cf_idc ← ngx_rtmp_bit_read_golomb
  (if cf_idc = 3 then read_flags 1 else pure ())
  let _ ← ngx_rtmp_bit_read_golomb
  let _ ← ngx_rtmp_bit_read_golomb
  let _ ← ngx_rtmp_bit_read 1
  let present ← ngx_rtmp_bit_read 1
  if present ≠ 0 then read_flags (if cf_idc ≠ 3 then 8 else 12) else pure ()

/-- Lines 771-798, the switch on pic_order_cnt_type. -/
def sps_pic_order : BitM Unit := do
  let t ← ngx_rtmp_bit_read_golomb
  if t = 0 then
    read_golombs 1
  else if t = 1 then
    let _ ← ngx_rtmp_bit_read 1
    let _ ← ngx_rtmp_bit_read_golomb
    let _ ← ngx_rtmp_bit_read_golomb
    let num_ref_frames ← ngx_rtmp_bit_read_golomb
    read_golombs num_ref_frames
  else pure ()

/-- Lines 716-838: the SPS fields after the NAL header byte. -/
def sps_decode : BitM sps_fields := do
  let profile_idc ← ngx_rtmp_bit_read 8
  let _ ← ngx_rtmp_bit_read 8
  let _ ← ngx_rtmp_bit_read 8
  let _ ← ngx_rtmp_bit_read_golomb
  (if profile_idc = 100 ∨ profile_idc = 110 ∨ profile_idc = 122 ∨ profile_idc = 244
      ∨ profile_idc = 44 ∨ profile_idc = 83 ∨ profile_idc = 86 ∨ profile_idc = 118 then
    sps_high_profile
  else pure ())
  let _ ← ngx_rtmp_bit_read_golomb
  sps_pic_order
  let num_ref_frames ← ngx_rtmp_bit_read_golomb
  let _ ← ngx_rtmp_bit_read 1
  let width ← ngx_rtmp_bit_read_golomb
  let height ← ngx_rtmp_bit_read_golomb
  let frame_mbs_only ← ngx_rtmp_bit_read 1
  (if frame_mbs_only = 0 then read_flags 1 else pure ())
  let _ ← ngx_rtmp_bit_read 1
  let cropping ← ngx_rtmp_bit_read 1
  if cropping ≠ 0 then
    let crop_left ← ngx_rtmp_bit_read_golomb
    let crop_right ← ngx_rtmp_bit_read_golomb
    let crop_top ← ngx_rtmp_bit_read_golomb
    let crop_bottom ← ngx_rtmp_bit_read_golomb
    return ⟨num_ref_frames, width, height, frame_mbs_only,
      crop_left, crop_right, crop_top, crop_bottom⟩
  else
    return ⟨num_ref_frames, width, height, frame_mbs_only, 0, 0, 0, 0⟩

/-- Line 840: `(width + 1) * 16 - (crop_left + crop_right) * 2` in `ngx_uint_t`
arithmetic. -/
def avc_width (f : sps_fields) : Nat :=
  usub ((f.width + 1) * 16) ((f.crop_left + f.crop_right) * 2)

/-- Lines 841-842: `(2 - frame_mbs_only) * (height + 1) * 16 -
(crop_top + crop_bottom) * 2` in `ngx_uint_t` arithmetic. -/
def avc_height (f : sps_fields) : Nat :=
  usub (usub 2 f.frame_mbs_only * (f.height + 1) * 16) ((f.crop_top + f.crop_bottom) * 2)

/-- Lines 690-842. The four assignments of lines 694-699 are gathered into one
record update, and so are the three of lines 801-842: no read depends on a
field of `ctx`. -/
def avc_decode (ctx : ngx_rtmp_codec_ctx_t) : BitM ngx_rtmp_codec_ctx_t := do
  let _ ← ngx_rtmp_bit_read 48
  let p ← ngx_rtmp_bit_read_8
  let c ← ngx_rtmp_bit_read_8
  let l ← ngx_rtmp_bit_read_8
  let nb ← ngx_rtmp_bit_read_8
  let ctx := { ctx with avc_profile := p, avc_compat := c, avc_level := l,
                        avc_nal_bytes := (nb &&& 0x03) + 1 }
  let nnals ← ngx_rtmp_bit_read_8
  if nnals &&& 0x1f = 0 then return ctx
  else
    let _ ← ngx_rtmp_bit_read 16
    let t ← ngx_rtmp_bit_read_8
    if t ≠ 0x67 then return ctx
    else
      let f ← sps_decode
      return { ctx with avc_ref_frames := f.num_ref_frames,
                        width := avc_width f, height := avc_height f }

def ngx_rtmp_codec_parse_avc_header (ctx : ngx_rtmp_codec_ctx_t) (c : ngx_chain_t) :
    ngx_rtmp_codec_ctx_t :=
  (avc_decode ctx (ngx_rtmp_bit_init_reader c.buf.data)).1

/-! ## ngx_rtmp_codec_parse_hevc_header (lines 855-940) -/

/-- Lines 923-928: for each NAL of an array read its 16-bit length and skip
that many bytes. -/
def hevc_nals : Nat → BitM Unit
  | 0 => pure ()
  | n + 1 => do
    let nnall ← ngx_rtmp_bit_read_16
    let _ ← ngx_rtmp_bit_read (nnall * 8)
    hevc_nals n

/-- Lines 918-929: walk the parameter-set arrays; nothing is stored. -/
def hevc_arrays : Nat → BitM Unit
  | 0 => pure ()
  | n + 1 => do
    let _ ← ngx_rtmp_bit_read_8
    let nnal ← ngx_rtmp_bit_read_16
    hevc_nals nnal
    hevc_arrays n

/-- Lines 871-929. The assignments to `ctx` are gathered into one record
update: no read depends on a field of `ctx` and the function has no early
return, so a field is stored whether or not its read ran past the end. -/
def hevc_decode (ctx : ngx_rtmp_codec_ctx_t) : BitM ngx_rtmp_codec_ctx_t := do
  let _ ← ngx_rtmp_bit_read 48
  let p ← ngx_rtmp_bit_read_8
  let c ← ngx_rtmp_bit_read_32
  let _ ← ngx_rtmp_bit_read 48
  let l ← ngx_rtmp_bit_read_8
  let _ ← ngx_rtmp_bit_read 48
  let fr ← ngx_rtmp_bit_read_16
  let rf ← ngx_rtmp_bit_read 2
  let _ ← ngx_rtmp_bit_read 4
  let nb ← ngx_rtmp_bit_read 2
  let narrs ← ngx_rtmp_bit_read_8
  hevc_arrays narrs
  return { ctx with avc_profile := (p &&& 0x1f) >>> 5, avc_compat := c, avc_level := l,
                    frame_rate := fr, avc_ref_frames := rf,
                    avc_nal_bytes := (nb + 1) % NGX_UINT_MOD }

def ngx_rtmp_codec_parse_hevc_header (ctx : ngx_rtmp_codec_ctx_t) (c : ngx_chain_t) :
    ngx_rtmp_codec_ctx_t :=
  (hevc_decode ctx (ngx_rtmp_bit_init_reader c.buf.data)).1

/-! ## ngx_rtmp_codec_parse_avc_header_compat and ngx_rtmp_codec_av
(lines 460-581) -/

/-- Lines 460-477, called with non-NULL `in`, `*in` and `sps`: the context
after the call and the chain `*in` points to after it. -/
def ngx_rtmp_codec_parse_avc_header_compat (cap : Nat) (ctx : ngx_rtmp_codec_ctx_t)
    (c : ngx_chain_t) : ngx_rtmp_codec_ctx_t × ngx_chain_t :=
  let r := ngx_rtmp_codec_parse_avc_header_in_keyframe cap (some ctx) c
  if r.rc ≠ NGX_OK then (ctx, c)
  else (ngx_rtmp_codec_parse_avc_header ctx (sps_chain r.out), sps_chain r.out)

def sample_rates : List Nat := [5512, 11025, 22050, 44100]

/-- Lines 512-525: the fields taken from the tag byte `fmt`. -/
def av_save_codec (ctx : ngx_rtmp_codec_ctx_t) (h_type fmt : Nat) : ngx_rtmp_codec_ctx_t :=
  if h_type = NGX_RTMP_MSG_AUDIO_TYPE then
    let ctx := { ctx with audio_codec_id := (fmt &&& 0xf0) >>> 4,
                          audio_channels := (fmt &&& 0x01) + 1,
                          sample_size := if fmt &&& 0x02 ≠ 0 then 2 else 1 }
    if ctx.sample_rate = 0 then
      { ctx with sample_rate := sample_rates.getD ((fmt &&& 0x0c) >>> 2) 0 }
    else ctx
  else { ctx with video_codec_id := fmt &&& 0x0f }

/-- Lines 548-580: parse the header and cache the chain `in` then points to. -/
def av_save_header (cap : Nat) (ctx : ngx_rtmp_codec_ctx_t) (h_type seq_header_type : Nat)
    (c : ngx_chain_t) : ngx_rtmp_codec_ctx_t :=
  if h_type = NGX_RTMP_MSG_AUDIO_TYPE then
    if ctx.audio_codec_id = NGX_RTMP_AUDIO_AAC then
      let ctx := ngx_rtmp_codec_parse_aac_header ctx c
      { ctx with aac_header := ngx_rtmp_append_shared_bufs c }
    else ctx
  else
    let r : ngx_rtmp_codec_ctx_t × ngx_chain_t × Bool :=
      if ctx.video_codec_id = NGX_RTMP_VIDEO_H264 then
        if seq_header_type = NGX_RTMP_CODEC_COMBO_SEQ_HEADER then
          let q := ngx_rtmp_codec_parse_avc_header_compat cap ctx c
          (q.1, q.2, true)
        else (ngx_rtmp_codec_parse_avc_header ctx c, c, true)
      else (ctx, c, false)
    let r : ngx_rtmp_codec_ctx_t × ngx_chain_t × Bool :=
      if r.1.video_codec_id = NGX_RTMP_VIDEO_H265 then
        (ngx_rtmp_codec_parse_hevc_header r.1 r.2.1, r.2.1, true)
      else r
    if r.2.2 then { r.1 with avc_header := ngx_rtmp_append_shared_bufs r.2.1 }
    else r.1

/-- Lines 480-581. `s` is the session's codec context (`none` when it has not
been created yet), `h_type` is `h->type`; the result is the context after the
call. The function returns NGX_OK on every path. -/
def ngx_rtmp_codec_av (cap : Nat) (s : Option ngx_rtmp_codec_ctx_t) (h_type : Nat)
    (c : ngx_chain_t) : Option ngx_rtmp_codec_ctx_t :=
  if h_type ≠ NGX_RTMP_MSG_AUDIO_TYPE ∧ h_type ≠ NGX_RTMP_MSG_VIDEO then s
  else
    let ctx := s.getD ctx_zero
    if c.buf.data.length < 1 then some ctx
    else
      let fmt := buf_at c.buf 0
      let ctx := av_save_codec ctx h_type fmt
      if c.buf.data.length < 3 then some ctx
      else
        let seq_header_type := ngx_rtmp_get_codec_header_type (some ctx) h_type c
        if seq_header_type = NGX_RTMP_CODEC_NON_SEQ_HEADER then some ctx
        else some (av_save_header cap ctx h_type seq_header_type c)

/-! ## Metadata (lines 161-172 and 968-1298) -/

/-- Lines 161-172: `version` is the static counter before the call; the result
is the value returned and the counter after the call. The `do ... while`
body runs a second time only when the increment wrapped to 0. -/
def ngx_rtmp_codec_get_next_version (version : Nat) : Nat × Nat :=
  let v := (version + 1) % NGX_UINT_MOD
  if v = 0 then ((v + 1) % NGX_UINT_MOD, (v + 1) % NGX_UINT_MOD) else (v, v)

/-- The static struct `v` of ngx_rtmp_codec_meta_data; a `double` slot holds a
rational number. -/
structure meta_values where
  width : ℚ
  height : ℚ
  duration : ℚ
  frame_rate : ℚ
  video_data_rate : ℚ
  video_codec_id_n : ℚ
  video_codec_id_s : List Nat
  audio_data_rate : ℚ
  audio_codec_id_n : ℚ
  audio_codec_id_s : List Nat
  profile : List Nat
  level : List Nat

/-- Lines 1248-1252: `v` zeroed, then the audio codec slot set to -1. -/
def meta_values_init : meta_values :=
  { width := 0, height := 0, duration := 0, frame_rate := 0, video_data_rate := 0,
    video_codec_id_n := 0, video_codec_id_s := List.replicate 32 0,
    audio_data_rate := 0, audio_codec_id_n := -1,
    audio_codec_id_s := List.replicate 32 0,
    profile := List.replicate 32 0, level := List.replicate 32 0 }

/-- Modelled from the spec: an incoming `@setDataFrame`/`onMetaData` message as
the structured-record decoder sees it: whether it decodes, and the value of
each field it carries (`none` for a field that is absent). -/
structure amf_meta_message where
  decodes : Bool
  width : Option ℚ
  height : Option ℚ
  duration : Option ℚ
  frame_rate : Option ℚ
  video_data_rate : Option ℚ
  video_codec_id_n : Option ℚ
  video_codec_id_s : Option (List Nat)
  audio_data_rate : Option ℚ
  audio_codec_id_n : Option ℚ
  audio_codec_id_s : Option (List Nat)
  profile : Option (List Nat)
  level : Option (List Nat)

/-- Modelled from the spec: ngx_rtmp_receive_amf (the structured-record
decoder, not among the sources) reading into the slots of `v`: a field the
message carries is stored into its slot, any other slot keeps the value it
had; `none` is a decode error. -/
def ngx_rtmp_receive_amf (m : amf_meta_message) (v : meta_values) : Option meta_values :=
  if m.decodes then
    some { width := m.width.getD v.width,
           height := m.height.getD v.height,
           duration := m.duration.getD v.duration,
           frame_rate := m.frame_rate.getD v.frame_rate,
           video_data_rate := m.video_data_rate.getD v.video_data_rate,
           video_codec_id_n := m.video_codec_id_n.getD v.video_codec_id_n,
           video_codec_id_s := m.video_codec_id_s.getD v.video_codec_id_s,
           audio_data_rate := m.audio_data_rate.getD v.audio_data_rate,
           audio_codec_id_n := m.audio_codec_id_n.getD v.audio_codec_id_n,
           audio_codec_id_s := m.audio_codec_id_s.getD v.audio_codec_id_s,
           profile := m.profile.getD v.profile,
           level := m.level.getD v.level }
  else none

/-- The conversion `(ngx_uint_t) x` of a `double`: the integer part of a
non-negative value (C leaves the conversion of a negative or too large value
undefined; the embedding gives 0 and the value modulo 2^64). -/
def double_to_uint (x : ℚ) : Nat :=
  (Int.toNat (Int.floor x)) % NGX_UINT_MOD

/-- Lines 1116-1134: the message header is prepared and the next version is
assigned; the result is the context and the static counter after the call. -/
def ngx_rtmp_codec_prepare_meta (ctx : ngx_rtmp_codec_ctx_t) (version : Nat) :
    Int × ngx_rtmp_codec_ctx_t × Nat :=
  let r := ngx_rtmp_codec_get_next_version version
  (NGX_OK, { ctx with meta_version := r.1 }, r.2)

/-- Lines 968-1088 on an existing context. `append_amf` is the serializer of
the structured-record engine (not among the sources): the bytes it produces
for the context, or `none` when it fails. -/
def ngx_rtmp_codec_reconstruct_meta (append_amf : ngx_rtmp_codec_ctx_t → Option (List Nat))
    (ctx : ngx_rtmp_codec_ctx_t) (version : Nat) : Int × ngx_rtmp_codec_ctx_t × Nat :=
  let ctx := { ctx with meta := none }
  match append_amf ctx with
  | none => (NGX_ERROR, ctx, version)
  | some bytes => ngx_rtmp_codec_prepare_meta { ctx with meta := some bytes } version

/-- Lines 1091-1113. -/
def ngx_rtmp_codec_copy_meta (ctx : ngx_rtmp_codec_ctx_t) (c : ngx_chain_t) (version : Nat) :
    Int × ngx_rtmp_codec_ctx_t × Nat :=
  let ctx := { ctx with meta := ngx_rtmp_append_shared_bufs c }
  match ctx.meta with
  | none => (NGX_ERROR, ctx, version)
  | some _ => ngx_rtmp_codec_prepare_meta ctx version

/-- Lines 1265-1276: the decoded slots stored into the context. -/
def meta_store (ctx : ngx_rtmp_codec_ctx_t) (v : meta_values) : ngx_rtmp_codec_ctx_t :=
  { ctx with
    width := double_to_uint v.width,
    height := double_to_uint v.height,
    duration := double_to_uint v.duration,
    frame_rate := double_to_uint v.frame_rate,
    video_data_rate := double_to_uint v.video_data_rate,
    video_codec_id := double_to_uint v.video_codec_id_n,
    audio_data_rate := double_to_uint v.audio_data_rate,
    audio_codec_id :=
      if v.audio_codec_id_n = -1 then 0
      else if v.audio_codec_id_n = 0 then NGX_RTMP_AUDIO_UNCOMPRESSED
      else double_to_uint v.audio_codec_id_n,
    profile := v.profile,
    level := v.level }

/-- Lines 1137-1298. `cacf_meta` is the `meta` directive of the application,
`s` the session's codec context (`none` when it has not been created yet),
`version` the static counter, `m` the incoming message and `c` its chain; the
result is the return code, the context and the counter after the call. -/
def ngx_rtmp_codec_meta_data (cacf_meta : Nat)
    (append_amf : ngx_rtmp_codec_ctx_t → Option (List Nat))
    (s : Option ngx_rtmp_codec_ctx_t) (version : Nat) (m : amf_meta_message)
    (c : ngx_chain_t) : Int × ngx_rtmp_codec_ctx_t × Nat :=
  let ctx := s.getD ctx_zero
  match ngx_rtmp_receive_amf m meta_values_init with
  | none => (NGX_OK, ctx, version)
  | some v =>
    let ctx := meta_store ctx v
    if cacf_meta = NGX_RTMP_CODEC_META_ON then
      ngx_rtmp_codec_reconstruct_meta append_amf ctx version
    else if cacf_meta = NGX_RTMP_CODEC_META_COPY then
      ngx_rtmp_codec_copy_meta ctx c version
    else (NGX_OK, ctx, version)

/-! ## Proof devices -/

/-- Two readers at the same bit position, neither past the end of its data,
the second over data that extends the first's and holds the same bytes from
the current byte on. -/
def agree (r1 r2 : ngx_rtmp_bit_reader_t) : Prop :=
  r1.pos = r2.pos ∧ r1.err = false ∧ r2.err = false ∧ r1.data.length ≤ r2.data.length ∧
  ∀ k, r1.pos / 8 ≤ k → k < r1.data.length → r1.data.getD k 0 = r2.data.getD k 0

/-- A read program that keeps the end-of-data condition once it is set, and
that, when it ends without that condition, returns the same value and stays
in step on any reader that agrees with the first. -/
def Stable {α : Type} (m : BitM α) : Prop :=
  (∀ r, r.err = true → (m r).2.err = true) ∧
  (∀ r1 r2, agree r1 r2 → (m r1).2.err = false →
    (m r1).1 = (m r2).1 ∧ agree (m r1).2 (m r2).2)

/-- The reader after a sequence of reads of the given widths. -/
def reads_state : List Nat → ngx_rtmp_bit_reader_t → ngx_rtmp_bit_reader_t
  | [], r => r
  | n :: ns, r => reads_state ns (ngx_rtmp_bit_read n r).2

/-- A context of an H.264 stream whose length prefix is known to be 4 bytes,
with nothing cached yet. -/
def ctx_h264 : ngx_rtmp_codec_ctx_t :=
  { ctx_zero with video_codec_id := 7, avc_nal_bytes := 4 }

/-- A context that holds the fields of an earlier 640x480 H.264 header. -/
def ctx_640x480 : ngx_rtmp_codec_ctx_t :=
  { ctx_zero with video_codec_id := 7, avc_profile := 66, avc_compat := 192, avc_level := 30,
                  avc_nal_bytes := 4, avc_ref_frames := 1, width := 640, height := 480 }

/-- An AVC sequence header whose SPS (baseline profile, level 3.0) has
num_ref_frames = 1, pic_width_in_mbs_minus1 = 10,
pic_height_in_map_units_minus1 = 10, frame_mbs_only_flag = 1 and no cropping:
after the NAL header 0x67 and the three profile bytes come the bits
1 1 011 010 0 0001011 0001011 1 1 0. -/
def avc_header_176 : List Nat :=
  [0x17, 0, 0, 0, 0, 1, 0x42, 0x00, 0x1e, 0xff, 0xe1, 0x00, 0x08,
   0x67, 0x42, 0x00, 0x1e, 0xda, 0x0b, 0x17, 0x90]

/-- The same header with the cropping flag set and crop_left = crop_right = 1,
crop_top = crop_bottom = 0: the SPS bits end 1 1 010 010 1 1. -/
def avc_header_172 : List Nat :=
  [0x17, 0, 0, 0, 0, 1, 0x42, 0x00, 0x1e, 0xff, 0xe1, 0x00, 0x09,
   0x67, 0x42, 0x00, 0x1e, 0xda, 0x0b, 0x17, 0xd2, 0xd0]

/-- The 4-byte big-endian length prefix of a NAL unit of `n` bytes. -/
def be32 (n : Nat) : List Nat :=
  [n / 2 ^ 24 % 256, n / 2 ^ 16 % 256, n / 2 ^ 8 % 256, n % 256]

/-- A 2-byte big-endian length, as a configuration record carries it. -/
def be16 (n : Nat) : List Nat :=
  [n / 2 ^ 8 % 256, n % 256]

/-- The key-frame payload of claim C3: tag byte `b0`, packet type 1, three
composition-time bytes, then the SPS unit and the PPS unit, each behind its
4-byte big-endian length. -/
def idr_sps_pps_payload (b0 c0 c1 c2 : Nat) (sps pps : List Nat) : List Nat :=
  [b0, 0x01, c0, c1, c2] ++ (be32 sps.length ++ sps) ++ (be32 pps.length ++ pps)

/-- The natively sent AVC sequence header of claim C3: the video tag of a
sequence header, then the AVCDecoderConfigurationRecord with profile bytes
`p`, `c`, `l`, 4-byte lengths, one SPS and one PPS. -/
def native_avc_header (p c l : Nat) (sps pps : List Nat) : List Nat :=
  [0x17, 0x00, 0x00, 0x00, 0x00, 0x01, p, c, l, 0xff, 0xe1] ++
    (be16 sps.length ++ sps ++ [0x01] ++ be16 pps.length ++ pps)

/-- The buffer the synthesizer builds from an SPS unit followed by a PPS unit:
the 11-byte preamble with the profile bytes of the context, then each unit
behind its 2-byte length and closed with the byte 0x01. -/
def synthesized_header (ctx : ngx_rtmp_codec_ctx_t) (sps pps : List Nat) : List Nat :=
  [0x17, 0x00, 0x00, 0x00, 0x00, 0x01, ctx.avc_profile % 256, ctx.avc_compat % 256,
    ctx.avc_level % 256, 0xff, 0xe1] ++
    (be16 sps.length ++ sps ++ [0x01] ++ be16 pps.length ++ pps) ++ [0x01]

/-- The bytes a cursor has not read yet. -/
def cursor_bytes : chain_cursor → List Nat
  | none => []
  | some (cur, rest) => cur ++ (rest.map (fun b => b.data)).flatten

/-- A cursor as ngx_rtmp_hls_copy leaves it: NULL, or inside a buffer with at
least one unread byte. -/
def cursor_norm : chain_cursor → Prop
  | none => True
  | some (cur, _) => cur ≠ []

/-- Two cursors, as ngx_rtmp_hls_copy leaves them, with the same unread
bytes. -/
def cursor_equiv (k1 k2 : chain_cursor) : Prop :=
  cursor_norm k1 ∧ cursor_norm k2 ∧ cursor_bytes k1 = cursor_bytes k2

/-- A key frame sent in two buffers, the first of which ends inside the length
prefix of its SPS unit: SPS 67 42 00 1e da 0b 17 90, PPS 68 ce 38 80. -/
def idr_two_buffers : ngx_chain_t :=
  { buf := { data := [0x17, 0x01, 0, 0, 0, 0, 0], spare := [] },
    next := [{ data := [0, 8, 0x67, 0x42, 0x00, 0x1e, 0xda, 0x0b, 0x17, 0x90,
                        0, 0, 0, 4, 0x68, 0xce, 0x38, 0x80], spare := [] }] }

/-! ## ngx_rtmp_codec_disconnect (lines 175-205) -/

/-- Lines 175-205: the return code and the session's context after the call
(`none` when the session has no codec context). Releasing a chain with
ngx_rtmp_free_shared_chain leaves nothing in the context but the pointer that
is then set to NULL. -/
def ngx_rtmp_codec_disconnect (s : Option ngx_rtmp_codec_ctx_t) :
    Int × Option ngx_rtmp_codec_ctx_t :=
  match s with
  | none => (NGX_OK, none)
  | some ctx =>
    let ctx := if ctx.avc_header.isSome then { ctx with avc_header := none } else ctx
    let ctx := if ctx.aac_header.isSome then { ctx with aac_header := none } else ctx
    let ctx := if ctx.meta.isSome then { ctx with meta := none } else ctx
    (NGX_OK, some ctx)

/-- The values returned by `n` successive calls of
ngx_rtmp_codec_get_next_version, the first of them on the counter value
`version`. -/
def version_calls : Nat → Nat → List Nat
  | 0, _ => []
  | n + 1, version =>
    (ngx_rtmp_codec_get_next_version version).1 ::
      version_calls n (ngx_rtmp_codec_get_next_version version).2

/-- The invariant of the spec on the NAL length size of a context: it is one of
1, 2, 3, 4. -/
def nal_length_size_valid (ctx : ngx_rtmp_codec_ctx_t) : Prop :=
  1 ≤ ctx.avc_nal_bytes ∧ ctx.avc_nal_bytes ≤ 4

instance (ctx : ngx_rtmp_codec_ctx_t) : Decidable (nal_length_size_valid ctx) := by
  unfold nal_length_size_valid
  infer_instance

/-! ## The AudioSpecificConfig fields in the words of the spec -/

/-- The 13 sampling frequencies the spec lists. -/
def aac_frequencies_spec : List Nat :=
  [96000, 88200, 64000, 48000, 44100, 32000, 24000, 22050, 16000, 12000, 11025, 8000, 7350]

/-- The leading fields of an AudioSpecificConfig: object type, sample rate,
channel configuration, and the bit position behind them. -/
structure aac_config_spec where
  object_type : Nat
  sample_rate : Nat
  chan_conf : Nat
  bits_end : Nat
deriving DecidableEq, Repr

/-- The decode of claim C20, written after the spec and not after the code:
from bit 16 on, a 5-bit object type, replaced by the next 6 bits + 32 when it
is 31; a 4-bit frequency index i, the sample rate being the next 24 bits when
i = 15, the i-th of the 13 listed frequencies when i ≤ 12, and 0 when i is 13
or 14; then the 4-bit channel configuration. -/
def aac_config_of (data : List Nat) : aac_config_spec :=
  let t5 := bits_value data 16 5
  let t := if t5 = 31 then bits_value data 21 6 + 32 else t5
  let p := if t5 = 31 then 27 else 21
  let i := bits_value data p 4
  let sr := if i = 15 then bits_value data (p + 4) 24
    else if i ≤ 12 then aac_frequencies_spec.getD i 0 else 0
  let q := if i = 15 then p + 28 else p + 4
  { object_type := t, sample_rate := sr, chan_conf := bits_value data q 4, bits_end := q + 4 }

/-! ## The ue(v) code in the words of the spec -/

/-- The `k` low bits of `s`, most significant first. -/
def bits_of (s : Nat) : Nat → List Nat
  | 0 => []
  | k + 1 => bits_of (s / 2) k ++ [s % 2]

/-- The standard ue(v) code with `k` leading zero bits and the suffix `s`, as a
list of bits: `k` zero bits, a 1 bit, then the `k` bits of `s`. It is the code
of v = 2^k - 1 + s. -/
def ue_code (k s : Nat) : List Nat :=
  List.replicate k 0 ++ 1 :: bits_of s k

/-- The byte spelled by the first 8 bits of a list, most significant first
(a missing bit counts as 0). -/
def byte_of_bits (bits : List Nat) : Nat :=
  128 * bits.getD 0 0 + 64 * bits.getD 1 0 + 32 * bits.getD 2 0 + 16 * bits.getD 3 0 +
    8 * bits.getD 4 0 + 4 * bits.getD 5 0 + 2 * bits.getD 6 0 + bits.getD 7 0

/-- The first `n` bytes of a bit string. -/
def pack_bits : Nat → List Nat → List Nat
  | 0, _ => []
  | n + 1, bits => byte_of_bits bits :: pack_bits n (bits.drop 8)

/-- A bit string as bytes, the last byte filled up with zero bits. -/
def bits_to_bytes (bits : List Nat) : List Nat :=
  pack_bits ((bits.length + 7) / 8) bits

/-! ## The output of the synthesizer in the words of the spec -/

/-- The big-endian spelling of `len` in `n` bytes. -/
def be_bytes : Nat → Nat → List Nat
  | 0, _ => []
  | n + 1, len => be_bytes n (len / 256) ++ [len % 256]

/-- The body of a key frame that is exactly a sequence of NAL units, each
behind its length spelled in `n` bytes. -/
def nal_units_body (n : Nat) : List (List Nat) → List Nat
  | [] => []
  | u :: us => be_bytes n u.length ++ u ++ nal_units_body n us

/-- A unit of length L ≥ 1 whose first byte, masked with 0x1f, is 7 (SPS) or
8 (PPS). -/
def is_parameter_set (u : List Nat) : Prop :=
  1 ≤ u.length ∧ (u.getD 0 0 &&& 0x1f = 7 ∨ u.getD 0 0 &&& 0x1f = 8)

instance (u : List Nat) : Decidable (is_parameter_set u) := by
  unfold is_parameter_set
  infer_instance

/-- What claim C19 lets the units contribute to the output, in input order: a
parameter set of L bytes gives the two bytes L >> 8 and L & 0xff (each as one
byte), its L bytes and one byte 0x01; any other unit gives nothing. -/
def synthesized_units : List (List Nat) → List Nat
  | [] => []
  | u :: us =>
    (if is_parameter_set u then
      [(u.length >>> 8) % 256, u.length &&& 0xff] ++ u ++ [0x01]
    else []) ++ synthesized_units us

/-- The 11-byte preamble of claim C19, with the profile, compatibility and
level of the context each as one byte. -/
def synthesized_preamble (ctx : ngx_rtmp_codec_ctx_t) : List Nat :=
  [0x17, 0x00, 0x00, 0x00, 0x00, 0x01, ctx.avc_profile % 256, ctx.avc_compat % 256,
    ctx.avc_level % 256, 0xff, 0xe1]

/-- The nested fields of an AudioSpecificConfig whose first object type is 5
or 29, and the bit position behind them. -/
structure aac_nested_spec where
  sample_rate : Nat
  object_type : Nat
  bits_end : Nat
deriving DecidableEq, Repr

/-- The second part of the decode, in the words of claim C21 and not after the
code: behind the channel configuration a second 4-bit frequency index, with
the same rule as the first (24 explicit bits when it is 15), then a second
5-bit object type (the next 6 bits + 32 when it is 31). -/
def aac_nested_of (data : List Nat) : aac_nested_spec :=
  let p := (aac_config_of data).bits_end
  let i := bits_value data p 4
  let sr := if i = 15 then bits_value data (p + 4) 24
    else if i ≤ 12 then aac_frequencies_spec.getD i 0 else 0
  let q := if i = 15 then p + 28 else p + 4
  let t5 := bits_value data q 5
  { sample_rate := sr,
    object_type := if t5 = 31 then bits_value data (q + 5) 6 + 32 else t5,
    bits_end := if t5 = 31 then q + 11 else q + 5 }

/-! ## The loop of the synthesizer, pass by pass -/

/-- One pass through the body of the `while (in)` loop, lines 376-453, entered
with `in` not NULL: the function returns (`Sum.inl`, with what it leaves
behind), or the loop goes round (`Sum.inr`, with the cursor, the output and
has_sps that the next test of `in` finds). -/
def avc_nal_body (cap nal_bytes : Nat) (c : List Nat × List ngx_buf_t) (out : List Nat)
    (has_sps : Nat) : keyframe_result ⊕ (chain_cursor × List Nat × Nat) :=
  let r1 := ngx_rtmp_hls_copy nal_bytes (some c)
  if r1.rc ≠ NGX_OK then Sum.inl ⟨NGX_OK, out, out.length⟩
  else
    let len := be_value r1.bytes % UINT32_MOD
    if len = 0 then Sum.inr (r1.cur, out, has_sps)
    else
      let r2 := ngx_rtmp_hls_copy 1 r1.cur
      if r2.rc ≠ NGX_OK then Sum.inl ⟨NGX_OK, out, out.length⟩
      else
        let src_nal_type := r2.bytes.getD 0 0
        let nal_type := src_nal_type &&& 0x1f
        if ¬ (NGX_RTMP_NALU_SPS ≤ nal_type ∧ nal_type ≤ NGX_RTMP_NALU_PPS) then
          let r3 := ngx_rtmp_hls_copy (len - 1) r2.cur
          if r3.rc ≠ NGX_OK then Sum.inl ⟨NGX_ERROR, out, out.length⟩
          else Sum.inr (r3.cur, out, has_sps)
        else
          let left := (cap + NGX_UINT_MOD - out.length % NGX_UINT_MOD) % NGX_UINT_MOD
          if (len + 3) % UINT32_MOD > left then Sum.inl ⟨NGX_ERROR, out, out.length⟩
          else
            let out1 := out ++ [(len >>> 8) % 256, len &&& 0xff, src_nal_type]
            let r4 := ngx_rtmp_hls_copy (len - 1) r2.cur
            if r4.rc ≠ NGX_OK then
              Sum.inl ⟨NGX_ERROR, out1, out1.length + r4.bytes.length⟩
            else Sum.inr (r4.cur, out1 ++ r4.bytes ++ [0x01], 1)

/-- The number of passes through the loop body that lines 375-454 make from a
cursor, `none` when `fuel` passes do not bring the loop to its end. -/
def avc_nal_passes (cap nal_bytes : Nat) :
    Nat → chain_cursor → List Nat → Nat → Option Nat
  | _, none, _, _ => some 0
  | 0, some _, _, _ => none
  | fuel + 1, some c, out, has_sps =>
    match avc_nal_body cap nal_bytes c out has_sps with
    | Sum.inl _ => some 1
    | Sum.inr (k, o, s) => (avc_nal_passes cap nal_bytes fuel k o s).map (fun n => n + 1)

/-! # Lemmas and theorems -/

attribute [irreducible] ngx_rtmp_bit_read

/-! ## Lemmas on the bit reader -/

theorem bitm_bind_apply {α β : Type} (m : BitM α) (f : α → BitM β)
    (r : ngx_rtmp_bit_reader_t) : (m >>= f) r = f (m r).1 (m r).2 := rfl

theorem bitm_pure_apply {α : Type} (a : α) (r : ngx_rtmp_bit_reader_t) :
    (pure a : BitM α) r = (a, r) := rfl

theorem bitm_get_apply (r : ngx_rtmp_bit_reader_t) :
    (get : BitM ngx_rtmp_bit_reader_t) r = (r, r) := rfl

theorem bit_read_in_range (n : Nat) (br : ngx_rtmp_bit_reader_t)
    (h : br.pos + n ≤ 8 * br.data.length) :
    ngx_rtmp_bit_read n br =
      (bits_value br.data br.pos n % NGX_UINT_MOD, { br with pos := br.pos + n }) := by
  simp [ngx_rtmp_bit_read, h]

theorem bit_read_past_end (n : Nat) (br : ngx_rtmp_bit_reader_t)
    (h : 8 * br.data.length < br.pos + n) :
    ngx_rtmp_bit_read n br = (0, { br with pos := 8 * br.data.length, err := true }) := by
  simp [ngx_rtmp_bit_read, Nat.not_le.mpr h]

theorem byte_bits (x : Nat) :
    2 * (2 * (2 * (2 * (2 * (2 * (2 * (x / 128 % 2) + x / 64 % 2) + x / 32 % 2) + x / 16 % 2)
      + x / 8 % 2) + x / 4 % 2) + x / 2 % 2) + x % 2 = x % 256 := by
  have h7 : x % 256 = 128 * (x / 128 % 2) + x % 128 := by omega
  have h6 : x % 128 = 64 * (x / 64 % 2) + x % 64 := by omega
  have h5 : x % 64 = 32 * (x / 32 % 2) + x % 32 := by omega
  have h4 : x % 32 = 16 * (x / 16 % 2) + x % 16 := by omega
  have h3 : x % 16 = 8 * (x / 8 % 2) + x % 8 := by omega
  have h2 : x % 8 = 4 * (x / 4 % 2) + x % 4 := by omega
  have h1 : x % 4 = 2 * (x / 2 % 2) + x % 2 := by omega
  rw [h7, h6, h5, h4, h3, h2, h1]
  ring

theorem bits_value_byte (data : List Nat) (k : Nat) :
    bits_value data (8 * k) 8 = data.getD k 0 % 256 := by
  have e0 : (8 * k + 0) / 8 = k := by omega
  have e1 : (8 * k + 1) / 8 = k := by omega
  have e2 : (8 * k + 2) / 8 = k := by omega
  have e3 : (8 * k + 3) / 8 = k := by omega
  have e4 : (8 * k + 4) / 8 = k := by omega
  have e5 : (8 * k + 5) / 8 = k := by omega
  have e6 : (8 * k + 6) / 8 = k := by omega
  have e7 : (8 * k + 7) / 8 = k := by omega
  have m0 : (8 * k + 0) % 8 = 0 := by omega
  have m1 : (8 * k + 1) % 8 = 1 := by omega
  have m2 : (8 * k + 2) % 8 = 2 := by omega
  have m3 : (8 * k + 3) % 8 = 3 := by omega
  have m4 : (8 * k + 4) % 8 = 4 := by omega
  have m5 : (8 * k + 5) % 8 = 5 := by omega
  have m6 : (8 * k + 6) % 8 = 6 := by omega
  have m7 : (8 * k + 7) % 8 = 7 := by omega
  simp only [bits_value, bit_at, e0, e1, e2, e3, e4, e5, e6, e7, m0, m1, m2, m3, m4, m5, m6, m7]
  have hb := byte_bits (data.getD k 0)
  norm_num at hb ⊢
  exact hb

/-- Reading a whole byte at a byte boundary inside the data. -/
theorem bit_read_8_aligned (data : List Nat) (k : Nat) (e : Bool) (h : k < data.length) :
    ngx_rtmp_bit_read_8 ⟨data, 8 * k, e⟩ = (data.getD k 0 % 256, ⟨data, 8 * k + 8, e⟩) := by
  have hr : (⟨data, 8 * k, e⟩ : ngx_rtmp_bit_reader_t).pos + 8
      ≤ 8 * (⟨data, 8 * k, e⟩ : ngx_rtmp_bit_reader_t).data.length := by
    show 8 * k + 8 ≤ 8 * data.length
    omega
  simp only [ngx_rtmp_bit_read_8, bitm_bind_apply, bit_read_in_range 8 _ hr, bitm_pure_apply,
    bits_value_byte, NGX_UINT_MOD]
  congr 1
  omega

/-! ## Reading the same bits from two buffers -/

theorem bits_value_congr (d1 d2 : List Nat) (pos : Nat) :
    ∀ n, (∀ i, pos ≤ i → i < pos + n → bit_at d1 i = bit_at d2 i) →
      bits_value d1 pos n = bits_value d2 pos n
  | 0, _ => rfl
  | n + 1, h => by
    simp only [bits_value]
    rw [bits_value_congr d1 d2 pos n (fun i h1 h2 => h i h1 (by omega)),
      h (pos + n) (by omega) (by omega)]

theorem stable_pure {α : Type} (a : α) : Stable (pure a : BitM α) :=
  ⟨fun _ h => h, fun _ _ h _ => ⟨rfl, h⟩⟩

theorem stable_bind {α β : Type} {m : BitM α} {f : α → BitM β}
    (hm : Stable m) (hf : ∀ a, Stable (f a)) : Stable (m >>= f) := by
  constructor
  · intro r h
    rw [bitm_bind_apply]
    exact (hf _).1 _ (hm.1 r h)
  · intro r1 r2 hag hne
    rw [bitm_bind_apply] at hne ⊢
    rw [bitm_bind_apply]
    have h1 : (m r1).2.err = false := by
      by_contra hc
      have ht : (m r1).2.err = true := by simpa using hc
      have := (hf (m r1).1).1 _ ht
      rw [this] at hne
      exact Bool.noConfusion hne
    obtain ⟨hv, ha⟩ := hm.2 r1 r2 hag h1
    rw [← hv]
    exact (hf (m r1).1).2 _ _ ha hne

theorem stable_ite {α : Type} (c : Prop) [Decidable c] {t e : BitM α}
    (ht : Stable t) (he : Stable e) : Stable (if c then t else e) := by
  split
  · exact ht
  · exact he

theorem stable_read (n : Nat) : Stable (ngx_rtmp_bit_read n) := by
  constructor
  · intro r h
    unfold ngx_rtmp_bit_read
    split <;> simp [h]
  · intro r1 r2 hag hne
    obtain ⟨hp, he1, he2, hl, hb⟩ := hag
    by_cases h : r1.pos + n ≤ 8 * r1.data.length
    · have h2 : r2.pos + n ≤ 8 * r2.data.length := by omega
      rw [bit_read_in_range n r1 h, bit_read_in_range n r2 h2]
      refine ⟨?_, ?_, he1, he2, hl, ?_⟩
      · show bits_value r1.data r1.pos n % NGX_UINT_MOD = bits_value r2.data r2.pos n % NGX_UINT_MOD
        rw [← hp]
        congr 1
        apply bits_value_congr
        intro i hi1 hi2
        unfold bit_at
        rw [hb (i / 8) (Nat.div_le_div_right hi1) (by omega)]
      · show r1.pos + n = r2.pos + n
        omega
      · intro k hk1 hk2
        exact hb k (le_trans (Nat.div_le_div_right (Nat.le_add_right _ _)) hk1) hk2
    · rw [bit_read_past_end n r1 (by omega)] at hne
      exact Bool.noConfusion hne

theorem stable_read_8 : Stable ngx_rtmp_bit_read_8 :=
  stable_bind (stable_read 8) (fun _ => stable_pure _)

theorem stable_read_flags : ∀ n, Stable (read_flags n)
  | 0 => stable_pure _
  | n + 1 => stable_bind (stable_read 1) (fun _ => stable_read_flags n)

theorem golomb_zeros_sticky : ∀ (fuel n : Nat) (r : ngx_rtmp_bit_reader_t),
    r.err = true → (golomb_zeros fuel n r).2.err = true
  | 0, _, _, h => h
  | fuel + 1, n, r, h => by
    have h1 := (stable_read 1).1 r h
    simp only [golomb_zeros, bitm_bind_apply, bitm_get_apply]
    rw [if_neg (by simp [h1])]
    exact h1

theorem golomb_zeros_agree : ∀ (fuel1 fuel2 n : Nat) (r1 r2 : ngx_rtmp_bit_reader_t),
    agree r1 r2 → 8 * r1.data.length - r1.pos < fuel1 → fuel1 ≤ fuel2 →
    (golomb_zeros fuel1 n r1).2.err = false →
    (golomb_zeros fuel1 n r1).1 = (golomb_zeros fuel2 n r2).1 ∧
      agree (golomb_zeros fuel1 n r1).2 (golomb_zeros fuel2 n r2).2
  | 0, _, _, _, _, _, hf, _, _ => absurd hf (Nat.not_lt_zero _)
  | fuel1 + 1, 0, _, _, _, _, _, hle, _ => absurd hle (Nat.not_succ_le_zero _)
  | fuel1 + 1, fuel2 + 1, n, r1, r2, hag, hf, hle, hne => by
    simp only [golomb_zeros, bitm_bind_apply, bitm_get_apply] at hne ⊢
    by_cases hin : r1.pos + 1 ≤ 8 * r1.data.length
    · have hr1 : (ngx_rtmp_bit_read 1 r1).2.err = false := by
        rw [bit_read_in_range 1 r1 hin]
        exact hag.2.1
      obtain ⟨hv, ha⟩ := (stable_read 1).2 r1 r2 hag hr1
      have hr2 : (ngx_rtmp_bit_read 1 r2).2.err = false := ha.2.2.1
      by_cases hb : (ngx_rtmp_bit_read 1 r1).1 = 0
      · have hb2 : (ngx_rtmp_bit_read 1 r2).1 = 0 := by rw [← hv]; exact hb
        rw [if_pos ⟨hb, hr1⟩] at hne ⊢
        rw [if_pos ⟨hb2, hr2⟩]
        apply golomb_zeros_agree fuel1 fuel2 (n + 1) _ _ ha _ (by omega) hne
        rw [bit_read_in_range 1 r1 hin]
        show 8 * r1.data.length - (r1.pos + 1) < fuel1
        omega
      · have hb2 : ¬ (ngx_rtmp_bit_read 1 r2).1 = 0 := by rw [← hv]; exact hb
        rw [if_neg (fun h => hb h.1)]
        rw [if_neg (fun h => hb2 h.1)]
        exact ⟨rfl, ha⟩
    · have hr1 : (ngx_rtmp_bit_read 1 r1).2.err = true := by
        rw [bit_read_past_end 1 r1 (by omega)]
      rw [if_neg (by simp [hr1])] at hne
      exact Bool.noConfusion (hr1.symm.trans hne)

theorem stable_golomb : Stable ngx_rtmp_bit_read_golomb := by
  constructor
  · intro r h
    simp only [ngx_rtmp_bit_read_golomb, bitm_bind_apply, bitm_get_apply, bitm_pure_apply]
    exact (stable_read _).1 _ (golomb_zeros_sticky _ _ _ h)
  · intro r1 r2 hag hne
    simp only [ngx_rtmp_bit_read_golomb, bitm_bind_apply, bitm_get_apply, bitm_pure_apply]
      at hne ⊢
    have hz : (golomb_zeros (8 * r1.data.length - r1.pos + 1) 0 r1).2.err = false := by
      by_contra hc
      have ht : (golomb_zeros (8 * r1.data.length - r1.pos + 1) 0 r1).2.err = true := by
        simpa using hc
      have := (stable_read (golomb_zeros (8 * r1.data.length - r1.pos + 1) 0 r1).1).1 _ ht
      rw [this] at hne
      exact Bool.noConfusion hne
    have hfuel : 8 * r1.data.length - r1.pos + 1 ≤ 8 * r2.data.length - r2.pos + 1 := by
      have := hag.1
      have := hag.2.2.2.1
      omega
    obtain ⟨hv, ha⟩ := golomb_zeros_agree _ _ 0 r1 r2 hag (Nat.lt_succ_self _) hfuel hz
    rw [← hv]
    obtain ⟨hv2, ha2⟩ := (stable_read _).2 _ _ ha hne
    exact ⟨by rw [hv2], ha2⟩

theorem stable_read_golombs : ∀ n, Stable (read_golombs n)
  | 0 => stable_pure _
  | n + 1 => stable_bind stable_golomb (fun _ => stable_read_golombs n)


theorem stable_sps_high_profile : Stable sps_high_profile := by
  unfold sps_high_profile
  repeat (first
    | with_reducible exact stable_golomb | with_reducible exact stable_read _
    | with_reducible exact stable_read_flags _ | with_reducible exact stable_pure _
    | intro _ | with_reducible apply stable_ite | with_reducible apply stable_bind | dsimp only)

theorem stable_sps_pic_order : Stable sps_pic_order := by
  unfold sps_pic_order
  repeat (first
    | with_reducible exact stable_golomb | with_reducible exact stable_read _
    | with_reducible exact stable_read_golombs _ | with_reducible exact stable_pure _
    | intro _ | with_reducible apply stable_ite | with_reducible apply stable_bind | dsimp only)

theorem stable_sps_decode : Stable sps_decode := by
  unfold sps_decode
  repeat (first
    | with_reducible exact stable_golomb | with_reducible exact stable_read _
    | with_reducible exact stable_read_flags _ | with_reducible exact stable_pure _
    | with_reducible exact stable_sps_high_profile | with_reducible exact stable_sps_pic_order
    | intro _ | with_reducible apply stable_ite | with_reducible apply stable_bind | dsimp only)


/-! ## Lemmas on ngx_rtmp_codec_parse_avc_header -/

theorem bit_read_8_val (r : ngx_rtmp_bit_reader_t) :
    (ngx_rtmp_bit_read_8 r).1 = (ngx_rtmp_bit_read 8 r).1 % 256 := rfl

theorem bit_read_8_state (r : ngx_rtmp_bit_reader_t) :
    (ngx_rtmp_bit_read_8 r).2 = (ngx_rtmp_bit_read 8 r).2 := rfl

theorem bit_read_data (n : Nat) (r : ngx_rtmp_bit_reader_t) :
    (ngx_rtmp_bit_read n r).2.data = r.data := by
  unfold ngx_rtmp_bit_read
  split <;> rfl

theorem bit_read_at (data : List Nat) (p n : Nat) (e : Bool) (h : p + n ≤ 8 * data.length) :
    ngx_rtmp_bit_read n ⟨data, p, e⟩ = (bits_value data p n % NGX_UINT_MOD, ⟨data, p + n, e⟩) :=
  bit_read_in_range n ⟨data, p, e⟩ h

theorem reads_state_data : ∀ (ns : List Nat) (r : ngx_rtmp_bit_reader_t),
    (reads_state ns r).data = r.data
  | [], _ => rfl
  | n :: ns, r => by rw [reads_state, reads_state_data ns, bit_read_data]

/-- After reads of positive widths the cursor is where the widths add up to,
or at the end of the data. -/
theorem reads_state_pos : ∀ (ns : List Nat) (r : ngx_rtmp_bit_reader_t) (k : Nat),
    (∀ n ∈ ns, 0 < n) → (r.pos = k ∨ r.pos = 8 * r.data.length) →
    (reads_state ns r).pos = k + ns.sum ∨ (reads_state ns r).pos = 8 * r.data.length
  | [], r, k, _, h => by simpa [reads_state] using h
  | n :: ns, r, k, hn, h => by
    have hpos : 0 < n := hn n (List.mem_cons_self _ _)
    have step : (ngx_rtmp_bit_read n r).2.pos = k + n ∨
        (ngx_rtmp_bit_read n r).2.pos = 8 * (ngx_rtmp_bit_read n r).2.data.length := by
      rw [bit_read_data]
      by_cases hin : r.pos + n ≤ 8 * r.data.length
      · rw [bit_read_in_range n r hin]
        rcases h with h | h
        · left; show r.pos + n = k + n; omega
        · exfalso; omega
      · rw [bit_read_past_end n r (by omega)]
        right; rfl
    have ih := reads_state_pos ns (ngx_rtmp_bit_read n r).2 (k + n)
      (fun m hm => hn m (List.mem_cons_of_mem _ hm)) step
    rw [bit_read_data] at ih
    rw [reads_state, List.sum_cons]
    rcases ih with ih | ih
    · left; omega
    · right; exact ih

theorem bit_read_past_end_val (n : Nat) (r : ngx_rtmp_bit_reader_t)
    (h : 8 * r.data.length < r.pos + n) : (ngx_rtmp_bit_read n r).1 = 0 := by
  rw [bit_read_past_end n r h]

/-- The SPS NAL header byte of a payload shorter than 14 bytes reads as 0. -/
theorem avc_short_nal_type (data : List Nat) (h : data.length < 14) :
    (ngx_rtmp_bit_read 8
      (reads_state [48, 8, 8, 8, 8, 8, 16] (ngx_rtmp_bit_init_reader data))).1 = 0 := by
  apply bit_read_past_end_val
  have hp := reads_state_pos [48, 8, 8, 8, 8, 8, 16] (ngx_rtmp_bit_init_reader data) 0
    (by decide) (Or.inl rfl)
  rw [reads_state_data]
  have hd : (ngx_rtmp_bit_init_reader data).data = data := rfl
  rw [hd] at hp ⊢
  have hs : [48, 8, 8, 8, 8, 8, 16].sum = 104 := by decide
  rw [hs] at hp
  omega

theorem avc_decode_short (ctx : ngx_rtmp_codec_ctx_t) (data : List Nat)
    (h : data.length < 14) :
    (avc_decode ctx (ngx_rtmp_bit_init_reader data)).1.avc_ref_frames = ctx.avc_ref_frames ∧
    (avc_decode ctx (ngx_rtmp_bit_init_reader data)).1.width = ctx.width ∧
    (avc_decode ctx (ngx_rtmp_bit_init_reader data)).1.height = ctx.height := by
  have ht := avc_short_nal_type data h
  simp only [reads_state] at ht
  unfold avc_decode
  simp only [bitm_bind_apply, bit_read_8_val, bit_read_8_state]
  split
  · exact ⟨rfl, rfl, rfl⟩
  · simp only [bitm_bind_apply, bit_read_8_val, bit_read_8_state]
    split
    · exact ⟨rfl, rfl, rfl⟩
    · rename_i h1 h2
      rw [ht] at h2
      exact absurd (by decide) h2


/-- A payload of at least 14 bytes with a non-zero SPS count and the SPS NAL
header 0x67 at byte 13: the fields are those of the SPS decode that starts at
bit 112. -/
theorem avc_decode_long (ctx : ngx_rtmp_codec_ctx_t) (data : List Nat)
    (h14 : 14 ≤ data.length) (hn : data.getD 10 0 % 256 &&& 0x1f ≠ 0)
    (ht : data.getD 13 0 % 256 = 0x67) :
    avc_decode ctx (ngx_rtmp_bit_init_reader data) =
      ({ ctx with
          avc_profile := data.getD 6 0 % 256,
          avc_compat := data.getD 7 0 % 256,
          avc_level := data.getD 8 0 % 256,
          avc_nal_bytes := (data.getD 9 0 % 256 &&& 0x03) + 1,
          avc_ref_frames := (sps_decode ⟨data, 112, false⟩).1.num_ref_frames,
          width := avc_width (sps_decode ⟨data, 112, false⟩).1,
          height := avc_height (sps_decode ⟨data, 112, false⟩).1 },
       (sps_decode ⟨data, 112, false⟩).2) := by
  have e0 : ngx_rtmp_bit_read 48 ⟨data, 0, false⟩ =
      (bits_value data 0 48 % NGX_UINT_MOD, ⟨data, 48, false⟩) :=
    bit_read_at data 0 48 false (by omega)
  have e1 : ngx_rtmp_bit_read_8 ⟨data, 48, false⟩ = (data.getD 6 0 % 256, ⟨data, 56, false⟩) :=
    bit_read_8_aligned data 6 false (by omega)
  have e2 : ngx_rtmp_bit_read_8 ⟨data, 56, false⟩ = (data.getD 7 0 % 256, ⟨data, 64, false⟩) :=
    bit_read_8_aligned data 7 false (by omega)
  have e3 : ngx_rtmp_bit_read_8 ⟨data, 64, false⟩ = (data.getD 8 0 % 256, ⟨data, 72, false⟩) :=
    bit_read_8_aligned data 8 false (by omega)
  have e4 : ngx_rtmp_bit_read_8 ⟨data, 72, false⟩ = (data.getD 9 0 % 256, ⟨data, 80, false⟩) :=
    bit_read_8_aligned data 9 false (by omega)
  have e5 : ngx_rtmp_bit_read_8 ⟨data, 80, false⟩ = (data.getD 10 0 % 256, ⟨data, 88, false⟩) :=
    bit_read_8_aligned data 10 false (by omega)
  have e6 : ngx_rtmp_bit_read 16 ⟨data, 88, false⟩ =
      (bits_value data 88 16 % NGX_UINT_MOD, ⟨data, 104, false⟩) :=
    bit_read_at data 88 16 false (by omega)
  have e7 : ngx_rtmp_bit_read_8 ⟨data, 104, false⟩ = (data.getD 13 0 % 256, ⟨data, 112, false⟩) :=
    bit_read_8_aligned data 13 false (by omega)
  unfold avc_decode
  simp only [bitm_bind_apply, ngx_rtmp_bit_init_reader, e0, e1, e2, e3, e4, e5]
  rw [if_neg hn]
  simp only [bitm_bind_apply, e6, e7]
  rw [if_neg (by rw [ht]; exact fun h => h rfl)]
  simp only [bitm_bind_apply, bitm_pure_apply]


/-! From here on the decoders are unfolded by name only (`unfold`, `simp`), so
that no unification runs them. -/

attribute [irreducible] sps_decode avc_decode

/-- The stored width, height and reference-frame count of a payload that
passes the checks in front of the SPS, and the reader it leaves. -/
theorem parse_avc_long (ctx : ngx_rtmp_codec_ctx_t) (c : ngx_chain_t)
    (h14 : 14 ≤ c.buf.data.length) (hn : c.buf.data.getD 10 0 % 256 &&& 0x1f ≠ 0)
    (ht : c.buf.data.getD 13 0 % 256 = 0x67) :
    (ngx_rtmp_codec_parse_avc_header ctx c).width =
      avc_width (sps_decode ⟨c.buf.data, 112, false⟩).1 ∧
    (ngx_rtmp_codec_parse_avc_header ctx c).height =
      avc_height (sps_decode ⟨c.buf.data, 112, false⟩).1 ∧
    (ngx_rtmp_codec_parse_avc_header ctx c).avc_ref_frames =
      (sps_decode ⟨c.buf.data, 112, false⟩).1.num_ref_frames ∧
    (avc_decode ctx (ngx_rtmp_bit_init_reader c.buf.data)).2 =
      (sps_decode ⟨c.buf.data, 112, false⟩).2 := by
  unfold ngx_rtmp_codec_parse_avc_header
  rw [avc_decode_long ctx c.buf.data h14 hn ht]
  exact ⟨rfl, rfl, rfl, rfl⟩


/-! ## C6: the AAC example of the spec -/

theorem aac_example_reads (t0 t1 : Nat) (rest : List Nat) :
    ngx_rtmp_bit_read 16 ⟨t0 :: t1 :: 0x14 :: 0x90 :: rest, 0, false⟩ =
      (bits_value (t0 :: t1 :: 0x14 :: 0x90 :: rest) 0 16 % NGX_UINT_MOD,
        ⟨t0 :: t1 :: 0x14 :: 0x90 :: rest, 16, false⟩) ∧
    ngx_rtmp_bit_read 5 ⟨t0 :: t1 :: 0x14 :: 0x90 :: rest, 16, false⟩ =
      (2, ⟨t0 :: t1 :: 0x14 :: 0x90 :: rest, 21, false⟩) ∧
    ngx_rtmp_bit_read 4 ⟨t0 :: t1 :: 0x14 :: 0x90 :: rest, 21, false⟩ =
      (9, ⟨t0 :: t1 :: 0x14 :: 0x90 :: rest, 25, false⟩) ∧
    ngx_rtmp_bit_read 4 ⟨t0 :: t1 :: 0x14 :: 0x90 :: rest, 25, false⟩ =
      (2, ⟨t0 :: t1 :: 0x14 :: 0x90 :: rest, 29, false⟩) := by
  have hl : (t0 :: t1 :: 0x14 :: 0x90 :: rest).length = rest.length + 4 := by simp
  refine ⟨?_, ?_, ?_, ?_⟩
  · exact bit_read_at _ 0 16 false (by rw [hl]; omega)
  · rw [bit_read_at _ 16 5 false (by rw [hl]; omega)]
    simp +decide [bits_value, bit_at, NGX_UINT_MOD]
  · rw [bit_read_at _ 21 4 false (by rw [hl]; omega)]
    simp +decide [bits_value, bit_at, NGX_UINT_MOD]
  · rw [bit_read_at _ 25 4 false (by rw [hl]; omega)]
    simp +decide [bits_value, bit_at, NGX_UINT_MOD]

/-- C6, as the code has it: for an AAC sequence-header payload whose
AudioSpecificConfig bits (after the 16-bit tag prefix) begin 0001010010010000,
ngx_rtmp_codec_parse_aac_header stores aac_profile = 2, sample_rate = 12000
(the 4 bits after the object type are 1001, frequency index 9) and
aac_chan_conf = 2, whatever the context held before, the two tag bytes and the
bytes that follow are. -/
theorem C6_aac_example_amended (ctx : ngx_rtmp_codec_ctx_t) (t0 t1 : Nat)
    (rest spare : List Nat) (next : List ngx_buf_t) :
    (ngx_rtmp_codec_parse_aac_header ctx
      { buf := { data := t0 :: t1 :: 0x14 :: 0x90 :: rest, spare := spare },
        next := next }).aac_profile = 2 ∧
    (ngx_rtmp_codec_parse_aac_header ctx
      { buf := { data := t0 :: t1 :: 0x14 :: 0x90 :: rest, spare := spare },
        next := next }).sample_rate = 12000 ∧
    (ngx_rtmp_codec_parse_aac_header ctx
      { buf := { data := t0 :: t1 :: 0x14 :: 0x90 :: rest, spare := spare },
        next := next }).aac_chan_conf = 2 := by
  obtain ⟨e0, e1, e2, e3⟩ := aac_example_reads t0 t1 rest
  simp +decide only [ngx_rtmp_codec_parse_aac_header, aac_decode, aac_read_object_type,
    aac_read_sample_rate, bitm_bind_apply, bitm_pure_apply, ngx_rtmp_bit_init_reader,
    e0, e1, e2, e3, aac_sample_rates, if_false, List.getD_cons_succ, List.getD_cons_zero,
    and_self, reduceIte, or_self]

/-- C6, the claim as stated fails: on the payload af 00 14 90, whose
AudioSpecificConfig bits are 0001010010010000, the stored sample rate is 12000
and not 44100. -/
theorem C6_aac_example_counterexample :
    (ngx_rtmp_codec_parse_aac_header ctx_zero (chain_of [0xaf, 0x00, 0x14, 0x90])).aac_profile = 2 ∧
    (ngx_rtmp_codec_parse_aac_header ctx_zero (chain_of [0xaf, 0x00, 0x14, 0x90])).sample_rate
      = 12000 ∧
    (ngx_rtmp_codec_parse_aac_header ctx_zero (chain_of [0xaf, 0x00, 0x14, 0x90])).sample_rate
      ≠ 44100 := by
  decide!


/-! ## The classifier -/

/-- The condition under which lines 251-272 return the combined-header value
for a payload that is not a sequence header: the guard of line 236 admits a
payload of exactly 5 + avc_nal_bytes bytes, for which `buf_at` is the byte
behind the payload. -/
theorem header_type_combo_iff (s : Option ngx_rtmp_codec_ctx_t) (h_type : Nat) (c : ngx_chain_t)
    (hseq : ngx_rtmp_is_codec_header c = false) :
    ngx_rtmp_get_codec_header_type s h_type c = NGX_RTMP_CODEC_COMBO_SEQ_HEADER ↔
      h_type = NGX_RTMP_MSG_VIDEO ∧ ∃ ctx, s = some ctx ∧ ctx.avc_nal_bytes ≠ 0 ∧
        ngx_rtmp_get_video_frame_type c = NGX_RTMP_VIDEO_KEY_FRAME ∧
        5 + ctx.avc_nal_bytes ≤ c.buf.data.length ∧
        ctx.video_codec_id = NGX_RTMP_VIDEO_H264 ∧
        NGX_RTMP_NALU_SPS ≤ buf_at c.buf (5 + ctx.avc_nal_bytes) &&& 0x1f ∧
        buf_at c.buf (5 + ctx.avc_nal_bytes) &&& 0x1f ≤ NGX_RTMP_NALU_PPS := by
  unfold ngx_rtmp_get_codec_header_type
  rw [hseq]
  simp only [Bool.false_eq_true, if_false]
  constructor
  · intro h
    split at h
    · rename_i hc
      refine ⟨hc.1, ?_⟩
      have h2 := hc.2
      unfold ngx_rtmp_codec_video_is_combined_nals at h2
      cases s with
      | none =>
        have hne : NGX_ERROR ≠ NGX_OK := by decide
        exact absurd h2 hne
      | some ctx =>
        refine ⟨ctx, rfl, ?_⟩
        have hne : NGX_ERROR ≠ NGX_OK := by decide
        simp only at h2
        split at h2
        · exact absurd h2 hne
        · split at h2
          · exact absurd h2 hne
          · split at h2
            · split at h2
              · split at h2
                · rename_i h1 h3 h4 h5 h6
                  exact ⟨h1, not_not.mp h3, h4, h5, h6.1, h6.2⟩
                · exact absurd h2 hne
              · exact absurd h2 hne
            · exact absurd h2 hne
    · exact absurd h (by decide)
  · rintro ⟨hv, ctx, rfl, h1, h3, h4, h5, h6, h7⟩
    have : ngx_rtmp_codec_video_is_combined_nals c (some ctx) = NGX_OK := by
      unfold ngx_rtmp_codec_video_is_combined_nals
      simp only [if_neg h1, if_neg (not_not.mpr h3), if_pos h4, if_pos h5, if_pos (And.intro h6 h7)]
    rw [if_pos ⟨hv, this⟩]

/-- For an audio message lines 251-272 never return the combined-header
value. -/
theorem header_type_audio (s : Option ngx_rtmp_codec_ctx_t) (c : ngx_chain_t) :
    ngx_rtmp_get_codec_header_type s NGX_RTMP_MSG_AUDIO_TYPE c
      ≠ NGX_RTMP_CODEC_COMBO_SEQ_HEADER := by
  unfold ngx_rtmp_get_codec_header_type
  split
  · decide
  · rw [if_neg (fun h => absurd h.1 (by decide))]
    decide

/-! ## C1, C7, C8: the combined-NAL path on short key frames -/

/-- C7, the off-by-one of line 236: a 9-byte key-frame payload that is not a
sequence header has no byte at offset 5 + 4, yet the guard `pos + 5 + n <= last`
lets line 237 read the byte stored at `last`, and with 0x67 there the payload
is classified as a combined header. -/
theorem C7_classifier_reads_past_payload :
    ngx_rtmp_is_codec_header
      { buf := { data := [0x17, 0x01, 0, 0, 0, 0, 0, 0, 2], spare := [0x67] }, next := [] }
      = false ∧
    ¬ (5 + ctx_h264.avc_nal_bytes <
      (ngx_buf_t.mk [0x17, 0x01, 0, 0, 0, 0, 0, 0, 2] [0x67]).data.length) ∧
    ngx_rtmp_get_codec_header_type (some ctx_h264) NGX_RTMP_MSG_VIDEO
      { buf := { data := [0x17, 0x01, 0, 0, 0, 0, 0, 0, 2], spare := [0x67] }, next := [] }
      = NGX_RTMP_CODEC_COMBO_SEQ_HEADER := by
  decide

/-- C8, the early return of line 377: on a packet-type-1 key frame with one
stray byte after the composition time the length prefix cannot be read, and
the synthesizer returns NGX_OK with nothing but the 11-byte preamble in the
output. -/
theorem C8_ok_without_parameter_set (cap : Nat) :
    ngx_rtmp_codec_parse_avc_header_in_keyframe cap (some ctx_h264)
        (chain_of [0x17, 0x01, 0, 0, 0, 0]) =
      ⟨NGX_OK, [0x17, 0, 0, 0, 0, 1, 0, 0, 0, 0xff, 0xe1], 11⟩ := by
  simp +decide [ngx_rtmp_codec_parse_avc_header_in_keyframe, ctx_h264, ctx_zero, chain_of,
    chain_bytes, ngx_rtmp_hls_copy, hls_copy_loop, hls_skip, avc_nal_loop, NGX_OK, NGX_ERROR,
    NGX_RTMP_VIDEO_H264, NGX_RTMP_FRAME_IDR, NGX_RTMP_NALU_SPS]

set_option maxRecDepth 8000 in
theorem keyframe_truncated_sps_fails (cap : Nat) :
    (ngx_rtmp_codec_parse_avc_header_in_keyframe cap (some ctx_h264)
        (chain_of [0x17, 0x01, 0, 0, 0, 0, 0, 0, 2, 0x67])).rc = NGX_ERROR := by
  simp +decide [ngx_rtmp_codec_parse_avc_header_in_keyframe, ctx_h264, ctx_zero, chain_of,
    chain_bytes, ngx_rtmp_hls_copy, hls_copy_loop, hls_skip, avc_nal_loop, NGX_OK, NGX_ERROR,
    NGX_RTMP_VIDEO_H264, NGX_RTMP_FRAME_IDR, NGX_RTMP_NALU_SPS, NGX_RTMP_NALU_PPS, be_value,
    UINT32_MOD, NGX_UINT_MOD]
  split <;> rfl

/-- The video branch of lines 548-580 for H.264 in the combined path, when
the synthesizer does not return NGX_OK: `in` still points to the incoming
chain, which is cached as avc_header. -/
theorem av_save_header_combo_failed (cap : Nat) (ctx : ngx_rtmp_codec_ctx_t) (c : ngx_chain_t)
    (hv : ctx.video_codec_id = NGX_RTMP_VIDEO_H264)
    (hr : (ngx_rtmp_codec_parse_avc_header_in_keyframe cap (some ctx) c).rc ≠ NGX_OK) :
    av_save_header cap ctx NGX_RTMP_MSG_VIDEO NGX_RTMP_CODEC_COMBO_SEQ_HEADER c =
      { ctx with avc_header := some (chain_bytes c) } := by
  have h265 : ¬ ctx.video_codec_id = NGX_RTMP_VIDEO_H265 := by rw [hv]; decide
  have ha : ¬ NGX_RTMP_MSG_VIDEO = NGX_RTMP_MSG_AUDIO_TYPE := by decide
  unfold av_save_header ngx_rtmp_codec_parse_avc_header_compat
  rw [if_neg ha, if_pos hv, if_pos rfl, if_pos hr]
  simp only [h265, if_false, if_true, ngx_rtmp_append_shared_bufs]

/-- The AVC parser writes none of the fields that line 564 and the cached
buffers depend on. -/
theorem parse_avc_frame (ctx : ngx_rtmp_codec_ctx_t) (c : ngx_chain_t) :
    (ngx_rtmp_codec_parse_avc_header ctx c).video_codec_id = ctx.video_codec_id ∧
    (ngx_rtmp_codec_parse_avc_header ctx c).avc_header = ctx.avc_header ∧
    (ngx_rtmp_codec_parse_avc_header ctx c).aac_header = ctx.aac_header ∧
    (ngx_rtmp_codec_parse_avc_header ctx c).meta = ctx.meta := by
  unfold ngx_rtmp_codec_parse_avc_header avc_decode
  simp only [bitm_bind_apply]
  split
  · exact ⟨rfl, rfl, rfl, rfl⟩
  · simp only [bitm_bind_apply]
    split
    · exact ⟨rfl, rfl, rfl, rfl⟩
    · exact ⟨rfl, rfl, rfl, rfl⟩

/-- The video branch of lines 548-580 for H.264 in the combined path, when
the synthesizer returns NGX_OK: `in` points to the scratch chain, the AVC
parser runs on it and it is cached as avc_header. -/
theorem av_save_header_combo_ok (cap : Nat) (ctx : ngx_rtmp_codec_ctx_t) (c : ngx_chain_t)
    (hv : ctx.video_codec_id = NGX_RTMP_VIDEO_H264)
    (hr : (ngx_rtmp_codec_parse_avc_header_in_keyframe cap (some ctx) c).rc = NGX_OK) :
    av_save_header cap ctx NGX_RTMP_MSG_VIDEO NGX_RTMP_CODEC_COMBO_SEQ_HEADER c =
      { ngx_rtmp_codec_parse_avc_header ctx (sps_chain
          (ngx_rtmp_codec_parse_avc_header_in_keyframe cap (some ctx) c).out) with
        avc_header := some (ngx_rtmp_codec_parse_avc_header_in_keyframe cap (some ctx) c).out } := by
  have h265 : ¬ (ngx_rtmp_codec_parse_avc_header ctx (sps_chain
      (ngx_rtmp_codec_parse_avc_header_in_keyframe cap (some ctx) c).out)).video_codec_id
        = NGX_RTMP_VIDEO_H265 := by
    rw [(parse_avc_frame ctx _).1, hv]; decide
  have ha : ¬ NGX_RTMP_MSG_VIDEO = NGX_RTMP_MSG_AUDIO_TYPE := by decide
  have hr' : ¬ (ngx_rtmp_codec_parse_avc_header_in_keyframe cap (some ctx) c).rc ≠ NGX_OK :=
    not_not.mpr hr
  have hb : ∀ l : List Nat, chain_bytes (sps_chain l) = l := by
    intro l; simp [chain_bytes, sps_chain]
  unfold av_save_header ngx_rtmp_codec_parse_avc_header_compat
  rw [if_neg ha, if_pos hv, if_pos rfl, if_neg hr']
  simp only [h265, if_false, if_true, ngx_rtmp_append_shared_bufs, hb]

/-- Lines 548-580 in the combined path: whatever the synthesizer returns, the
cached avc_header is replaced, by the synthesized buffer after NGX_OK and by
the incoming key frame otherwise. -/
theorem av_save_header_combo_header (cap : Nat) (ctx : ngx_rtmp_codec_ctx_t) (c : ngx_chain_t)
    (hv : ctx.video_codec_id = NGX_RTMP_VIDEO_H264) :
    (av_save_header cap ctx NGX_RTMP_MSG_VIDEO NGX_RTMP_CODEC_COMBO_SEQ_HEADER c).avc_header =
      if (ngx_rtmp_codec_parse_avc_header_in_keyframe cap (some ctx) c).rc = NGX_OK then
        some (ngx_rtmp_codec_parse_avc_header_in_keyframe cap (some ctx) c).out
      else some (chain_bytes c) := by
  split
  · rename_i h
    rw [av_save_header_combo_ok cap ctx c hv h]
  · rename_i h
    rw [av_save_header_combo_failed cap ctx c hv h]

/-- Lines 480-581 for a video message of at least 3 bytes on an existing
context. -/
theorem codec_av_video (cap : Nat) (ctx : ngx_rtmp_codec_ctx_t) (c : ngx_chain_t)
    (hl : 3 ≤ c.buf.data.length) :
    ngx_rtmp_codec_av cap (some ctx) NGX_RTMP_MSG_VIDEO c =
      some (
        if ngx_rtmp_get_codec_header_type
            (some (av_save_codec ctx NGX_RTMP_MSG_VIDEO (buf_at c.buf 0))) NGX_RTMP_MSG_VIDEO c
            = NGX_RTMP_CODEC_NON_SEQ_HEADER then
          av_save_codec ctx NGX_RTMP_MSG_VIDEO (buf_at c.buf 0)
        else
          av_save_header cap (av_save_codec ctx NGX_RTMP_MSG_VIDEO (buf_at c.buf 0))
            NGX_RTMP_MSG_VIDEO
            (ngx_rtmp_get_codec_header_type
              (some (av_save_codec ctx NGX_RTMP_MSG_VIDEO (buf_at c.buf 0)))
              NGX_RTMP_MSG_VIDEO c) c) := by
  have h1 : ¬ (NGX_RTMP_MSG_VIDEO ≠ NGX_RTMP_MSG_AUDIO_TYPE ∧
      NGX_RTMP_MSG_VIDEO ≠ NGX_RTMP_MSG_VIDEO) := by decide
  have h2 : ¬ c.buf.data.length < 1 := by omega
  have h3 : ¬ c.buf.data.length < 3 := by omega
  unfold ngx_rtmp_codec_av
  rw [if_neg h1]
  simp only [Option.getD_some, if_neg h2, if_neg h3]
  split <;> rfl

/-- C1, the fall-through of lines 570-578: a key frame classified as a
combined header whose SPS unit is cut short makes the synthesizer return
NGX_ERROR, and ngx_rtmp_codec_av then caches the key frame itself as
avc_header, where the claim has the header unchanged (here: still NULL). -/
theorem C1_failed_synthesis_replaces_header (cap : Nat) :
    ctx_h264.avc_header = none ∧
    ngx_rtmp_get_codec_header_type (some ctx_h264) NGX_RTMP_MSG_VIDEO
      (chain_of [0x17, 0x01, 0, 0, 0, 0, 0, 0, 2, 0x67]) = NGX_RTMP_CODEC_COMBO_SEQ_HEADER ∧
    (ngx_rtmp_codec_parse_avc_header_in_keyframe cap (some ctx_h264)
      (chain_of [0x17, 0x01, 0, 0, 0, 0, 0, 0, 2, 0x67])).rc = NGX_ERROR ∧
    (ngx_rtmp_codec_av cap (some ctx_h264) NGX_RTMP_MSG_VIDEO
      (chain_of [0x17, 0x01, 0, 0, 0, 0, 0, 0, 2, 0x67])).map (fun ctx => ctx.avc_header)
      = some (some [0x17, 0x01, 0, 0, 0, 0, 0, 0, 2, 0x67]) := by
  refine ⟨rfl, by decide, keyframe_truncated_sps_fails cap, ?_⟩
  have h1 : av_save_codec ctx_h264 NGX_RTMP_MSG_VIDEO
      (buf_at (chain_of [0x17, 0x01, 0, 0, 0, 0, 0, 0, 2, 0x67]).buf 0) = ctx_h264 := by decide
  have h2 : ngx_rtmp_get_codec_header_type (some ctx_h264) NGX_RTMP_MSG_VIDEO
      (chain_of [0x17, 0x01, 0, 0, 0, 0, 0, 0, 2, 0x67]) = NGX_RTMP_CODEC_COMBO_SEQ_HEADER := by
    decide
  have h3 : (ngx_rtmp_codec_parse_avc_header_in_keyframe cap (some ctx_h264)
      (chain_of [0x17, 0x01, 0, 0, 0, 0, 0, 0, 2, 0x67])).rc ≠ NGX_OK := by
    rw [keyframe_truncated_sps_fails cap]; decide
  rw [codec_av_video cap ctx_h264 _ (by decide), h1, h2,
    if_neg (by decide), av_save_header_combo_failed cap ctx_h264 _ rfl h3]
  rfl


/-! ## C9, C10: the audio codec id of a metadata message -/

theorem double_to_uint_nat (n : Nat) (h : n < NGX_UINT_MOD) : double_to_uint (n : ℚ) = n := by
  unfold double_to_uint
  rw [Int.floor_natCast, Int.toNat_natCast, Nat.mod_eq_of_lt h]

theorem prepare_meta_audio_codec_id (ctx : ngx_rtmp_codec_ctx_t) (version : Nat) :
    (ngx_rtmp_codec_prepare_meta ctx version).2.1.audio_codec_id = ctx.audio_codec_id := rfl

theorem reconstruct_meta_audio_codec_id (append_amf : ngx_rtmp_codec_ctx_t → Option (List Nat))
    (ctx : ngx_rtmp_codec_ctx_t) (version : Nat) :
    (ngx_rtmp_codec_reconstruct_meta append_amf ctx version).2.1.audio_codec_id
      = ctx.audio_codec_id := by
  unfold ngx_rtmp_codec_reconstruct_meta
  dsimp only
  split <;> rfl

theorem copy_meta_audio_codec_id (ctx : ngx_rtmp_codec_ctx_t) (c : ngx_chain_t) (version : Nat) :
    (ngx_rtmp_codec_copy_meta ctx c version).2.1.audio_codec_id = ctx.audio_codec_id := rfl

/-- The audio codec id ngx_rtmp_codec_meta_data leaves in the context, for a
message that decodes: it is the one line 1272 computes from the numeric slot,
whatever the `meta` directive does afterwards. -/
theorem meta_data_audio_codec_id (cacf_meta : Nat)
    (append_amf : ngx_rtmp_codec_ctx_t → Option (List Nat))
    (s : Option ngx_rtmp_codec_ctx_t) (version : Nat) (m : amf_meta_message) (c : ngx_chain_t)
    (hd : m.decodes = true) :
    (ngx_rtmp_codec_meta_data cacf_meta append_amf s version m c).2.1.audio_codec_id =
      if m.audio_codec_id_n.getD (-1) = -1 then 0
      else if m.audio_codec_id_n.getD (-1) = 0 then NGX_RTMP_AUDIO_UNCOMPRESSED
      else double_to_uint (m.audio_codec_id_n.getD (-1)) := by
  unfold ngx_rtmp_codec_meta_data ngx_rtmp_receive_amf
  simp only [hd, if_true]
  split
  · rw [reconstruct_meta_audio_codec_id]; rfl
  · split
    · rw [copy_meta_audio_codec_id]; rfl
    · rfl

/-- C9, the claim as stated fails: with AAC (10) stored and a metadata message
that decodes and carries no audiocodecid, the stored audio codec id is 0 after
the call, not 10. -/
theorem C9_absent_audio_codec_id_counterexample :
    ({ ctx_zero with audio_codec_id := 10 } : ngx_rtmp_codec_ctx_t).audio_codec_id ≠ 0 ∧
    (ngx_rtmp_codec_meta_data NGX_RTMP_CODEC_META_OFF (fun _ => none)
      (some { ctx_zero with audio_codec_id := 10 }) 0
      { decodes := true, width := some 640, height := some 480, duration := none,
        frame_rate := none, video_data_rate := none, video_codec_id_n := some 7,
        video_codec_id_s := none, audio_data_rate := none, audio_codec_id_n := none,
        audio_codec_id_s := none, profile := none, level := none }
      (chain_of [])).2.1.audio_codec_id = 0 := by
  constructor
  · decide
  · rw [meta_data_audio_codec_id _ _ _ _ _ _ rfl]
    rfl

/-- C9, as the code has it: in ngx_rtmp_codec_meta_data, a successfully
decoded metadata message that carries no audiocodecid field (the numeric slot
keeps its sentinel -1) sets audio_codec_id to 0, whatever value was stored
before. -/
theorem C9_absent_audio_codec_id_amended (cacf_meta : Nat)
    (append_amf : ngx_rtmp_codec_ctx_t → Option (List Nat))
    (s : Option ngx_rtmp_codec_ctx_t) (version : Nat) (m : amf_meta_message) (c : ngx_chain_t)
    (hd : m.decodes = true) (ha : m.audio_codec_id_n = none) :
    (ngx_rtmp_codec_meta_data cacf_meta append_amf s version m c).2.1.audio_codec_id = 0 := by
  rw [meta_data_audio_codec_id _ _ _ _ _ _ hd, ha]
  rfl

theorem C9_absent_audio_codec_id_witness :
    (ngx_rtmp_codec_meta_data NGX_RTMP_CODEC_META_COPY (fun _ => none)
      (some { ctx_zero with audio_codec_id := 10 }) 7
      { decodes := true, width := some 640, height := some 480, duration := none,
        frame_rate := none, video_data_rate := none, video_codec_id_n := some 7,
        video_codec_id_s := none, audio_data_rate := none, audio_codec_id_n := none,
        audio_codec_id_s := none, profile := none, level := none }
      (chain_of [2, 0, 10])).2.1.audio_codec_id = 0 :=
  C9_absent_audio_codec_id_amended _ _ _ _ _ _ rfl rfl

/-- C10: in ngx_rtmp_codec_meta_data, a successfully decoded metadata message
with numeric audiocodecid = 0 sets audio_codec_id to NGX_RTMP_AUDIO_UNCOMPRESSED,
whose name lookup is "Uncompressed", whatever was stored before; that value
differs from the one stored for the same message without audiocodecid; and any
other supplied natural number n that fits an ngx_uint_t is stored as n. -/
theorem C10_supplied_audio_codec_id (cacf_meta : Nat)
    (append_amf : ngx_rtmp_codec_ctx_t → Option (List Nat))
    (s : Option ngx_rtmp_codec_ctx_t) (version : Nat) (m : amf_meta_message) (c : ngx_chain_t)
    (hd : m.decodes = true) :
    (m.audio_codec_id_n = some 0 →
      (ngx_rtmp_codec_meta_data cacf_meta append_amf s version m c).2.1.audio_codec_id
        = NGX_RTMP_AUDIO_UNCOMPRESSED ∧
      ngx_rtmp_get_audio_codec_name
        (ngx_rtmp_codec_meta_data cacf_meta append_amf s version m c).2.1.audio_codec_id
        = "Uncompressed" ∧
      (ngx_rtmp_codec_meta_data cacf_meta append_amf s version m c).2.1.audio_codec_id ≠
        (ngx_rtmp_codec_meta_data cacf_meta append_amf s version
          { m with audio_codec_id_n := none } c).2.1.audio_codec_id) ∧
    (∀ n : Nat, n ≠ 0 → n < NGX_UINT_MOD → m.audio_codec_id_n = some (n : ℚ) →
      (ngx_rtmp_codec_meta_data cacf_meta append_amf s version m c).2.1.audio_codec_id = n) := by
  constructor
  · intro h0
    have e1 : (ngx_rtmp_codec_meta_data cacf_meta append_amf s version m c).2.1.audio_codec_id
        = NGX_RTMP_AUDIO_UNCOMPRESSED := by
      rw [meta_data_audio_codec_id _ _ _ _ _ _ hd, h0]
      simp
    have hd0 : ({ m with audio_codec_id_n := none } : amf_meta_message).decodes = true := hd
    have e2 : (ngx_rtmp_codec_meta_data cacf_meta append_amf s version
        { m with audio_codec_id_n := none } c).2.1.audio_codec_id = 0 := by
      rw [meta_data_audio_codec_id _ _ _ _ _ _ hd0]
      rfl
    rw [e1, e2]
    exact ⟨rfl, by decide, by decide⟩
  · intro n hn hlt hm
    rw [meta_data_audio_codec_id _ _ _ _ _ _ hd, hm]
    have h1 : ¬ ((n : ℚ) = -1) := by
      intro h
      have : (0 : ℚ) ≤ (n : ℚ) := Nat.cast_nonneg n
      rw [h] at this
      norm_num at this
    have h2 : ¬ ((n : ℚ) = 0) := by exact_mod_cast hn
    simp only [Option.getD_some, if_neg h1, if_neg h2]
    exact double_to_uint_nat n hlt

theorem C10_supplied_audio_codec_id_witness :
    (ngx_rtmp_codec_meta_data NGX_RTMP_CODEC_META_OFF (fun _ => none)
      (some { ctx_zero with audio_codec_id := 10 }) 0
      { decodes := true, width := none, height := none, duration := none,
        frame_rate := none, video_data_rate := none, video_codec_id_n := none,
        video_codec_id_s := none, audio_data_rate := none, audio_codec_id_n := some 0,
        audio_codec_id_s := none, profile := none, level := none }
      (chain_of [])).2.1.audio_codec_id = NGX_RTMP_AUDIO_UNCOMPRESSED :=
  ((C10_supplied_audio_codec_id NGX_RTMP_CODEC_META_OFF (fun _ => none)
      (some { ctx_zero with audio_codec_id := 10 }) 0
      { decodes := true, width := none, height := none, duration := none,
        frame_rate := none, video_data_rate := none, video_codec_id_n := none,
        video_codec_id_s := none, audio_data_rate := none, audio_codec_id_n := some 0,
        audio_codec_id_s := none, profile := none, level := none }
      (chain_of []) rfl).1 rfl).1


/-! ## C4, C5: ngx_rtmp_codec_parse_avc_header -/

/-- C4, the claim as stated fails: on a configuration payload that ends inside
the SPS (one byte after the NAL header 0x67) every one of the seven fields is
overwritten: profile, compat, level and the length size from bytes 6 to 9, and
num_ref_frames, width and height from the reads past the end, which yield 0. -/
theorem C4_truncated_sps_counterexample :
    (ngx_rtmp_codec_parse_avc_header ctx_640x480
      (chain_of [0x17, 0, 0, 0, 0, 1, 0x64, 0x00, 0x1f, 0xfc, 0xe1, 0x00, 0x08, 0x67, 0x64]))
      = { ctx_640x480 with avc_profile := 100, avc_compat := 0, avc_level := 31,
                           avc_nal_bytes := 1, avc_ref_frames := 0, width := 16, height := 32 } ∧
    ctx_640x480.avc_profile ≠ 100 ∧ ctx_640x480.avc_compat ≠ 0 ∧ ctx_640x480.avc_level ≠ 31 ∧
    ctx_640x480.avc_nal_bytes ≠ 1 ∧ ctx_640x480.avc_ref_frames ≠ 0 ∧ ctx_640x480.width ≠ 16 ∧
    ctx_640x480.height ≠ 32 := by
  decide!

/-- C4, as the code has it: for every prior context and every AVC
configuration payload of fewer than 14 bytes (it ends before the SPS NAL
header byte can be read), ngx_rtmp_codec_parse_avc_header leaves
avc_ref_frames, width and height equal to their values before the call. -/
theorem C4_short_payload_amended (ctx : ngx_rtmp_codec_ctx_t) (c : ngx_chain_t)
    (h : c.buf.data.length < 14) :
    (ngx_rtmp_codec_parse_avc_header ctx c).avc_ref_frames = ctx.avc_ref_frames ∧
    (ngx_rtmp_codec_parse_avc_header ctx c).width = ctx.width ∧
    (ngx_rtmp_codec_parse_avc_header ctx c).height = ctx.height :=
  avc_decode_short ctx c.buf.data h

theorem C4_short_payload_witness :
    (chain_of [0x17, 0, 0, 0, 0, 1, 0x64, 0x00, 0x1f, 0xff, 0xe1, 0x00, 0x08]).buf.data.length
      < 14 ∧
    (ngx_rtmp_codec_parse_avc_header ctx_640x480
      (chain_of [0x17, 0, 0, 0, 0, 1, 0x64, 0x00, 0x1f, 0xff, 0xe1, 0x00, 0x08])).width = 640 :=
  ⟨by decide, (C4_short_payload_amended ctx_640x480
    (chain_of [0x17, 0, 0, 0, 0, 1, 0x64, 0x00, 0x1f, 0xff, 0xe1, 0x00, 0x08])
    (by decide)).2.1⟩

theorem usub_int (a b : Nat) :
    ((usub a b : Nat) : Int) = ((a : Int) - (b : Int)) % (2 ^ 64 : Int) := by
  unfold usub NGX_UINT_MOD
  omega

theorem avc_width_int (f : sps_fields) :
    ((avc_width f : Nat) : Int) =
      (((f.width : Int) + 1) * 16 - ((f.crop_left : Int) + f.crop_right) * 2) % (2 ^ 64 : Int) := by
  unfold avc_width
  rw [usub_int]
  push_cast
  rfl

theorem avc_height_int (f : sps_fields) :
    ((avc_height f : Nat) : Int) =
      ((2 - (f.frame_mbs_only : Int)) * ((f.height : Int) + 1) * 16
        - ((f.crop_top : Int) + f.crop_bottom) * 2) % (2 ^ 64 : Int) := by
  unfold avc_height
  rw [usub_int]
  push_cast
  rw [usub_int]
  have h1 : Int.ModEq (2 ^ 64) ((((2 : Nat) : Int) - (f.frame_mbs_only : Int)) % 2 ^ 64)
      (2 - (f.frame_mbs_only : Int)) := Int.mod_modEq _ _
  exact ((h1.mul_right _).mul_right _).sub_right _

theorem sps_decode_176 :
    (sps_decode ⟨avc_header_176, 112, false⟩).1 = ⟨1, 10, 10, 1, 0, 0, 0, 0⟩ := by
  decide!

theorem sps_decode_172 :
    (sps_decode ⟨avc_header_172, 112, false⟩).1 = ⟨1, 10, 10, 1, 1, 1, 0, 0⟩ := by
  decide!

/-- C5: for every AVC configuration payload that passes the checks in front of
the SPS (at least 14 bytes, a non-zero SPS count, the NAL header 0x67), with
`f` the SPS fields the decode of lines 717-838 reads,
ngx_rtmp_codec_parse_avc_header stores
width = (pic_width_in_mbs_minus1 + 1) * 16 - (crop_left + crop_right) * 2 and
height = (2 - frame_mbs_only_flag) * (pic_height_in_map_units_minus1 + 1) * 16
- (crop_top + crop_bottom) * 2, both modulo 2^64. In particular a header whose
SPS has 10, 10, frame_mbs_only_flag = 1 and no cropping (the crops then are 0)
gives 176 by 176, and with crop_left = crop_right = 1, crop_top = crop_bottom
= 0 the width is 172. -/
theorem C5_avc_dimensions (ctx : ngx_rtmp_codec_ctx_t) (c : ngx_chain_t)
    (h14 : 14 ≤ c.buf.data.length) (hn : c.buf.data.getD 10 0 % 256 &&& 0x1f ≠ 0)
    (ht : c.buf.data.getD 13 0 % 256 = 0x67) :
    (((ngx_rtmp_codec_parse_avc_header ctx c).width : Nat) : Int) =
      ((((sps_decode ⟨c.buf.data, 112, false⟩).1.width : Int) + 1) * 16
        - (((sps_decode ⟨c.buf.data, 112, false⟩).1.crop_left : Int)
            + (sps_decode ⟨c.buf.data, 112, false⟩).1.crop_right) * 2) % (2 ^ 64 : Int) ∧
    (((ngx_rtmp_codec_parse_avc_header ctx c).height : Nat) : Int) =
      ((2 - ((sps_decode ⟨c.buf.data, 112, false⟩).1.frame_mbs_only : Int))
          * (((sps_decode ⟨c.buf.data, 112, false⟩).1.height : Int) + 1) * 16
        - (((sps_decode ⟨c.buf.data, 112, false⟩).1.crop_top : Int)
            + (sps_decode ⟨c.buf.data, 112, false⟩).1.crop_bottom) * 2) % (2 ^ 64 : Int) ∧
    ((sps_decode ⟨avc_header_176, 112, false⟩).1 = ⟨1, 10, 10, 1, 0, 0, 0, 0⟩ ∧
      (ngx_rtmp_codec_parse_avc_header ctx (chain_of avc_header_176)).width = 176 ∧
      (ngx_rtmp_codec_parse_avc_header ctx (chain_of avc_header_176)).height = 176) ∧
    ((sps_decode ⟨avc_header_172, 112, false⟩).1 = ⟨1, 10, 10, 1, 1, 1, 0, 0⟩ ∧
      (ngx_rtmp_codec_parse_avc_header ctx (chain_of avc_header_172)).width = 172) := by
  refine ⟨?_, ?_, ⟨sps_decode_176, ?_, ?_⟩, ⟨sps_decode_172, ?_⟩⟩
  · unfold ngx_rtmp_codec_parse_avc_header
    rw [avc_decode_long ctx c.buf.data h14 hn ht]
    exact avc_width_int _
  · unfold ngx_rtmp_codec_parse_avc_header
    rw [avc_decode_long ctx c.buf.data h14 hn ht]
    exact avc_height_int _
  · unfold ngx_rtmp_codec_parse_avc_header
    rw [show (chain_of avc_header_176).buf.data = avc_header_176 from rfl,
      avc_decode_long ctx avc_header_176 (by decide) (by decide) (by decide), sps_decode_176]
    rfl
  · unfold ngx_rtmp_codec_parse_avc_header
    rw [show (chain_of avc_header_176).buf.data = avc_header_176 from rfl,
      avc_decode_long ctx avc_header_176 (by decide) (by decide) (by decide), sps_decode_176]
    rfl
  · unfold ngx_rtmp_codec_parse_avc_header
    rw [show (chain_of avc_header_172).buf.data = avc_header_172 from rfl,
      avc_decode_long ctx avc_header_172 (by decide) (by decide) (by decide), sps_decode_172]
    rfl

theorem C5_avc_dimensions_witness :
    (14 ≤ (chain_of avc_header_176).buf.data.length ∧
      (chain_of avc_header_176).buf.data.getD 10 0 % 256 &&& 0x1f ≠ 0 ∧
      (chain_of avc_header_176).buf.data.getD 13 0 % 256 = 0x67) ∧
    (ngx_rtmp_codec_parse_avc_header ctx_640x480 (chain_of avc_header_176)).width = 176 ∧
    (ngx_rtmp_codec_parse_avc_header ctx_640x480 (chain_of avc_header_176)).height = 176 :=
  ⟨by decide, (C5_avc_dimensions ctx_640x480 (chain_of avc_header_176)
    (by decide) (by decide) (by decide)).2.2.1.2⟩


/-! ## Lemmas on the synthesizer over a one-buffer chain -/

theorem hls_skip_nil (l : List Nat) :
    hls_skip l [] = if l = [] then none else some (l, []) := by
  cases l <;> simp [hls_skip]

theorem hls_copy_take (pre post : List Nat) :
    ngx_rtmp_hls_copy pre.length (some (pre ++ post, [])) = ⟨NGX_OK, pre, hls_skip post []⟩ := by
  simp [ngx_rtmp_hls_copy, hls_copy_loop]

theorem hls_copy_exhausted (n : Nat) (l : List Nat) (h : l.length < n) :
    ngx_rtmp_hls_copy n (some (l, [])) = ⟨NGX_ERROR, l, none⟩ := by
  simp [ngx_rtmp_hls_copy, hls_copy_loop, Nat.not_le.mpr h]

theorem be_value_be32 (n : Nat) (h : n < UINT32_MOD) : be_value (be32 n) % UINT32_MOD = n := by
  unfold UINT32_MOD at *
  simp only [be32, be_value, List.length_cons, List.length_nil]
  omega

theorem be32_length (n : Nat) : (be32 n).length = 4 := rfl

/-- One round of the loop of lines 375-454 on a unit of type SPS or PPS that
fits the scratch buffer and is followed by at least one more byte of its own
or of a later unit: the unit is copied behind a 2-byte length and closed with
the byte 0x01. -/
theorem avc_nal_loop_copy_unit (cap nb fuel hs : Nat) (pre : List Nat) (h : Nat)
    (body rest out : List Nat) (hpre : pre.length = nb)
    (hlen : be_value pre % UINT32_MOD = body.length + 1)
    (hty : NGX_RTMP_NALU_SPS ≤ h &&& 0x1f ∧ h &&& 0x1f ≤ NGX_RTMP_NALU_PPS)
    (hne : body ++ rest ≠ [])
    (hfit : out.length + (body.length + 1) + 3 ≤ cap) (hcap : cap < UINT32_MOD) :
    avc_nal_loop cap nb (fuel + 1) (some (pre ++ h :: (body ++ rest), [])) out hs =
      avc_nal_loop cap nb fuel (hls_skip rest [])
        (out ++ [((body.length + 1) >>> 8) % 256, (body.length + 1) &&& 0xff, h] ++ body ++ [0x01])
        1 := by
  have c1 : ngx_rtmp_hls_copy nb (some (pre ++ h :: (body ++ rest), [])) =
      ⟨NGX_OK, pre, some (h :: (body ++ rest), [])⟩ := by
    rw [← hpre, hls_copy_take]; rfl
  have c2 : ngx_rtmp_hls_copy 1 (some (h :: (body ++ rest), [])) =
      ⟨NGX_OK, [h], some (body ++ rest, [])⟩ := by
    have := hls_copy_take [h] (body ++ rest)
    rw [hls_skip_nil, if_neg hne] at this
    exact this
  have c4 : ngx_rtmp_hls_copy (body.length + 1 - 1) (some (body ++ rest, [])) =
      ⟨NGX_OK, body, hls_skip rest []⟩ := hls_copy_take body rest
  have hok : ¬ (NGX_OK ≠ NGX_OK) := fun hh => hh rfl
  have h0 : ¬ (body.length + 1 = 0) := by omega
  have hleft : ¬ ((body.length + 1 + 3) % UINT32_MOD >
      (cap + NGX_UINT_MOD - out.length % NGX_UINT_MOD) % NGX_UINT_MOD) := by
    unfold UINT32_MOD NGX_UINT_MOD at *
    omega
  rw [avc_nal_loop]
  simp only [c1, hlen, c2, c4, if_neg hok, if_neg h0, List.getD_cons_zero,
    if_neg (not_not.mpr hty), if_neg hleft]


theorem chain_of_data (l : List Nat) : (chain_of l).buf.data = l := rfl

theorem chain_of_next (l : List Nat) : (chain_of l).next = [] := rfl

theorem and_255 (n : Nat) : n &&& 255 = n % 256 := Nat.and_pow_two_sub_one_eq_mod n 8

theorem hls_copy_cons (b : Nat) (t : List Nat) (ht : t ≠ []) :
    ngx_rtmp_hls_copy 1 (some (b :: t, [])) = ⟨NGX_OK, [b], some (t, [])⟩ := by
  have := hls_copy_take [b] t
  rw [hls_skip_nil, if_neg ht] at this
  exact this

theorem hls_copy_cons3 (a b c : Nat) (t : List Nat) (ht : t ≠ []) :
    ngx_rtmp_hls_copy 3 (some (a :: b :: c :: t, [])) = ⟨NGX_OK, [a, b, c], some (t, [])⟩ := by
  have := hls_copy_take [a, b, c] t
  rw [hls_skip_nil, if_neg ht] at this
  exact this

theorem avc_nal_loop_end (cap nb fuel : Nat) (out : List Nat) :
    avc_nal_loop cap nb (fuel + 1) none out 1 = ⟨NGX_OK, out, out.length⟩ := by
  rw [avc_nal_loop]
  simp

/-- Lines 288-373 on a one-buffer key frame with packet type 1 and at least
one byte after the composition time: the preamble is written and the loop
starts behind the composition time. -/
theorem keyframe_preamble (cap : Nat) (ctx : ngx_rtmp_codec_ctx_t) (b0 c0 c1 c2 : Nat)
    (t : List Nat) (hv : ctx.video_codec_id = NGX_RTMP_VIDEO_H264)
    (hn : ctx.avc_nal_bytes ≠ 0) (hb0 : (b0 &&& 0xf0) >>> 4 = 1) (ht : t ≠ []) :
    ngx_rtmp_codec_parse_avc_header_in_keyframe cap (some ctx)
        (chain_of (b0 :: 0x01 :: c0 :: c1 :: c2 :: t)) =
      avc_nal_loop cap ctx.avc_nal_bytes (t.length + 5) (some (t, []))
        [0x17, 0x00, 0x00, 0x00, 0x00, 0x01, ctx.avc_profile % 256, ctx.avc_compat % 256,
          ctx.avc_level % 256, 0xff, 0xe1] 0 := by
  have hg : ¬ (ctx.video_codec_id ≠ NGX_RTMP_VIDEO_H264 ∨ ctx.avc_nal_bytes = 0) := by
    rw [hv]; simp [hn]
  have hok : ¬ (NGX_OK ≠ NGX_OK) := fun hh => hh rfl
  have hidr : ¬ ((b0 &&& 0xf0) >>> 4 ≠ NGX_RTMP_FRAME_IDR) := by rw [hb0]; decide
  have h11 : ¬ ((1 : Nat) ≠ 1) := fun hh => hh rfl
  have p1 := hls_copy_cons b0 (0x01 :: c0 :: c1 :: c2 :: t) (by simp)
  have p2 := hls_copy_cons 0x01 (c0 :: c1 :: c2 :: t) (by simp)
  have p3 := hls_copy_cons3 c0 c1 c2 t ht
  have hlen : (chain_bytes (chain_of (b0 :: 0x01 :: c0 :: c1 :: c2 :: t))).length
      = t.length + 5 := by
    simp [chain_bytes, chain_of]
  unfold ngx_rtmp_codec_parse_avc_header_in_keyframe
  simp only [if_neg hg, chain_of_data, chain_of_next, p1, p2, p3, if_neg hok,
    List.getD_cons_zero, if_neg hidr, if_neg h11, hb0, hlen]
  rfl

/-- The synthesized buffer for an SPS unit `sps` followed by a PPS unit `pps`. -/
theorem keyframe_sps_pps (cap : Nat) (ctx : ngx_rtmp_codec_ctx_t) (b0 c0 c1 c2 : Nat)
    (st : List Nat) (ph : Nat) (pt : List Nat)
    (hv : ctx.video_codec_id = NGX_RTMP_VIDEO_H264) (hn : ctx.avc_nal_bytes = 4)
    (hb0 : (b0 &&& 0xf0) >>> 4 = 1) (hph : ph &&& 0x1f = 8) (hpt : pt ≠ [])
    (hfit : 11 + (st.length + 1 + 3) + (pt.length + 1 + 3) ≤ cap) (hcap : cap < UINT32_MOD) :
    ngx_rtmp_codec_parse_avc_header_in_keyframe cap (some ctx)
        (chain_of (idr_sps_pps_payload b0 c0 c1 c2 (0x67 :: st) (ph :: pt))) =
      ⟨NGX_OK, synthesized_header ctx (0x67 :: st) (ph :: pt),
        (synthesized_header ctx (0x67 :: st) (ph :: pt)).length⟩ := by
  have hshape : idr_sps_pps_payload b0 c0 c1 c2 (0x67 :: st) (ph :: pt) =
      b0 :: 0x01 :: c0 :: c1 :: c2 ::
        (be32 (st.length + 1) ++ 0x67 :: (st ++ (be32 (pt.length + 1) ++ ph :: (pt ++ [])))) := by
    simp [idr_sps_pps_payload]
  have hfuel : (be32 (st.length + 1) ++ 0x67 ::
      (st ++ (be32 (pt.length + 1) ++ ph :: (pt ++ [])))).length + 5
        = (st.length + pt.length + 12) + 1 + 1 + 1 := by
    simp [be32_length]
    omega
  have hu : UINT32_MOD = 4294967296 := by decide
  rw [hshape, keyframe_preamble cap ctx b0 c0 c1 c2 _ hv (by rw [hn]; decide) hb0 (by simp [be32]),
    hn, hfuel,
    avc_nal_loop_copy_unit cap 4 _ 0 (be32 (st.length + 1)) 0x67 st _ _ (be32_length _)
      (be_value_be32 _ (by omega)) (by decide) (by simp [be32]) (by simp; omega) hcap,
    hls_skip_nil, if_neg (by simp [be32]),
    avc_nal_loop_copy_unit cap 4 _ 1 (be32 (pt.length + 1)) ph pt [] _ (be32_length _)
      (be_value_be32 _ (by omega)) (by rw [hph]; decide) (by simpa using hpt)
      (by simp; omega) hcap]
  rw [show hls_skip [] [] = none from rfl, avc_nal_loop_end]
  simp [synthesized_header, Nat.shiftRight_eq_div_pow, be16, and_255]


/-! ## The synthesizer reads a chain as the sequence of its bytes -/

theorem hls_skip_spec : ∀ (rest : List ngx_buf_t) (cur : List Nat),
    cursor_bytes (hls_skip cur rest) = cur ++ (rest.map (fun b => b.data)).flatten ∧
    cursor_norm (hls_skip cur rest)
  | [], [] => ⟨rfl, trivial⟩
  | [], x :: xs => ⟨rfl, by simp [hls_skip, cursor_norm]⟩
  | b :: bs, [] => by
    have ih := hls_skip_spec bs b.data
    simp only [hls_skip]
    refine ⟨?_, ih.2⟩
    rw [ih.1]
    simp
  | b :: bs, x :: xs => ⟨rfl, by simp [hls_skip, cursor_norm]⟩

theorem cursor_norm_none_iff (k : chain_cursor) (h : cursor_norm k) :
    k = none ↔ cursor_bytes k = [] := by
  cases k with
  | none => simp [cursor_bytes]
  | some p =>
    obtain ⟨cur, rest⟩ := p
    have hc : cur ≠ [] := h
    simp [cursor_bytes, hc]

/-- What ngx_rtmp_hls_copy does, in terms of the unread bytes `l` of the
chain: with `n` bytes there it returns them and leaves the rest, else it fails
with `in` NULL after storing what was there. -/
theorem hls_copy_loop_spec : ∀ (rest : List ngx_buf_t) (n : Nat) (cur : List Nat),
    (n ≤ (cur ++ (rest.map (fun b => b.data)).flatten).length →
      (hls_copy_loop n cur rest).rc = NGX_OK ∧
      (hls_copy_loop n cur rest).bytes = (cur ++ (rest.map (fun b => b.data)).flatten).take n ∧
      cursor_bytes (hls_copy_loop n cur rest).cur
        = (cur ++ (rest.map (fun b => b.data)).flatten).drop n ∧
      cursor_norm (hls_copy_loop n cur rest).cur) ∧
    ((cur ++ (rest.map (fun b => b.data)).flatten).length < n →
      (hls_copy_loop n cur rest).rc = NGX_ERROR ∧
      (hls_copy_loop n cur rest).bytes = cur ++ (rest.map (fun b => b.data)).flatten ∧
      (hls_copy_loop n cur rest).cur = none)
  | [], n, cur => by
    simp only [List.map_nil, List.flatten_nil, List.append_nil, hls_copy_loop]
    constructor
    · intro h
      rw [if_pos h]
      have hs := hls_skip_spec [] (cur.drop n)
      simp only [List.map_nil, List.flatten_nil, List.append_nil] at hs
      exact ⟨rfl, rfl, hs.1, hs.2⟩
    · intro h
      rw [if_neg (by omega)]
      exact ⟨rfl, rfl, rfl⟩
  | b :: bs, n, cur => by
    have ih := hls_copy_loop_spec bs (n - cur.length) b.data
    simp only [List.map_cons, List.flatten_cons, List.length_append] at ih ⊢
    simp only [hls_copy_loop]
    by_cases hn : n ≤ cur.length
    · rw [if_pos hn]
      constructor
      · intro _
        have hs := hls_skip_spec (b :: bs) (cur.drop n)
        simp only [List.map_cons, List.flatten_cons] at hs
        refine ⟨rfl, ?_, ?_, hs.2⟩
        · show cur.take n = _
          rw [List.take_append_of_le_length hn]
        · show cursor_bytes (hls_skip (cur.drop n) (b :: bs)) = _
          rw [hs.1, List.drop_append_of_le_length hn]
      · intro h
        omega
    · rw [if_neg hn]
      have hn' : cur.length ≤ n := by omega
      constructor
      · intro h
        obtain ⟨h1, h2, h3, h4⟩ := ih.1 (by omega)
        refine ⟨h1, ?_, ?_, h4⟩
        · show cur ++ (hls_copy_loop (n - cur.length) b.data bs).bytes = _
          have e : ∀ x : List Nat, List.take n (cur ++ x) = cur ++ List.take (n - cur.length) x := by
            intro x
            rw [List.take_append_eq_append_take, List.take_of_length_le hn']
          rw [h2, e]
        · show cursor_bytes (hls_copy_loop (n - cur.length) b.data bs).cur = _
          have e : ∀ x : List Nat, List.drop n (cur ++ x) = List.drop (n - cur.length) x := by
            intro x
            rw [List.drop_append_eq_append_drop, List.drop_of_length_le hn']
            simp
          rw [h3, e]
      · intro h
        obtain ⟨h1, h2, h3⟩ := ih.2 (by omega)
        refine ⟨h1, ?_, h3⟩
        show cur ++ (hls_copy_loop (n - cur.length) b.data bs).bytes = _
        rw [h2]

/-- Two copies from cursors with the same unread bytes, when the cursors are
normalized or when at least one byte is asked for. -/
theorem hls_copy_equiv (n : Nat) (k1 k2 : chain_cursor)
    (hb : cursor_bytes k1 = cursor_bytes k2)
    (hk : (cursor_norm k1 ∧ cursor_norm k2) ∨ (0 < n ∧ k1 ≠ none ∧ k2 ≠ none)) :
    (ngx_rtmp_hls_copy n k1).rc = (ngx_rtmp_hls_copy n k2).rc ∧
    (ngx_rtmp_hls_copy n k1).bytes = (ngx_rtmp_hls_copy n k2).bytes ∧
    cursor_equiv (ngx_rtmp_hls_copy n k1).cur (ngx_rtmp_hls_copy n k2).cur := by
  have key : ∀ (c1 c2 : List Nat × List ngx_buf_t),
      cursor_bytes (some c1) = cursor_bytes (some c2) →
      (ngx_rtmp_hls_copy n (some c1)).rc = (ngx_rtmp_hls_copy n (some c2)).rc ∧
      (ngx_rtmp_hls_copy n (some c1)).bytes = (ngx_rtmp_hls_copy n (some c2)).bytes ∧
      cursor_equiv (ngx_rtmp_hls_copy n (some c1)).cur (ngx_rtmp_hls_copy n (some c2)).cur := by
    intro c1 c2 hbc
    obtain ⟨cur1, rest1⟩ := c1
    obtain ⟨cur2, rest2⟩ := c2
    have s1 := hls_copy_loop_spec rest1 n cur1
    have s2 := hls_copy_loop_spec rest2 n cur2
    have hbc' : cur1 ++ (rest1.map (fun b => b.data)).flatten
        = cur2 ++ (rest2.map (fun b => b.data)).flatten := hbc
    rw [← hbc'] at s2
    show (hls_copy_loop n cur1 rest1).rc = (hls_copy_loop n cur2 rest2).rc ∧
      (hls_copy_loop n cur1 rest1).bytes = (hls_copy_loop n cur2 rest2).bytes ∧
      cursor_equiv (hls_copy_loop n cur1 rest1).cur (hls_copy_loop n cur2 rest2).cur
    by_cases hn : n ≤ (cur1 ++ (rest1.map (fun b => b.data)).flatten).length
    · obtain ⟨a1, a2, a3, a4⟩ := s1.1 hn
      obtain ⟨b1, b2, b3, b4⟩ := s2.1 hn
      exact ⟨a1.trans b1.symm, a2.trans b2.symm, a4, b4, a3.trans b3.symm⟩
    · obtain ⟨a1, a2, a3⟩ := s1.2 (by omega)
      obtain ⟨b1, b2, b3⟩ := s2.2 (by omega)
      refine ⟨a1.trans b1.symm, a2.trans b2.symm, ?_⟩
      rw [a3, b3]
      exact ⟨trivial, trivial, rfl⟩
  cases k1 with
  | none =>
    cases k2 with
    | none => exact ⟨rfl, rfl, trivial, trivial, rfl⟩
    | some c2 =>
      rcases hk with hk | hk
      · have := (cursor_norm_none_iff (some c2) hk.2).mpr hb.symm
        exact absurd this (by simp)
      · exact absurd rfl hk.2.1
  | some c1 =>
    cases k2 with
    | none =>
      rcases hk with hk | hk
      · have := (cursor_norm_none_iff (some c1) hk.1).mpr hb
        exact absurd this (by simp)
      · exact absurd rfl hk.2.2
    | some c2 => exact key c1 c2 hb


/-- The loop of lines 375-454 depends on the cursor only through its unread
bytes. -/
theorem avc_nal_loop_equiv (cap nb : Nat) : ∀ (fuel : Nat) (k1 k2 : chain_cursor)
    (out : List Nat) (hs : Nat), cursor_equiv k1 k2 →
    avc_nal_loop cap nb fuel k1 out hs = avc_nal_loop cap nb fuel k2 out hs
  | 0, _, _, _, _, _ => by rw [avc_nal_loop, avc_nal_loop]
  | fuel + 1, none, none, _, _, _ => rfl
  | fuel + 1, none, some c2, _, _, h => by
    have := (cursor_norm_none_iff (some c2) h.2.1).mpr h.2.2.symm
    exact absurd this (by simp)
  | fuel + 1, some c1, none, _, _, h => by
    have := (cursor_norm_none_iff (some c1) h.1).mpr h.2.2
    exact absurd this (by simp)
  | fuel + 1, some c1, some c2, out, hs, h => by
    have e1 := hls_copy_equiv nb (some c1) (some c2) h.2.2 (Or.inl ⟨h.1, h.2.1⟩)
    have e2 := hls_copy_equiv 1 _ _ e1.2.2.2.2 (Or.inl ⟨e1.2.2.1, e1.2.2.2.1⟩)
    have e3 := hls_copy_equiv (be_value (ngx_rtmp_hls_copy nb (some c1)).bytes % UINT32_MOD - 1)
      _ _ e2.2.2.2.2 (Or.inl ⟨e2.2.2.1, e2.2.2.2.1⟩)
    have ih1 := fun o s => avc_nal_loop_equiv cap nb fuel _ _ o s e1.2.2
    have ih3 := fun o s => avc_nal_loop_equiv cap nb fuel _ _ o s e3.2.2
    rw [avc_nal_loop, avc_nal_loop]
    simp only [← e1.1, ← e1.2.1, ← e2.1, ← e2.2.1, ← e3.1, ← e3.2.1, ih1, ih3]

/-- Lines 275-457 read the chain as the sequence of its bytes: the result on a
chain is the result on the one-buffer chain of the same bytes. -/
theorem keyframe_flat (cap : Nat) (s : Option ngx_rtmp_codec_ctx_t) (c : ngx_chain_t) :
    ngx_rtmp_codec_parse_avc_header_in_keyframe cap s c =
      ngx_rtmp_codec_parse_avc_header_in_keyframe cap s (chain_of (chain_bytes c)) := by
  have hb : chain_bytes (chain_of (chain_bytes c)) = chain_bytes c := by
    simp [chain_bytes, chain_of]
  have h0 : cursor_bytes (some (c.buf.data, c.next)) =
      cursor_bytes (some ((chain_of (chain_bytes c)).buf.data, (chain_of (chain_bytes c)).next)) := by
    simp [cursor_bytes, chain_bytes, chain_of]
  have e1 := hls_copy_equiv 1 _ _ h0 (Or.inr ⟨by decide, by simp, by simp⟩)
  have e2 := hls_copy_equiv 1 _ _ e1.2.2.2.2 (Or.inl ⟨e1.2.2.1, e1.2.2.2.1⟩)
  have e3 := hls_copy_equiv 3 _ _ e2.2.2.2.2 (Or.inl ⟨e2.2.2.1, e2.2.2.2.1⟩)
  have el := fun nb fuel o hs => avc_nal_loop_equiv cap nb fuel _ _ o hs e3.2.2
  unfold ngx_rtmp_codec_parse_avc_header_in_keyframe
  cases s with
  | none => rfl
  | some ctx =>
    simp only [hb, ← e1.1, ← e1.2.1, ← e2.1, ← e2.2.1, ← e3.1, el]


theorem hls_copy_ok_length (n : Nat) (k : chain_cursor)
    (h : (ngx_rtmp_hls_copy n k).rc = NGX_OK) :
    (cursor_bytes (ngx_rtmp_hls_copy n k).cur).length + n = (cursor_bytes k).length := by
  have hne : NGX_ERROR ≠ NGX_OK := by decide
  cases k with
  | none => exact absurd h hne
  | some c =>
    obtain ⟨cur, rest⟩ := c
    have s := hls_copy_loop_spec rest n cur
    by_cases hn : n ≤ (cur ++ (rest.map (fun b => b.data)).flatten).length
    · have h3 := (s.1 hn).2.2.1
      show (cursor_bytes (hls_copy_loop n cur rest).cur).length + n
        = (cur ++ (rest.map (fun b => b.data)).flatten).length
      rw [h3, List.length_drop]
      omega
    · have h1 := (s.2 (by omega)).1
      have h' : (hls_copy_loop n cur rest).rc = NGX_OK := h
      rw [h1] at h'
      exact absurd h' hne

/-- The loop of lines 375-454 ends: with a length prefix of at least one byte
every round that goes on has read at least one byte, so a fuel above the
number of unread bytes is never used up and any larger fuel gives the same
result. -/
theorem avc_nal_loop_fuel (cap nb : Nat) (hnb : 1 ≤ nb) : ∀ (fuel fuel' : Nat) (k : chain_cursor)
    (out : List Nat) (hs : Nat), (cursor_bytes k).length < fuel → fuel ≤ fuel' →
    avc_nal_loop cap nb fuel k out hs = avc_nal_loop cap nb fuel' k out hs
  | 0, _, _, _, _, h, _ => absurd h (Nat.not_lt_zero _)
  | fuel + 1, 0, _, _, _, _, h => absurd h (Nat.not_succ_le_zero _)
  | fuel + 1, fuel' + 1, none, _, _, _, _ => rfl
  | fuel + 1, fuel' + 1, some c, out, hs, hlt, hle => by
    have l1 := hls_copy_ok_length nb (some c)
    have l2 := hls_copy_ok_length 1 (ngx_rtmp_hls_copy nb (some c)).cur
    have l3 := hls_copy_ok_length
      (be_value (ngx_rtmp_hls_copy nb (some c)).bytes % UINT32_MOD - 1)
      (ngx_rtmp_hls_copy 1 (ngx_rtmp_hls_copy nb (some c)).cur).cur
    rw [avc_nal_loop, avc_nal_loop]
    dsimp only
    by_cases h1 : (ngx_rtmp_hls_copy nb (some c)).rc ≠ NGX_OK
    · rw [if_pos h1, if_pos h1]
    · rw [if_neg h1, if_neg h1]
      have l1' := l1 (not_not.mp h1)
      by_cases h2 : be_value (ngx_rtmp_hls_copy nb (some c)).bytes % UINT32_MOD = 0
      · rw [if_pos h2, if_pos h2]
        exact avc_nal_loop_fuel cap nb hnb fuel fuel' _ _ _ (by omega) (by omega)
      · rw [if_neg h2, if_neg h2]
        by_cases h3 : (ngx_rtmp_hls_copy 1 (ngx_rtmp_hls_copy nb (some c)).cur).rc ≠ NGX_OK
        · rw [if_pos h3, if_pos h3]
        · rw [if_neg h3, if_neg h3]
          have l2' := l2 (not_not.mp h3)
          split
          · by_cases h5 : (ngx_rtmp_hls_copy
                (be_value (ngx_rtmp_hls_copy nb (some c)).bytes % UINT32_MOD - 1)
                (ngx_rtmp_hls_copy 1 (ngx_rtmp_hls_copy nb (some c)).cur).cur).rc ≠ NGX_OK
            · rw [if_pos h5, if_pos h5]
            · rw [if_neg h5, if_neg h5]
              have l3' := l3 (not_not.mp h5)
              exact avc_nal_loop_fuel cap nb hnb fuel fuel' _ _ _ (by omega) (by omega)
          · split
            · rfl
            · by_cases h5 : (ngx_rtmp_hls_copy
                  (be_value (ngx_rtmp_hls_copy nb (some c)).bytes % UINT32_MOD - 1)
                  (ngx_rtmp_hls_copy 1 (ngx_rtmp_hls_copy nb (some c)).cur).cur).rc ≠ NGX_OK
              · rw [if_pos h5, if_pos h5]
              · rw [if_neg h5, if_neg h5]
                have l3' := l3 (not_not.mp h5)
                exact avc_nal_loop_fuel cap nb hnb fuel fuel' _ _ _ (by omega) (by omega)


/-! ## C3: the synthesized header against a natively sent one -/

/-- Readers at the same position over two buffers that differ only in a
prefix of equal length that lies before the position, and in bytes appended
to the second. -/
theorem agree_append (h1 h2 t extra : List Nat) (p : Nat) (hl : h1.length = h2.length)
    (hp : 8 * h1.length ≤ p) :
    agree ⟨h1 ++ t, p, false⟩ ⟨h2 ++ t ++ extra, p, false⟩ := by
  refine ⟨rfl, rfl, rfl, ?_, ?_⟩
  · show (h1 ++ t).length ≤ (h2 ++ t ++ extra).length
    simp only [List.length_append]
    omega
  · intro k hk1 hk2
    have hk1' : p / 8 ≤ k := hk1
    have hk2' : k < (h1 ++ t).length := hk2
    rw [List.length_append] at hk2'
    have hge : h1.length ≤ k := by omega
    have hge2 : h2.length ≤ k := by omega
    show (h1 ++ t).getD k 0 = (h2 ++ t ++ extra).getD k 0
    rw [List.append_assoc, List.getD_append_right _ _ _ _ hge,
      List.getD_append_right _ _ _ _ hge2, List.getD_append _ _ _ _ (by omega), hl]

theorem native_header_checks (p c l : Nat) (st : List Nat) (pps : List Nat) :
    14 ≤ (native_avc_header p c l (0x67 :: st) pps).length ∧
    (native_avc_header p c l (0x67 :: st) pps).getD 10 0 % 256 &&& 0x1f ≠ 0 ∧
    (native_avc_header p c l (0x67 :: st) pps).getD 13 0 % 256 = 0x67 := by
  refine ⟨?_, ?_, ?_⟩
  · simp [native_avc_header, be16]
  · simp [native_avc_header, be16]
  · simp [native_avc_header, be16]

theorem synthesized_header_checks (ctx : ngx_rtmp_codec_ctx_t) (st : List Nat) (pps : List Nat) :
    14 ≤ (synthesized_header ctx (0x67 :: st) pps).length ∧
    (synthesized_header ctx (0x67 :: st) pps).getD 10 0 % 256 &&& 0x1f ≠ 0 ∧
    (synthesized_header ctx (0x67 :: st) pps).getD 13 0 % 256 = 0x67 := by
  refine ⟨?_, ?_, ?_⟩
  · simp [synthesized_header, be16]
  · simp [synthesized_header, be16]
  · simp [synthesized_header, be16]

/-- The SPS fields read from the synthesized buffer are those read from the
native header, when the decode of the native header stays inside its data. -/
theorem sps_decode_synthesized (ctx : ngx_rtmp_codec_ctx_t) (p c l : Nat) (sps pps : List Nat)
    (herr : (sps_decode ⟨native_avc_header p c l sps pps, 112, false⟩).2.err = false) :
    (sps_decode ⟨native_avc_header p c l sps pps, 112, false⟩).1 =
      (sps_decode ⟨synthesized_header ctx sps pps, 112, false⟩).1 := by
  have hag : agree ⟨native_avc_header p c l sps pps, 112, false⟩
      ⟨synthesized_header ctx sps pps, 112, false⟩ :=
    agree_append _ _ _ _ 112 rfl (by simp)
  exact (stable_sps_decode.2 _ _ hag herr).1

/-- C3, as the code has it: for every context with video codec H.264 and
nal_length_size = 4 and every key-frame payload (frame-type nibble 1, packet
type 1, 3 composition-time bytes), in a chain of any number of buffers, whose
body is an SPS NAL unit with header byte 0x67 followed by a PPS NAL unit
(type 8) of at least two bytes, each behind its 4-byte big-endian length and
both fitting the scratch capacity (which is below 2^32), the synthesizer
returns NGX_OK; and when ngx_rtmp_codec_parse_avc_header decodes the natively
sent AVCDecoderConfigurationRecord packet built from the same SPS and PPS
bytes without reading past its end, it yields the same width and height on
the synthesized buffer as on that packet. -/
theorem C3_synthesized_header_amended (cap : Nat) (ctx : ngx_rtmp_codec_ctx_t)
    (k : ngx_chain_t) (b0 c0 c1 c2 : Nat) (st : List Nat) (ph : Nat) (pt : List Nat)
    (p c l : Nat)
    (hk : chain_bytes k = idr_sps_pps_payload b0 c0 c1 c2 (0x67 :: st) (ph :: pt))
    (hv : ctx.video_codec_id = NGX_RTMP_VIDEO_H264) (hn : ctx.avc_nal_bytes = 4)
    (hb0 : (b0 &&& 0xf0) >>> 4 = 1) (hph : ph &&& 0x1f = 8) (hpt : pt ≠ [])
    (hfit : 11 + (st.length + 1 + 3) + (pt.length + 1 + 3) ≤ cap) (hcap : cap < UINT32_MOD)
    (hnative : (avc_decode ctx (ngx_rtmp_bit_init_reader
      (native_avc_header p c l (0x67 :: st) (ph :: pt)))).2.err = false) :
    (ngx_rtmp_codec_parse_avc_header_in_keyframe cap (some ctx) k).rc = NGX_OK ∧
    (ngx_rtmp_codec_parse_avc_header ctx (sps_chain
      (ngx_rtmp_codec_parse_avc_header_in_keyframe cap (some ctx) k).out)).width =
      (ngx_rtmp_codec_parse_avc_header ctx
        (chain_of (native_avc_header p c l (0x67 :: st) (ph :: pt)))).width ∧
    (ngx_rtmp_codec_parse_avc_header ctx (sps_chain
      (ngx_rtmp_codec_parse_avc_header_in_keyframe cap (some ctx) k).out)).height =
      (ngx_rtmp_codec_parse_avc_header ctx
        (chain_of (native_avc_header p c l (0x67 :: st) (ph :: pt)))).height := by
  obtain ⟨n14, nn, nt⟩ := native_header_checks p c l st (ph :: pt)
  obtain ⟨s14, sn, st67⟩ := synthesized_header_checks ctx st (ph :: pt)
  obtain ⟨nw, nh, _, ne⟩ := parse_avc_long ctx
    (chain_of (native_avc_header p c l (0x67 :: st) (ph :: pt))) n14 nn nt
  obtain ⟨sw, sh, _, _⟩ := parse_avc_long ctx
    (sps_chain (synthesized_header ctx (0x67 :: st) (ph :: pt))) s14 sn st67
  have herr : (sps_decode ⟨native_avc_header p c l (0x67 :: st) (ph :: pt), 112, false⟩).2.err
      = false :=
    (congrArg ngx_rtmp_bit_reader_t.err ne).symm.trans hnative
  have hf := sps_decode_synthesized ctx p c l (0x67 :: st) (ph :: pt) herr
  rw [keyframe_flat cap (some ctx) k, hk,
    keyframe_sps_pps cap ctx b0 c0 c1 c2 st ph pt hv hn hb0 hph hpt hfit hcap]
  refine ⟨rfl, ?_, ?_⟩
  · rw [nw]
    exact sw.trans (congrArg avc_width hf.symm)
  · rw [nh]
    exact sh.trans (congrArg avc_height hf.symm)

theorem C3_synthesized_header_witness :
    (ngx_rtmp_codec_parse_avc_header_in_keyframe 256 (some ctx_h264) idr_two_buffers).rc
      = NGX_OK ∧
    (ngx_rtmp_codec_parse_avc_header ctx_h264 (sps_chain
      (ngx_rtmp_codec_parse_avc_header_in_keyframe 256 (some ctx_h264) idr_two_buffers).out)).width
      = (ngx_rtmp_codec_parse_avc_header ctx_h264
        (chain_of (native_avc_header 0x42 0x00 0x1e
          [0x67, 0x42, 0x00, 0x1e, 0xda, 0x0b, 0x17, 0x90] [0x68, 0xce, 0x38, 0x80]))).width ∧
    (ngx_rtmp_codec_parse_avc_header ctx_h264 (sps_chain
      (ngx_rtmp_codec_parse_avc_header_in_keyframe 256 (some ctx_h264) idr_two_buffers).out)).height
      = (ngx_rtmp_codec_parse_avc_header ctx_h264
        (chain_of (native_avc_header 0x42 0x00 0x1e
          [0x67, 0x42, 0x00, 0x1e, 0xda, 0x0b, 0x17, 0x90] [0x68, 0xce, 0x38, 0x80]))).height :=
  C3_synthesized_header_amended 256 ctx_h264 idr_two_buffers 0x17 0 0 0
    [0x42, 0x00, 0x1e, 0xda, 0x0b, 0x17, 0x90] 0x68 [0xce, 0x38, 0x80] 0x42 0x00 0x1e
    (by decide) rfl rfl (by decide) (by decide) (by decide) (by decide) (by decide) (by decide!)

/-- C3, the claim as stated fails twice. A PPS unit of the single byte 0x68
ends the chain with its header byte, the copy of its empty body then fails and
the synthesizer returns NGX_ERROR. And with the SPS 67 and the PPS e8 80 the
SPS decode runs past the end of the native packet while the synthesized buffer
still has its closing byte 0x01 to give: the widths are 32768 and 256. -/
theorem C3_synthesized_header_counterexample :
    (ngx_rtmp_codec_parse_avc_header_in_keyframe 256 (some ctx_h264)
      (chain_of (idr_sps_pps_payload 0x17 0 0 0 [0x67] [0x68]))).rc = NGX_ERROR ∧
    (ngx_rtmp_codec_parse_avc_header_in_keyframe 256 (some ctx_h264)
      (chain_of (idr_sps_pps_payload 0x17 0 0 0 [0x67] [0xe8, 0x80]))).rc = NGX_OK ∧
    (ngx_rtmp_codec_parse_avc_header ctx_h264 (sps_chain
      (ngx_rtmp_codec_parse_avc_header_in_keyframe 256 (some ctx_h264)
        (chain_of (idr_sps_pps_payload 0x17 0 0 0 [0x67] [0xe8, 0x80]))).out)).width = 32768 ∧
    (ngx_rtmp_codec_parse_avc_header ctx_h264
      (chain_of (native_avc_header 0 0 0 [0x67] [0xe8, 0x80]))).width = 256 := by
  decide!


/-! ## C2: the capacity check of line 428 -/

/-- One round of the loop on an SPS/PPS unit whose 4-byte prefix is ff ff ff ff:
`len + 3` wraps to 2 in 32-bit arithmetic, the check of line 428 passes
whenever two bytes are left, three bytes are stored, and the copy of the
`len - 1` body bytes stores every byte that is left in the chain before it
fails. -/
theorem avc_nal_loop_wrapped_unit (cap fuel hs : Nat) (h : Nat) (rest out : List Nat)
    (hty : NGX_RTMP_NALU_SPS ≤ h &&& 0x1f ∧ h &&& 0x1f ≤ NGX_RTMP_NALU_PPS)
    (hleft : out.length + 2 ≤ cap) (hcap : cap < UINT32_MOD)
    (hrest : rest.length < 4294967294) :
    avc_nal_loop cap 4 (fuel + 1) (some (0xff :: 0xff :: 0xff :: 0xff :: h :: rest, [])) out hs =
      ⟨NGX_ERROR, out ++ [0xff, 0xff, h], out.length + 3 + rest.length⟩ := by
  have c1 : ngx_rtmp_hls_copy 4 (some (0xff :: 0xff :: 0xff :: 0xff :: h :: rest, [])) =
      ⟨NGX_OK, [0xff, 0xff, 0xff, 0xff], some (h :: rest, [])⟩ :=
    hls_copy_take [0xff, 0xff, 0xff, 0xff] (h :: rest)
  have c2 : ngx_rtmp_hls_copy 1 (some (h :: rest, [])) = ⟨NGX_OK, [h], hls_skip rest []⟩ :=
    hls_copy_take [h] rest
  have c3 : (ngx_rtmp_hls_copy (4294967295 - 1) (hls_skip rest [])).rc = NGX_ERROR ∧
      (ngx_rtmp_hls_copy (4294967295 - 1) (hls_skip rest [])).bytes = rest := by
    rw [hls_skip_nil]
    by_cases hr : rest = []
    · rw [if_pos hr, hr]
      exact ⟨rfl, rfl⟩
    · rw [if_neg hr, hls_copy_exhausted _ _ (by omega)]
      exact ⟨rfl, rfl⟩
  have hlen : be_value [0xff, 0xff, 0xff, 0xff] % UINT32_MOD = 4294967295 := by decide
  have hok : ¬ (NGX_OK ≠ NGX_OK) := fun hh => hh rfl
  have herr : NGX_ERROR ≠ NGX_OK := by decide
  have h0 : ¬ ((4294967295 : Nat) = 0) := by decide
  have hchk : ¬ ((4294967295 + 3) % UINT32_MOD >
      (cap + NGX_UINT_MOD - out.length % NGX_UINT_MOD) % NGX_UINT_MOD) := by
    unfold UINT32_MOD NGX_UINT_MOD at *
    omega
  have hhi : (4294967295 >>> 8) % 256 = 0xff := by decide
  have hlo : 4294967295 &&& 0xff = 0xff := by decide
  rw [avc_nal_loop]
  simp only [c1, hlen, c2, if_neg hok, if_neg h0, List.getD_cons_zero,
    if_neg (not_not.mpr hty), if_neg hchk, c3.1, c3.2, if_pos herr, hhi, hlo]
  simp

/-- C2, the wrap-around of line 428: with the capacity `cap` at least 17 and
below 2^32 - 2, a key frame (in a chain of any number of buffers) whose first
unit is an SPS with the length prefix ff ff ff ff followed by `cap` more bytes
makes the synthesizer store cap + 14 bytes into the scratch buffer of `cap`
bytes; and after an SPS unit that fills the buffer up to its last two bytes,
the three header bytes of a unit with that prefix are stored where only two
bytes are left. -/
theorem C2_capacity_check_wraps (cap : Nat) (k1 k2 : ngx_chain_t) (junk body : List Nat)
    (hlo : 17 ≤ cap) (hhi : cap < 4294967294)
    (hjunk : junk.length = cap) (hbody : body.length = cap - 17)
    (hk1 : chain_bytes k1 = 0x17 :: 0x01 :: 0 :: 0 :: 0 ::
      (0xff :: 0xff :: 0xff :: 0xff :: 0x67 :: junk))
    (hk2 : chain_bytes k2 = 0x17 :: 0x01 :: 0 :: 0 :: 0 ::
      (be32 (cap - 16) ++ 0x67 :: (body ++ (0xff :: 0xff :: 0xff :: 0xff :: 0x68 :: [])))) :
    (ngx_rtmp_codec_parse_avc_header_in_keyframe cap (some ctx_h264) k1).written = cap + 14 ∧
    (ngx_rtmp_codec_parse_avc_header_in_keyframe cap (some ctx_h264) k2).written = cap + 1 := by
  have hu : UINT32_MOD = 4294967296 := by decide
  constructor
  · rw [keyframe_flat cap _ k1, hk1,
      keyframe_preamble cap ctx_h264 0x17 0 0 0 _ rfl (by decide) (by decide) (by simp)]
    rw [show ctx_h264.avc_nal_bytes = 4 from rfl,
      show (0xff :: 0xff :: 0xff :: 0xff :: 0x67 :: junk).length + 5 = (junk.length + 9) + 1 by
        simp,
      avc_nal_loop_wrapped_unit cap _ 0 0x67 junk _ (by decide) (by simp; omega) (by omega)
        (by omega)]
    simp
    omega
  · rw [keyframe_flat cap _ k2, hk2,
      keyframe_preamble cap ctx_h264 0x17 0 0 0 _ rfl (by decide) (by decide) (by simp [be32])]
    have hfuel : (be32 (cap - 16) ++ 0x67 ::
        (body ++ (0xff :: 0xff :: 0xff :: 0xff :: 0x68 :: []))).length + 5
        = (body.length + 13) + 1 + 1 := by
      simp [be32_length]
      omega
    rw [show ctx_h264.avc_nal_bytes = 4 from rfl, hfuel,
      avc_nal_loop_copy_unit cap 4 _ 0 (be32 (cap - 16)) 0x67 body _ _ (be32_length _)
        (by rw [be_value_be32 _ (by omega)]; omega) (by decide) (by simp) (by simp; omega)
        (by omega),
      hls_skip_nil, if_neg (by simp),
      avc_nal_loop_wrapped_unit cap _ 1 0x68 [] _ (by decide) (by simp; omega) (by omega)
        (by simp)]
    simp
    omega

theorem C2_capacity_check_wraps_witness :
    (ngx_rtmp_codec_parse_avc_header_in_keyframe 32 (some ctx_h264)
      (chain_of (0x17 :: 0x01 :: 0 :: 0 :: 0 ::
        (0xff :: 0xff :: 0xff :: 0xff :: 0x67 :: List.replicate 32 0)))).written = 32 + 14 ∧
    (ngx_rtmp_codec_parse_avc_header_in_keyframe 32 (some ctx_h264)
      (chain_of (0x17 :: 0x01 :: 0 :: 0 :: 0 ::
        (be32 (32 - 16) ++ 0x67 ::
          (List.replicate 15 0 ++ (0xff :: 0xff :: 0xff :: 0xff :: 0x68 :: [])))))).written
      = 32 + 1 :=
  C2_capacity_check_wraps 32 _ _ (List.replicate 32 0) (List.replicate 15 0)
    (by decide) (by decide) (by decide) (by decide) (by decide) (by decide)


/-! ## More on the bit reader and on the fields each parser leaves alone -/

theorem bit_at_le (data : List Nat) (i : Nat) : bit_at data i ≤ 1 := by
  unfold bit_at
  omega

theorem bits_value_lt (data : List Nat) (pos : Nat) : ∀ n, bits_value data pos n < 2 ^ n
  | 0 => by simp [bits_value]
  | n + 1 => by
    have ih := bits_value_lt data pos n
    have hb := bit_at_le data (pos + n)
    simp only [bits_value]
    rw [Nat.pow_succ]
    omega

/-- A read of `n` bits, inside the data or past its end, returns a value below
2^n. -/
theorem bit_read_lt (n : Nat) (r : ngx_rtmp_bit_reader_t) : (ngx_rtmp_bit_read n r).1 < 2 ^ n := by
  by_cases h : r.pos + n ≤ 8 * r.data.length
  · rw [bit_read_in_range n r h]
    exact lt_of_le_of_lt (Nat.mod_le _ _) (bits_value_lt _ _ n)
  · rw [bit_read_past_end n r (by omega)]
    exact Nat.two_pow_pos n

/-- The fields ngx_rtmp_codec_parse_aac_header leaves alone. -/
theorem parse_aac_frame (ctx : ngx_rtmp_codec_ctx_t) (c : ngx_chain_t) :
    (ngx_rtmp_codec_parse_aac_header ctx c).audio_codec_id = ctx.audio_codec_id ∧
    (ngx_rtmp_codec_parse_aac_header ctx c).video_codec_id = ctx.video_codec_id ∧
    (ngx_rtmp_codec_parse_aac_header ctx c).avc_nal_bytes = ctx.avc_nal_bytes ∧
    (ngx_rtmp_codec_parse_aac_header ctx c).avc_header = ctx.avc_header ∧
    (ngx_rtmp_codec_parse_aac_header ctx c).aac_header = ctx.aac_header ∧
    (ngx_rtmp_codec_parse_aac_header ctx c).meta = ctx.meta := by
  unfold ngx_rtmp_codec_parse_aac_header aac_decode
  simp only [bitm_bind_apply]
  split <;> exact ⟨rfl, rfl, rfl, rfl, rfl, rfl⟩

/-- Lines 698-699: the length size ngx_rtmp_codec_parse_avc_header stores. -/
theorem parse_avc_nal_bytes (ctx : ngx_rtmp_codec_ctx_t) (c : ngx_chain_t) :
    ∃ nb, (ngx_rtmp_codec_parse_avc_header ctx c).avc_nal_bytes = (nb &&& 0x03) + 1 := by
  unfold ngx_rtmp_codec_parse_avc_header avc_decode
  simp only [bitm_bind_apply]
  split
  · exact ⟨_, rfl⟩
  · simp only [bitm_bind_apply]
    split <;> exact ⟨_, rfl⟩

/-- The fields ngx_rtmp_codec_parse_hevc_header leaves alone, and the length
size it stores (lines 909-910). -/
theorem parse_hevc_frame (ctx : ngx_rtmp_codec_ctx_t) (c : ngx_chain_t) :
    (ngx_rtmp_codec_parse_hevc_header ctx c).video_codec_id = ctx.video_codec_id ∧
    (ngx_rtmp_codec_parse_hevc_header ctx c).audio_codec_id = ctx.audio_codec_id ∧
    (ngx_rtmp_codec_parse_hevc_header ctx c).avc_header = ctx.avc_header ∧
    (ngx_rtmp_codec_parse_hevc_header ctx c).aac_header = ctx.aac_header ∧
    (ngx_rtmp_codec_parse_hevc_header ctx c).meta = ctx.meta ∧
    ∃ r, (ngx_rtmp_codec_parse_hevc_header ctx c).avc_nal_bytes =
      ((ngx_rtmp_bit_read 2 r).1 + 1) % NGX_UINT_MOD := by
  unfold ngx_rtmp_codec_parse_hevc_header hevc_decode
  simp only [bitm_bind_apply]
  exact ⟨rfl, rfl, rfl, rfl, rfl, _, rfl⟩

theorem parse_avc_audio_codec_id (ctx : ngx_rtmp_codec_ctx_t) (c : ngx_chain_t) :
    (ngx_rtmp_codec_parse_avc_header ctx c).audio_codec_id = ctx.audio_codec_id := by
  unfold ngx_rtmp_codec_parse_avc_header avc_decode
  simp only [bitm_bind_apply]
  split
  · rfl
  · simp only [bitm_bind_apply]
    split <;> rfl


/-! ## C11, C15: what ngx_rtmp_codec_av keeps of the tag byte and of the
length size -/

theorem compat_frame (cap : Nat) (ctx : ngx_rtmp_codec_ctx_t) (c : ngx_chain_t) :
    (ngx_rtmp_codec_parse_avc_header_compat cap ctx c).1.video_codec_id = ctx.video_codec_id ∧
    ((ngx_rtmp_codec_parse_avc_header_compat cap ctx c).1.avc_nal_bytes = ctx.avc_nal_bytes ∨
      ∃ k, (ngx_rtmp_codec_parse_avc_header_compat cap ctx c).1.avc_nal_bytes
        = (ngx_rtmp_codec_parse_avc_header ctx k).avc_nal_bytes) := by
  unfold ngx_rtmp_codec_parse_avc_header_compat
  dsimp only
  split
  · exact ⟨rfl, Or.inl rfl⟩
  · exact ⟨(parse_avc_frame ctx _).1, Or.inr ⟨_, rfl⟩⟩

theorem av_save_codec_ids (ctx : ngx_rtmp_codec_ctx_t) (fmt : Nat) :
    (av_save_codec ctx NGX_RTMP_MSG_AUDIO_TYPE fmt).audio_codec_id = (fmt &&& 0xf0) >>> 4 ∧
    (av_save_codec ctx NGX_RTMP_MSG_VIDEO fmt).video_codec_id = fmt &&& 0x0f := by
  constructor
  · unfold av_save_codec
    rw [if_pos rfl]
    dsimp only
    split <;> rfl
  · unfold av_save_codec
    rw [if_neg (by decide)]

theorem av_save_codec_nal_bytes (ctx : ngx_rtmp_codec_ctx_t) (h_type fmt : Nat) :
    (av_save_codec ctx h_type fmt).avc_nal_bytes = ctx.avc_nal_bytes := by
  unfold av_save_codec
  split
  · dsimp only
    split <;> rfl
  · rfl

theorem nal_bytes_mask (nb : Nat) : 1 ≤ (nb &&& 0x03) + 1 ∧ (nb &&& 0x03) + 1 ≤ 4 := by
  have : nb &&& 0x03 ≤ 3 := Nat.and_le_right
  omega

theorem parse_avc_nal_valid (ctx : ngx_rtmp_codec_ctx_t) (c : ngx_chain_t) :
    nal_length_size_valid (ngx_rtmp_codec_parse_avc_header ctx c) := by
  obtain ⟨nb, h⟩ := parse_avc_nal_bytes ctx c
  unfold nal_length_size_valid
  rw [h]
  exact nal_bytes_mask nb

theorem parse_hevc_nal_valid (ctx : ngx_rtmp_codec_ctx_t) (c : ngx_chain_t) :
    nal_length_size_valid (ngx_rtmp_codec_parse_hevc_header ctx c) := by
  obtain ⟨r, h⟩ := (parse_hevc_frame ctx c).2.2.2.2.2
  have hlt := bit_read_lt 2 r
  unfold nal_length_size_valid
  rw [h, Nat.mod_eq_of_lt (by unfold NGX_UINT_MOD; omega)]
  omega

/-- Lines 554-568 and 570-578 for a message that is not audio, path by path. -/
theorem av_save_header_video (cap : Nat) (ctx : ngx_rtmp_codec_ctx_t) (h_type t : Nat)
    (c : ngx_chain_t) (hh : h_type ≠ NGX_RTMP_MSG_AUDIO_TYPE) :
    av_save_header cap ctx h_type t c =
      if ctx.video_codec_id = NGX_RTMP_VIDEO_H264 then
        if t = NGX_RTMP_CODEC_COMBO_SEQ_HEADER then
          { (ngx_rtmp_codec_parse_avc_header_compat cap ctx c).1 with
            avc_header := ngx_rtmp_append_shared_bufs
              (ngx_rtmp_codec_parse_avc_header_compat cap ctx c).2 }
        else
          { ngx_rtmp_codec_parse_avc_header ctx c with
            avc_header := ngx_rtmp_append_shared_bufs c }
      else if ctx.video_codec_id = NGX_RTMP_VIDEO_H265 then
        { ngx_rtmp_codec_parse_hevc_header ctx c with
          avc_header := ngx_rtmp_append_shared_bufs c }
      else ctx := by
  unfold av_save_header
  rw [if_neg hh]
  by_cases h264 : ctx.video_codec_id = NGX_RTMP_VIDEO_H264
  · have h265 : ¬ ctx.video_codec_id = NGX_RTMP_VIDEO_H265 := by rw [h264]; decide
    by_cases hc : t = NGX_RTMP_CODEC_COMBO_SEQ_HEADER
    · simp only [if_pos h264, if_pos hc, (compat_frame cap ctx c).1, if_neg h265, if_true]
    · simp only [if_pos h264, if_neg hc, (parse_avc_frame ctx c).1, if_neg h265, if_true]
  · by_cases h265 : ctx.video_codec_id = NGX_RTMP_VIDEO_H265
    · simp only [if_neg h264, if_pos h265, if_true]
    · simp only [if_neg h264, if_neg h265]
      rfl

/-- Lines 548-580 keep the codec id that lines 512-525 stored, and a valid
length size. -/
theorem av_save_header_frame (cap : Nat) (ctx : ngx_rtmp_codec_ctx_t) (t : Nat)
    (c : ngx_chain_t) :
    (av_save_header cap ctx NGX_RTMP_MSG_AUDIO_TYPE t c).audio_codec_id = ctx.audio_codec_id ∧
    (av_save_header cap ctx NGX_RTMP_MSG_VIDEO t c).video_codec_id = ctx.video_codec_id ∧
    ∀ h_type, nal_length_size_valid ctx →
      nal_length_size_valid (av_save_header cap ctx h_type t c) := by
  refine ⟨?_, ?_, ?_⟩
  · unfold av_save_header
    rw [if_pos rfl]
    split
    · exact (parse_aac_frame ctx c).1
    · rfl
  · rw [av_save_header_video cap ctx _ t c (by decide)]
    split
    · split
      · exact (compat_frame cap ctx c).1
      · exact (parse_avc_frame ctx c).1
    · split
      · exact (parse_hevc_frame ctx c).1
      · rfl
  · intro h_type hv
    by_cases hh : h_type = NGX_RTMP_MSG_AUDIO_TYPE
    · unfold av_save_header
      rw [if_pos hh]
      split
      · show 1 ≤ (ngx_rtmp_codec_parse_aac_header ctx c).avc_nal_bytes ∧
          (ngx_rtmp_codec_parse_aac_header ctx c).avc_nal_bytes ≤ 4
        rw [(parse_aac_frame ctx c).2.2.1]
        exact hv
      · exact hv
    · rw [av_save_header_video cap ctx h_type t c hh]
      split
      · split
        · show 1 ≤ (ngx_rtmp_codec_parse_avc_header_compat cap ctx c).1.avc_nal_bytes ∧
            (ngx_rtmp_codec_parse_avc_header_compat cap ctx c).1.avc_nal_bytes ≤ 4
          rcases (compat_frame cap ctx c).2 with h | ⟨k, h⟩
          · rw [h]; exact hv
          · rw [h]; exact parse_avc_nal_valid ctx k
        · exact parse_avc_nal_valid ctx c
      · split
        · exact parse_hevc_nal_valid ctx c
        · exact hv

/-- Lines 175-205 in closed form. -/
theorem disconnect_some (ctx : ngx_rtmp_codec_ctx_t) :
    ngx_rtmp_codec_disconnect (some ctx) =
      (NGX_OK, some { ctx with avc_header := none, aac_header := none, meta := none }) := by
  obtain ⟨w, h, d, fr, vdr, vc, adr, ac, ap, acc, sbr, ps, p, c, l, nb, rf, sr, ss, ach, pr, lv,
    avc, aac, m, mv⟩ := ctx
  cases avc <;> cases aac <;> cases m <;> rfl


/-- Lines 480-581 on an audio or video message with at least one payload
byte: the context after the call is the one lines 512-525 leave, or that one
passed through lines 548-580. -/
theorem codec_av_cases (cap : Nat) (s : Option ngx_rtmp_codec_ctx_t) (h_type : Nat)
    (c : ngx_chain_t) (hh : h_type = NGX_RTMP_MSG_AUDIO_TYPE ∨ h_type = NGX_RTMP_MSG_VIDEO)
    (hl : 1 ≤ c.buf.data.length) :
    ngx_rtmp_codec_av cap s h_type c =
        some (av_save_codec (s.getD ctx_zero) h_type (buf_at c.buf 0)) ∨
    ∃ t, ngx_rtmp_codec_av cap s h_type c =
        some (av_save_header cap (av_save_codec (s.getD ctx_zero) h_type (buf_at c.buf 0))
          h_type t c) := by
  have h1 : ¬ (h_type ≠ NGX_RTMP_MSG_AUDIO_TYPE ∧ h_type ≠ NGX_RTMP_MSG_VIDEO) := by
    rcases hh with h | h <;> rw [h] <;> decide
  have h2 : ¬ c.buf.data.length < 1 := by omega
  unfold ngx_rtmp_codec_av
  rw [if_neg h1]
  simp only [if_neg h2]
  split
  · exact Or.inl rfl
  · split
    · exact Or.inl rfl
    · exact Or.inr ⟨_, rfl⟩

/-- C11: for every prior context (or none yet), every audio payload of at
least one byte leaves audio_codec_id = (b0 & 0xf0) >> 4 after
ngx_rtmp_codec_av, and every video payload of at least one byte leaves
video_codec_id = b0 & 0x0f, with b0 the first payload byte, whatever the rest
of the payload, the bytes behind it in the buffer, the buffers that follow
and the scratch capacity are. -/
theorem C11_codec_ids_from_tag_byte (cap : Nat) (s : Option ngx_rtmp_codec_ctx_t)
    (b0 : Nat) (rest spare : List Nat) (next : List ngx_buf_t) :
    (ngx_rtmp_codec_av cap s NGX_RTMP_MSG_AUDIO_TYPE
      { buf := { data := b0 :: rest, spare := spare }, next := next }).map
        (fun ctx => ctx.audio_codec_id) = some ((b0 &&& 0xf0) >>> 4) ∧
    (ngx_rtmp_codec_av cap s NGX_RTMP_MSG_VIDEO
      { buf := { data := b0 :: rest, spare := spare }, next := next }).map
        (fun ctx => ctx.video_codec_id) = some (b0 &&& 0x0f) := by
  have hb : buf_at { data := b0 :: rest, spare := spare } 0 = b0 := rfl
  constructor
  · rcases codec_av_cases cap s NGX_RTMP_MSG_AUDIO_TYPE
      { buf := { data := b0 :: rest, spare := spare }, next := next } (Or.inl rfl)
      (by simp) with h | ⟨t, h⟩
    · rw [h, Option.map_some', hb, (av_save_codec_ids _ b0).1]
    · rw [h, Option.map_some', (av_save_header_frame cap _ t _).1, hb,
        (av_save_codec_ids _ b0).1]
  · rcases codec_av_cases cap s NGX_RTMP_MSG_VIDEO
      { buf := { data := b0 :: rest, spare := spare }, next := next } (Or.inr rfl)
      (by simp) with h | ⟨t, h⟩
    · rw [h, Option.map_some', hb, (av_save_codec_ids _ b0).2]
    · rw [h, Option.map_some', (av_save_header_frame cap _ t _).2.1, hb,
        (av_save_codec_ids _ b0).2]

theorem meta_data_nal_bytes (cacf_meta : Nat)
    (append_amf : ngx_rtmp_codec_ctx_t → Option (List Nat))
    (ctx : ngx_rtmp_codec_ctx_t) (version : Nat) (m : amf_meta_message) (c : ngx_chain_t) :
    (ngx_rtmp_codec_meta_data cacf_meta append_amf (some ctx) version m c).2.1.avc_nal_bytes
      = ctx.avc_nal_bytes ∧
    (ngx_rtmp_codec_reconstruct_meta append_amf ctx version).2.1.avc_nal_bytes
      = ctx.avc_nal_bytes ∧
    (ngx_rtmp_codec_copy_meta ctx c version).2.1.avc_nal_bytes = ctx.avc_nal_bytes ∧
    (ngx_rtmp_codec_prepare_meta ctx version).2.1.avc_nal_bytes = ctx.avc_nal_bytes := by
  have hrec : ∀ x : ngx_rtmp_codec_ctx_t,
      (ngx_rtmp_codec_reconstruct_meta append_amf x version).2.1.avc_nal_bytes
        = x.avc_nal_bytes := by
    intro x
    unfold ngx_rtmp_codec_reconstruct_meta
    dsimp only
    split <;> rfl
  have hcopy : ∀ x : ngx_rtmp_codec_ctx_t,
      (ngx_rtmp_codec_copy_meta x c version).2.1.avc_nal_bytes = x.avc_nal_bytes :=
    fun _ => rfl
  refine ⟨?_, hrec ctx, hcopy ctx, rfl⟩
  unfold ngx_rtmp_codec_meta_data
  dsimp only
  split
  · rfl
  · split
    · rw [hrec]; rfl
    · split
      · rw [hcopy]; rfl
      · rfl

/-- C15: whatever the prior context and the payload, complete, malformed or
truncated, ngx_rtmp_codec_parse_avc_header and
ngx_rtmp_codec_parse_hevc_header leave avc_nal_bytes in {1, 2, 3, 4}; and on a
context whose avc_nal_bytes is in {1, 2, 3, 4} every other operation of the
module leaves it there: the AAC parser, the combined-header path,
ngx_rtmp_codec_av on any message, the metadata handler and its three helpers,
and ngx_rtmp_codec_disconnect. -/
theorem C15_nal_length_size_invariant (ctx : ngx_rtmp_codec_ctx_t) (c : ngx_chain_t) :
    nal_length_size_valid (ngx_rtmp_codec_parse_avc_header ctx c) ∧
    nal_length_size_valid (ngx_rtmp_codec_parse_hevc_header ctx c) ∧
    (nal_length_size_valid ctx →
      nal_length_size_valid (ngx_rtmp_codec_parse_aac_header ctx c) ∧
      (∀ cap, nal_length_size_valid (ngx_rtmp_codec_parse_avc_header_compat cap ctx c).1) ∧
      (∀ cap h_type after, ngx_rtmp_codec_av cap (some ctx) h_type c = some after →
        nal_length_size_valid after) ∧
      (∀ cacf_meta append_amf version m,
        nal_length_size_valid
          (ngx_rtmp_codec_meta_data cacf_meta append_amf (some ctx) version m c).2.1) ∧
      (∀ append_amf version,
        nal_length_size_valid (ngx_rtmp_codec_reconstruct_meta append_amf ctx version).2.1) ∧
      (∀ version, nal_length_size_valid (ngx_rtmp_codec_copy_meta ctx c version).2.1) ∧
      (∀ version, nal_length_size_valid (ngx_rtmp_codec_prepare_meta ctx version).2.1) ∧
      (∀ after, (ngx_rtmp_codec_disconnect (some ctx)).2 = some after →
        nal_length_size_valid after)) := by
  refine ⟨parse_avc_nal_valid ctx c, parse_hevc_nal_valid ctx c, fun hv => ?_⟩
  have key : ∀ x : ngx_rtmp_codec_ctx_t, x.avc_nal_bytes = ctx.avc_nal_bytes →
      nal_length_size_valid x := fun x hx => by
    unfold nal_length_size_valid at hv ⊢
    rw [hx]; exact hv
  refine ⟨key _ (parse_aac_frame ctx c).2.2.1, ?_, ?_, ?_, ?_, ?_, ?_, ?_⟩
  · intro cap
    rcases (compat_frame cap ctx c).2 with h | ⟨k, h⟩
    · exact key _ h
    · unfold nal_length_size_valid
      rw [h]
      exact parse_avc_nal_valid ctx k
  · intro cap h_type after hafter
    by_cases hh : h_type = NGX_RTMP_MSG_AUDIO_TYPE ∨ h_type = NGX_RTMP_MSG_VIDEO
    · by_cases hl : 1 ≤ c.buf.data.length
      · have hsave : nal_length_size_valid
            (av_save_codec ctx h_type (buf_at c.buf 0)) :=
          key _ (av_save_codec_nal_bytes ctx h_type _)
        rcases codec_av_cases cap (some ctx) h_type c hh hl with h | ⟨t, h⟩
        · rw [h] at hafter
          rw [← Option.some.inj hafter]
          exact hsave
        · rw [h] at hafter
          rw [← Option.some.inj hafter]
          exact (av_save_header_frame cap _ t c).2.2 h_type hsave
      · have h1 : ¬ (h_type ≠ NGX_RTMP_MSG_AUDIO_TYPE ∧ h_type ≠ NGX_RTMP_MSG_VIDEO) := by
          rcases hh with h | h <;> rw [h] <;> decide
        unfold ngx_rtmp_codec_av at hafter
        rw [if_neg h1] at hafter
        simp only [if_pos (show c.buf.data.length < 1 by omega), Option.getD_some] at hafter
        rw [← Option.some.inj hafter]
        exact hv
    · have h1 : h_type ≠ NGX_RTMP_MSG_AUDIO_TYPE ∧ h_type ≠ NGX_RTMP_MSG_VIDEO :=
        ⟨fun h => hh (Or.inl h), fun h => hh (Or.inr h)⟩
      unfold ngx_rtmp_codec_av at hafter
      rw [if_pos h1] at hafter
      rw [← Option.some.inj hafter]
      exact hv
  · intro cacf_meta append_amf version m
    exact key _ (meta_data_nal_bytes cacf_meta append_amf ctx version m c).1
  · intro append_amf version
    exact key _ (meta_data_nal_bytes 0 append_amf ctx version
      ⟨false, none, none, none, none, none, none, none, none, none, none, none, none⟩ c).2.1
  · intro version
    exact key _ rfl
  · intro version
    exact key _ rfl
  · intro after hafter
    rw [disconnect_some] at hafter
    rw [← Option.some.inj hafter]
    exact key _ rfl

theorem C15_nal_length_size_invariant_witness :
    nal_length_size_valid ctx_h264 ∧
    nal_length_size_valid (ngx_rtmp_codec_parse_aac_header ctx_h264
      (chain_of [0xaf, 0x00, 0x14, 0x90])) :=
  ⟨by decide, ((C15_nal_length_size_invariant ctx_h264 (chain_of [0xaf, 0x00, 0x14, 0x90])).2.2
    (by decide)).1⟩


/-! ## C12: the codec name tables -/

/-- C12: ngx_rtmp_get_audio_codec_name returns the empty string for every id
of 17 (the table length) or more, ngx_rtmp_get_video_codec_name for every id
of 13 (the table length) or more and for id 0; for an id inside the table
they return the table entry, and audio 10 is "AAC", audio 16 "Uncompressed",
video 7 "H264", video 12 "H265". -/
theorem C12_codec_name_lookup :
    audio_codecs.length = 17 ∧ video_codecs.length = 13 ∧
    (∀ id, 17 ≤ id → ngx_rtmp_get_audio_codec_name id = "") ∧
    (∀ id, 13 ≤ id → ngx_rtmp_get_video_codec_name id = "") ∧
    ngx_rtmp_get_video_codec_name 0 = "" ∧
    (∀ id, id < 17 → audio_codecs[id]? = some (ngx_rtmp_get_audio_codec_name id)) ∧
    (∀ id, id < 13 → video_codecs[id]? = some (ngx_rtmp_get_video_codec_name id)) ∧
    ngx_rtmp_get_audio_codec_name 10 = "AAC" ∧
    ngx_rtmp_get_audio_codec_name 16 = "Uncompressed" ∧
    ngx_rtmp_get_video_codec_name 7 = "H264" ∧
    ngx_rtmp_get_video_codec_name 12 = "H265" := by
  have ha : audio_codecs.length = 17 := rfl
  have hv : video_codecs.length = 13 := rfl
  refine ⟨ha, hv, ?_, ?_, by decide, ?_, ?_, by decide, by decide, by decide, by decide⟩
  · intro id h
    unfold ngx_rtmp_get_audio_codec_name
    rw [if_neg (by rw [ha]; omega)]
  · intro id h
    unfold ngx_rtmp_get_video_codec_name
    rw [if_neg (by rw [hv]; omega)]
  · intro id h
    unfold ngx_rtmp_get_audio_codec_name
    rw [if_pos (by rw [ha]; exact h), List.getD_eq_getElem?_getD,
      List.getElem?_eq_getElem (by rw [ha]; exact h)]
    rfl
  · intro id h
    unfold ngx_rtmp_get_video_codec_name
    rw [if_pos (by rw [hv]; exact h), List.getD_eq_getElem?_getD,
      List.getElem?_eq_getElem (by rw [hv]; exact h)]
    rfl

theorem C12_codec_name_lookup_witness :
    ngx_rtmp_get_audio_codec_name 17 = "" ∧ ngx_rtmp_get_video_codec_name 13 = "" ∧
    audio_codecs[2]? = some (ngx_rtmp_get_audio_codec_name 2) :=
  ⟨C12_codec_name_lookup.2.2.1 17 (by decide), C12_codec_name_lookup.2.2.2.1 13 (by decide),
    C12_codec_name_lookup.2.2.2.2.2.1 2 (by decide)⟩

/-! ## C13, C14: the metadata version counter -/

/-- Lines 161-172 in closed form: the counter is incremented, and once more
when the increment wrapped to 0; the value returned is the counter. -/
theorem get_next_version_eq (version : Nat) :
    ngx_rtmp_codec_get_next_version version =
      if (version + 1) % NGX_UINT_MOD = 0 then (1, 1)
      else ((version + 1) % NGX_UINT_MOD, (version + 1) % NGX_UINT_MOD) := by
  unfold ngx_rtmp_codec_get_next_version
  dsimp only
  split
  · rename_i h
    rw [h]
    rfl
  · rfl

/-- C13: for every value of the process-wide counter, the maximum value of an
ngx_uint_t included, ngx_rtmp_codec_get_next_version returns a value different
from 0 and leaves the counter different from 0; hence the version that
ngx_rtmp_codec_prepare_meta assigns is never 0. -/
theorem C13_version_never_zero (version : Nat) (ctx : ngx_rtmp_codec_ctx_t) :
    (ngx_rtmp_codec_get_next_version version).1 ≠ 0 ∧
    (ngx_rtmp_codec_get_next_version version).2 ≠ 0 ∧
    ngx_rtmp_codec_get_next_version (NGX_UINT_MOD - 1) = (1, 1) ∧
    (ngx_rtmp_codec_prepare_meta ctx version).2.1.meta_version ≠ 0 ∧
    (ngx_rtmp_codec_prepare_meta ctx version).2.2 ≠ 0 := by
  have h : (ngx_rtmp_codec_get_next_version version).1 ≠ 0 ∧
      (ngx_rtmp_codec_get_next_version version).2 ≠ 0 := by
    rw [get_next_version_eq]
    split
    · exact ⟨by decide, by decide⟩
    · rename_i h
      exact ⟨h, h⟩
  exact ⟨h.1, h.2, by decide, h.1, h.2⟩

theorem version_calls_range : ∀ (n start : Nat), start + n < NGX_UINT_MOD →
    version_calls n start = List.range' (start + 1) n
  | 0, _, _ => rfl
  | n + 1, start, h => by
    have e : ngx_rtmp_codec_get_next_version start = (start + 1, start + 1) := by
      rw [get_next_version_eq, Nat.mod_eq_of_lt (by omega), if_neg (by omega)]
    rw [version_calls, e, version_calls_range n (start + 1) (by omega), List.range']

/-- C14: the value ngx_rtmp_codec_get_next_version returns is the counter it
leaves; on a counter v below 2^64 - 1 (the last value returned, or the initial
0) the next result is v + 1, on 2^64 - 1 it is 1; and calls in a row that start
on a counter `start` return start + 1, start + 2, ... as long as these stay
below 2^64: 10,000 calls from the initial counter 0 return 1, 2, ..., 10000. -/
theorem C14_versions_increase :
    (∀ v, (ngx_rtmp_codec_get_next_version v).2 = (ngx_rtmp_codec_get_next_version v).1) ∧
    (∀ v, v < NGX_UINT_MOD - 1 → (ngx_rtmp_codec_get_next_version v).1 = v + 1) ∧
    (ngx_rtmp_codec_get_next_version (NGX_UINT_MOD - 1)).1 = 1 ∧
    (∀ n start, start + n < NGX_UINT_MOD →
      version_calls n start = List.range' (start + 1) n) ∧
    version_calls 10000 0 = List.range' 1 10000 := by
  refine ⟨?_, ?_, by decide, version_calls_range, version_calls_range 10000 0 (by decide)⟩
  · intro v
    rw [get_next_version_eq]
    split <;> rfl
  · intro v h
    have h2 : v + 1 < NGX_UINT_MOD := by omega
    rw [get_next_version_eq, Nat.mod_eq_of_lt h2, if_neg (by omega)]

theorem C14_versions_increase_witness :
    (ngx_rtmp_codec_get_next_version 41).1 = 41 + 1 ∧
    version_calls 3 7 = List.range' (7 + 1) 3 :=
  ⟨C14_versions_increase.2.1 41 (by decide), C14_versions_increase.2.2.2.1 3 7 (by decide)⟩

/-! ## C17: ngx_rtmp_codec_disconnect -/

/-- C17: for every codec context ngx_rtmp_codec_disconnect returns NGX_OK and
leaves avc_header, aac_header and the cached metadata buffer NULL, with every
other field as it was; applied to its own result it changes nothing; and with
no codec context it returns NGX_OK and there is still none. -/
theorem C17_disconnect_clears (s : Option ngx_rtmp_codec_ctx_t) (ctx : ngx_rtmp_codec_ctx_t) :
    (ngx_rtmp_codec_disconnect s).1 = NGX_OK ∧
    (ngx_rtmp_codec_disconnect (some ctx)).2 =
      some { ctx with avc_header := none, aac_header := none, meta := none } ∧
    ngx_rtmp_codec_disconnect (ngx_rtmp_codec_disconnect s).2 = ngx_rtmp_codec_disconnect s ∧
    ngx_rtmp_codec_disconnect none = (NGX_OK, none) := by
  refine ⟨?_, ?_, ?_, rfl⟩
  · cases s
    · rfl
    · rw [disconnect_some]
  · rw [disconnect_some]
  · cases s
    · rfl
    · rw [disconnect_some, disconnect_some]


/-! ## The output of the synthesizer starts with the preamble -/

/-- The loop of lines 375-454 only appends to the output buffer. -/
theorem avc_nal_loop_out_prefix (cap nb : Nat) : ∀ (fuel : Nat) (k : chain_cursor)
    (out : List Nat) (hs : Nat),
    ∃ rest, (avc_nal_loop cap nb fuel k out hs).out = out ++ rest
  | 0, _, out, _ => ⟨[], by rw [avc_nal_loop]; simp⟩
  | fuel + 1, none, out, _ => ⟨[], by rw [avc_nal_loop]; simp⟩
  | fuel + 1, some c, out, hs => by
    rw [avc_nal_loop]
    dsimp only
    split
    · exact ⟨[], by simp⟩
    · split
      · exact avc_nal_loop_out_prefix cap nb fuel _ out hs
      · split
        · exact ⟨[], by simp⟩
        · split
          · split
            · exact ⟨[], by simp⟩
            · exact avc_nal_loop_out_prefix cap nb fuel _ out hs
          · split
            · exact ⟨[], by simp⟩
            · split
              · exact ⟨_, rfl⟩
              · obtain ⟨rest, h⟩ := avc_nal_loop_out_prefix cap nb fuel
                  (ngx_rtmp_hls_copy
                    (be_value (ngx_rtmp_hls_copy nb (some c)).bytes % UINT32_MOD - 1)
                    (ngx_rtmp_hls_copy 1 (ngx_rtmp_hls_copy nb (some c)).cur).cur).cur
                  (out ++ [((be_value (ngx_rtmp_hls_copy nb (some c)).bytes % UINT32_MOD) >>> 8)
                      % 256,
                    be_value (ngx_rtmp_hls_copy nb (some c)).bytes % UINT32_MOD &&& 0xff,
                    (ngx_rtmp_hls_copy 1 (ngx_rtmp_hls_copy nb (some c)).cur).bytes.getD 0 0]
                    ++ (ngx_rtmp_hls_copy
                      (be_value (ngx_rtmp_hls_copy nb (some c)).bytes % UINT32_MOD - 1)
                      (ngx_rtmp_hls_copy 1 (ngx_rtmp_hls_copy nb (some c)).cur).cur).bytes
                    ++ [0x01]) 1
                exact ⟨_, by rw [h, List.append_assoc, List.append_assoc, List.append_assoc]⟩

/-- When the synthesizer returns NGX_OK on a payload of packet type 1, the
output buffer starts with the 11-byte preamble of lines 332-363, which carries
the profile, compatibility and level bytes of the context. -/
theorem keyframe_ok_preamble (cap : Nat) (ctx : ngx_rtmp_codec_ctx_t) (c : ngx_chain_t)
    (hrc : (ngx_rtmp_codec_parse_avc_header_in_keyframe cap (some ctx) c).rc = NGX_OK)
    (h1 : (chain_bytes c).getD 1 0 = 1) :
    ∃ rest, (ngx_rtmp_codec_parse_avc_header_in_keyframe cap (some ctx) c).out =
      [0x17, 0x00, 0x00, 0x00, 0x00, 0x01, ctx.avc_profile % 256, ctx.avc_compat % 256,
        ctx.avc_level % 256, 0xff, 0xe1] ++ rest := by
  have hne : NGX_ERROR ≠ NGX_OK := by decide
  rw [keyframe_flat] at hrc ⊢
  generalize chain_bytes c = l at hrc h1 ⊢
  match l, h1 with
  | [], h1 => exact absurd h1 (by decide)
  | [x], h1 => exact absurd h1 (by simp)
  | b0 :: b1 :: t, h1 =>
    have hb1 : b1 = 1 := h1
    subst hb1
    have p1 : ngx_rtmp_hls_copy 1 (some (b0 :: 1 :: t, [])) =
        ⟨NGX_OK, [b0], some (1 :: t, [])⟩ := hls_copy_take [b0] (1 :: t)
    have p2 : ngx_rtmp_hls_copy 1 (some (1 :: t, [])) = ⟨NGX_OK, [1], hls_skip t []⟩ :=
      hls_copy_take [1] t
    have hok : ¬ (NGX_OK ≠ NGX_OK) := fun hh => hh rfl
    have h11 : ¬ ((1 : Nat) ≠ 1) := fun hh => hh rfl
    unfold ngx_rtmp_codec_parse_avc_header_in_keyframe at hrc ⊢
    simp only [chain_of_data, chain_of_next, p1, p2, if_neg hok, List.getD_cons_zero,
      if_neg h11] at hrc ⊢
    split at hrc
    · exact absurd hrc hne
    · rename_i hg
      rw [if_neg hg]
      split at hrc
      · exact absurd hrc hne
      · rename_i hidr
        rw [if_neg hidr]
        have hf : (b0 &&& 0xf0) >>> 4 = 1 := not_not.mp hidr
        split at hrc
        · exact absurd hrc hne
        · rename_i h3
          rw [if_neg h3, hf]
          exact avc_nal_loop_out_prefix cap _ _ _ _ _


/-- Lines 694-696 on a payload of at least 9 bytes: the profile, compatibility
and level stored are bytes 6, 7 and 8, whatever follows. -/
theorem parse_avc_profile_bytes (ctx : ngx_rtmp_codec_ctx_t) (c : ngx_chain_t)
    (h : 9 ≤ c.buf.data.length) :
    (ngx_rtmp_codec_parse_avc_header ctx c).avc_profile = c.buf.data.getD 6 0 % 256 ∧
    (ngx_rtmp_codec_parse_avc_header ctx c).avc_compat = c.buf.data.getD 7 0 % 256 ∧
    (ngx_rtmp_codec_parse_avc_header ctx c).avc_level = c.buf.data.getD 8 0 % 256 := by
  have e0 : ngx_rtmp_bit_read 48 ⟨c.buf.data, 0, false⟩ =
      (bits_value c.buf.data 0 48 % NGX_UINT_MOD, ⟨c.buf.data, 48, false⟩) :=
    bit_read_at c.buf.data 0 48 false (by omega)
  have e1 : ngx_rtmp_bit_read_8 ⟨c.buf.data, 48, false⟩ =
      (c.buf.data.getD 6 0 % 256, ⟨c.buf.data, 56, false⟩) :=
    bit_read_8_aligned c.buf.data 6 false (by omega)
  have e2 : ngx_rtmp_bit_read_8 ⟨c.buf.data, 56, false⟩ =
      (c.buf.data.getD 7 0 % 256, ⟨c.buf.data, 64, false⟩) :=
    bit_read_8_aligned c.buf.data 7 false (by omega)
  have e3 : ngx_rtmp_bit_read_8 ⟨c.buf.data, 64, false⟩ =
      (c.buf.data.getD 8 0 % 256, ⟨c.buf.data, 72, false⟩) :=
    bit_read_8_aligned c.buf.data 8 false (by omega)
  unfold ngx_rtmp_codec_parse_avc_header avc_decode
  simp only [bitm_bind_apply, ngx_rtmp_bit_init_reader, e0, e1, e2, e3]
  split
  · exact ⟨rfl, rfl, rfl⟩
  · simp only [bitm_bind_apply]
    split <;> exact ⟨rfl, rfl, rfl⟩

/-! ## C16: the combined-header path keeps profile, compatibility and level -/

/-- C16: when the synthesizer returns NGX_OK on a payload of packet type 1 (it
then is a key frame of an H.264 stream) and the context holds avc_profile,
avc_compat and avc_level below 256, bytes 6, 7 and 8 of the synthesized buffer
are these three values, ngx_rtmp_codec_parse_avc_header_compat re-parses that
buffer, and the three fields after it, and after lines 548-580 of
ngx_rtmp_codec_av on the combined path, are what they were before. -/
theorem C16_combo_keeps_profile (cap : Nat) (ctx : ngx_rtmp_codec_ctx_t) (c : ngx_chain_t)
    (hp : ctx.avc_profile < 256) (hc : ctx.avc_compat < 256) (hl : ctx.avc_level < 256)
    (h1 : (chain_bytes c).getD 1 0 = 1)
    (hrc : (ngx_rtmp_codec_parse_avc_header_in_keyframe cap (some ctx) c).rc = NGX_OK) :
    ((ngx_rtmp_codec_parse_avc_header_in_keyframe cap (some ctx) c).out.getD 6 0
        = ctx.avc_profile ∧
      (ngx_rtmp_codec_parse_avc_header_in_keyframe cap (some ctx) c).out.getD 7 0
        = ctx.avc_compat ∧
      (ngx_rtmp_codec_parse_avc_header_in_keyframe cap (some ctx) c).out.getD 8 0
        = ctx.avc_level) ∧
    ngx_rtmp_codec_parse_avc_header_compat cap ctx c =
      (ngx_rtmp_codec_parse_avc_header ctx
          (sps_chain (ngx_rtmp_codec_parse_avc_header_in_keyframe cap (some ctx) c).out),
        sps_chain (ngx_rtmp_codec_parse_avc_header_in_keyframe cap (some ctx) c).out) ∧
    ((ngx_rtmp_codec_parse_avc_header_compat cap ctx c).1.avc_profile = ctx.avc_profile ∧
      (ngx_rtmp_codec_parse_avc_header_compat cap ctx c).1.avc_compat = ctx.avc_compat ∧
      (ngx_rtmp_codec_parse_avc_header_compat cap ctx c).1.avc_level = ctx.avc_level) ∧
    ((av_save_header cap ctx NGX_RTMP_MSG_VIDEO NGX_RTMP_CODEC_COMBO_SEQ_HEADER c).avc_profile
        = ctx.avc_profile ∧
      (av_save_header cap ctx NGX_RTMP_MSG_VIDEO NGX_RTMP_CODEC_COMBO_SEQ_HEADER c).avc_compat
        = ctx.avc_compat ∧
      (av_save_header cap ctx NGX_RTMP_MSG_VIDEO NGX_RTMP_CODEC_COMBO_SEQ_HEADER c).avc_level
        = ctx.avc_level) := by
  obtain ⟨rest, hout⟩ := keyframe_ok_preamble cap ctx c hrc h1
  have hv : ctx.video_codec_id = NGX_RTMP_VIDEO_H264 := by
    by_contra hne
    have : (ngx_rtmp_codec_parse_avc_header_in_keyframe cap (some ctx) c).rc = NGX_ERROR := by
      unfold ngx_rtmp_codec_parse_avc_header_in_keyframe
      simp only [if_pos (Or.inl hne : ctx.video_codec_id ≠ NGX_RTMP_VIDEO_H264 ∨
        ctx.avc_nal_bytes = 0)]
    rw [this] at hrc
    exact absurd hrc (by decide)
  have hcompat : ngx_rtmp_codec_parse_avc_header_compat cap ctx c =
      (ngx_rtmp_codec_parse_avc_header ctx
          (sps_chain (ngx_rtmp_codec_parse_avc_header_in_keyframe cap (some ctx) c).out),
        sps_chain (ngx_rtmp_codec_parse_avc_header_in_keyframe cap (some ctx) c).out) := by
    unfold ngx_rtmp_codec_parse_avc_header_compat
    simp only [if_neg (not_not.mpr hrc)]
  have hlen : 9 ≤ (sps_chain
      (ngx_rtmp_codec_parse_avc_header_in_keyframe cap (some ctx) c).out).buf.data.length := by
    show 9 ≤ (ngx_rtmp_codec_parse_avc_header_in_keyframe cap (some ctx) c).out.length
    rw [hout]
    simp
  have hb := parse_avc_profile_bytes ctx _ hlen
  have h6 : (ngx_rtmp_codec_parse_avc_header_in_keyframe cap (some ctx) c).out.getD 6 0
      = ctx.avc_profile := by
    rw [hout]
    exact Nat.mod_eq_of_lt hp
  have h7 : (ngx_rtmp_codec_parse_avc_header_in_keyframe cap (some ctx) c).out.getD 7 0
      = ctx.avc_compat := by
    rw [hout]
    exact Nat.mod_eq_of_lt hc
  have h8 : (ngx_rtmp_codec_parse_avc_header_in_keyframe cap (some ctx) c).out.getD 8 0
      = ctx.avc_level := by
    rw [hout]
    exact Nat.mod_eq_of_lt hl
  have hparse : (ngx_rtmp_codec_parse_avc_header ctx (sps_chain
        (ngx_rtmp_codec_parse_avc_header_in_keyframe cap (some ctx) c).out)).avc_profile
        = ctx.avc_profile ∧
      (ngx_rtmp_codec_parse_avc_header ctx (sps_chain
        (ngx_rtmp_codec_parse_avc_header_in_keyframe cap (some ctx) c).out)).avc_compat
        = ctx.avc_compat ∧
      (ngx_rtmp_codec_parse_avc_header ctx (sps_chain
        (ngx_rtmp_codec_parse_avc_header_in_keyframe cap (some ctx) c).out)).avc_level
        = ctx.avc_level := by
    refine ⟨hb.1.trans ?_, hb.2.1.trans ?_, hb.2.2.trans ?_⟩
    · show (ngx_rtmp_codec_parse_avc_header_in_keyframe cap (some ctx) c).out.getD 6 0 % 256 = _
      rw [h6]; exact Nat.mod_eq_of_lt hp
    · show (ngx_rtmp_codec_parse_avc_header_in_keyframe cap (some ctx) c).out.getD 7 0 % 256 = _
      rw [h7]; exact Nat.mod_eq_of_lt hc
    · show (ngx_rtmp_codec_parse_avc_header_in_keyframe cap (some ctx) c).out.getD 8 0 % 256 = _
      rw [h8]; exact Nat.mod_eq_of_lt hl
  refine ⟨⟨h6, h7, h8⟩, hcompat, ?_, ?_⟩
  · rw [hcompat]
    exact hparse
  · rw [av_save_header_combo_ok cap ctx c hv hrc]
    exact hparse

theorem C16_combo_keeps_profile_witness :
    (ngx_rtmp_codec_parse_avc_header_in_keyframe 256 (some ctx_640x480) idr_two_buffers).rc
      = NGX_OK ∧
    (ngx_rtmp_codec_parse_avc_header_compat 256 ctx_640x480 idr_two_buffers).1.avc_profile = 66 ∧
    (ngx_rtmp_codec_parse_avc_header_compat 256 ctx_640x480 idr_two_buffers).1.avc_compat = 192 ∧
    (ngx_rtmp_codec_parse_avc_header_compat 256 ctx_640x480 idr_two_buffers).1.avc_level = 30 :=
  ⟨by decide!, (C16_combo_keeps_profile 256 ctx_640x480 idr_two_buffers (by decide) (by decide)
    (by decide) (by decide) (by decide!)).2.2.1⟩


/-! ## C20: the AudioSpecificConfig decode -/

/-- A read of fewer than 64 bits inside the data returns the bits as they
are. -/
theorem bit_read_value (data : List Nat) (p n : Nat) (e : Bool)
    (h : p + n ≤ 8 * data.length) (hn : n < 64) :
    ngx_rtmp_bit_read n ⟨data, p, e⟩ = (bits_value data p n, ⟨data, p + n, e⟩) := by
  rw [bit_read_at data p n e h, Nat.mod_eq_of_lt]
  have h1 := bits_value_lt data p n
  have h2 : 2 ^ n < 2 ^ 64 := Nat.pow_lt_pow_right (by decide) hn
  unfold NGX_UINT_MOD
  omega

theorem aac_rates_agree (i : Nat) (h : i < 16) (h15 : i ≠ 15) :
    aac_sample_rates.getD i 0 = if i ≤ 12 then aac_frequencies_spec.getD i 0 else 0 := by
  interval_cases i <;> rfl

/-- Lines 612-615 at bit 16 of a payload that holds the object type. -/
theorem aac_object_type_at (data : List Nat)
    (h : (if bits_value data 16 5 = 31 then 27 else 21) ≤ 8 * data.length) :
    aac_read_object_type ⟨data, 16, false⟩ =
      (if bits_value data 16 5 = 31 then bits_value data 21 6 + 32 else bits_value data 16 5,
        ⟨data, if bits_value data 16 5 = 31 then 27 else 21, false⟩) := by
  unfold aac_read_object_type
  by_cases h31 : bits_value data 16 5 = 31
  · rw [if_pos h31] at h
    simp only [bitm_bind_apply, bit_read_value data 16 5 false (by omega) (by decide), if_pos h31,
      bit_read_value data 21 6 false (by omega) (by decide), bitm_pure_apply]
    have := bits_value_lt data 21 6
    rw [Nat.mod_eq_of_lt (by unfold NGX_UINT_MOD; omega)]
  · rw [if_neg h31] at h
    simp only [bitm_bind_apply, bit_read_value data 16 5 false (by omega) (by decide), if_neg h31,
      bitm_pure_apply]

/-- Lines 617-622 at bit `p` of a payload that holds the frequency fields. -/
theorem aac_sample_rate_at (data : List Nat) (p : Nat)
    (h : (if bits_value data p 4 = 15 then p + 28 else p + 4) ≤ 8 * data.length) :
    aac_read_sample_rate ⟨data, p, false⟩ =
      (if bits_value data p 4 = 15 then bits_value data (p + 4) 24
        else if bits_value data p 4 ≤ 12 then aac_frequencies_spec.getD (bits_value data p 4) 0
        else 0,
        ⟨data, if bits_value data p 4 = 15 then p + 28 else p + 4, false⟩) := by
  unfold aac_read_sample_rate
  by_cases h15 : bits_value data p 4 = 15
  · rw [if_pos h15] at h
    simp only [bitm_bind_apply, bit_read_value data p 4 false (by omega) (by decide), if_pos h15,
      bit_read_value data (p + 4) 24 false (by omega) (by decide)]
  · rw [if_neg h15] at h
    simp only [bitm_bind_apply, bit_read_value data p 4 false (by omega) (by decide), if_neg h15,
      bitm_pure_apply, aac_rates_agree _ (bits_value_lt data p 4) h15]

/-- The reads of lines 610-624 on a payload that holds the fields up to the
channel configuration: what each returns and where it leaves the reader. -/
theorem aac_config_reads (data : List Nat)
    (h : (aac_config_of data).bits_end ≤ 8 * data.length) :
    ngx_rtmp_bit_read 16 ⟨data, 0, false⟩ = (bits_value data 0 16, ⟨data, 16, false⟩) ∧
    aac_read_object_type ⟨data, 16, false⟩ =
      ((aac_config_of data).object_type,
        ⟨data, if bits_value data 16 5 = 31 then 27 else 21, false⟩) ∧
    aac_read_sample_rate ⟨data, if bits_value data 16 5 = 31 then 27 else 21, false⟩ =
      ((aac_config_of data).sample_rate, ⟨data, (aac_config_of data).bits_end - 4, false⟩) ∧
    ngx_rtmp_bit_read 4 ⟨data, (aac_config_of data).bits_end - 4, false⟩ =
      ((aac_config_of data).chan_conf, ⟨data, (aac_config_of data).bits_end, false⟩) := by
  by_cases h31 : bits_value data 16 5 = 31
  · by_cases h15 : bits_value data 27 4 = 15
    · simp only [aac_config_of, if_pos h31, if_pos h15] at h ⊢
      exact ⟨bit_read_value data 0 16 false (by omega) (by decide),
        by rw [aac_object_type_at data (by rw [if_pos h31]; omega)]; simp only [if_pos h31],
        by rw [aac_sample_rate_at data 27 (by rw [if_pos h15]; omega)]; simp only [if_pos h15],
        bit_read_value data 55 4 false (by omega) (by decide)⟩
    · simp only [aac_config_of, if_pos h31, if_neg h15] at h ⊢
      exact ⟨bit_read_value data 0 16 false (by omega) (by decide),
        by rw [aac_object_type_at data (by rw [if_pos h31]; omega)]; simp only [if_pos h31],
        by rw [aac_sample_rate_at data 27 (by rw [if_neg h15]; omega)]; simp only [if_neg h15],
        bit_read_value data 31 4 false (by omega) (by decide)⟩
  · by_cases h15 : bits_value data 21 4 = 15
    · simp only [aac_config_of, if_neg h31, if_pos h15] at h ⊢
      exact ⟨bit_read_value data 0 16 false (by omega) (by decide),
        by rw [aac_object_type_at data (by rw [if_neg h31]; omega)]; simp only [if_neg h31],
        by rw [aac_sample_rate_at data 21 (by rw [if_pos h15]; omega)]; simp only [if_pos h15],
        bit_read_value data 49 4 false (by omega) (by decide)⟩
    · simp only [aac_config_of, if_neg h31, if_neg h15] at h ⊢
      exact ⟨bit_read_value data 0 16 false (by omega) (by decide),
        by rw [aac_object_type_at data (by rw [if_neg h31]; omega)]; simp only [if_neg h31],
        by rw [aac_sample_rate_at data 21 (by rw [if_neg h15]; omega)]; simp only [if_neg h15],
        bit_read_value data 25 4 false (by omega) (by decide)⟩

/-- C20: for every AAC sequence-header payload long enough to hold the fields
up to the channel configuration, ngx_rtmp_codec_parse_aac_header decodes,
starting at bit 16, the object type t, the sample rate and the channel
configuration as the spec words them (`aac_config_of`): the object type read
and the sample rate read are those, aac_chan_conf is stored as the 4-bit
channel configuration, and when t is neither 5 nor 29 the context ends with
aac_profile = t and with that sample rate. -/
theorem C20_aac_config_decode (ctx : ngx_rtmp_codec_ctx_t) (c : ngx_chain_t)
    (h : (aac_config_of c.buf.data).bits_end ≤ 8 * c.buf.data.length) :
    (aac_read_object_type ⟨c.buf.data, 16, false⟩).1 = (aac_config_of c.buf.data).object_type ∧
    (aac_read_sample_rate (aac_read_object_type ⟨c.buf.data, 16, false⟩).2).1
      = (aac_config_of c.buf.data).sample_rate ∧
    (ngx_rtmp_codec_parse_aac_header ctx c).aac_chan_conf = (aac_config_of c.buf.data).chan_conf ∧
    ((aac_config_of c.buf.data).object_type ≠ 5 ∧ (aac_config_of c.buf.data).object_type ≠ 29 →
      (ngx_rtmp_codec_parse_aac_header ctx c).aac_profile
        = (aac_config_of c.buf.data).object_type ∧
      (ngx_rtmp_codec_parse_aac_header ctx c).sample_rate
        = (aac_config_of c.buf.data).sample_rate) := by
  obtain ⟨e16, eo, es, ec⟩ := aac_config_reads c.buf.data h
  refine ⟨by rw [eo], by rw [eo, es], ?_, ?_⟩
  · unfold ngx_rtmp_codec_parse_aac_header aac_decode
    simp only [bitm_bind_apply, ngx_rtmp_bit_init_reader, e16, eo, es, ec]
    split
    · simp only [bitm_bind_apply, bitm_pure_apply]
    · rfl
  · intro ht
    unfold ngx_rtmp_codec_parse_aac_header aac_decode
    simp only [bitm_bind_apply, ngx_rtmp_bit_init_reader, e16, eo, es, ec]
    rw [if_neg (by
      intro hh
      rcases hh with hh | hh
      · exact ht.1 hh
      · exact ht.2 hh)]
    exact ⟨rfl, rfl⟩

theorem C20_aac_config_decode_witness :
    aac_config_of [0xaf, 0x00, 0x12, 0x10] = ⟨2, 44100, 2, 29⟩ ∧
    (ngx_rtmp_codec_parse_aac_header ctx_zero (chain_of [0xaf, 0x00, 0x12, 0x10])).aac_chan_conf
      = (aac_config_of [0xaf, 0x00, 0x12, 0x10]).chan_conf ∧
    ((aac_config_of [0xaf, 0x00, 0x12, 0x10]).object_type ≠ 5 ∧
      (aac_config_of [0xaf, 0x00, 0x12, 0x10]).object_type ≠ 29 →
      (ngx_rtmp_codec_parse_aac_header ctx_zero (chain_of [0xaf, 0x00, 0x12, 0x10])).aac_profile
        = (aac_config_of [0xaf, 0x00, 0x12, 0x10]).object_type ∧
      (ngx_rtmp_codec_parse_aac_header ctx_zero (chain_of [0xaf, 0x00, 0x12, 0x10])).sample_rate
        = (aac_config_of [0xaf, 0x00, 0x12, 0x10]).sample_rate) :=
  ⟨by decide, (C20_aac_config_decode ctx_zero (chain_of [0xaf, 0x00, 0x12, 0x10])
    (by decide)).2.2⟩


/-! ## C18: reading an Exp-Golomb code -/

theorem pack_bits_length : ∀ (n : Nat) (bits : List Nat), (pack_bits n bits).length = n
  | 0, _ => rfl
  | n + 1, bits => by rw [pack_bits, List.length_cons, pack_bits_length n]

theorem getD_le_one (bits : List Nat) (hb : ∀ b ∈ bits, b ≤ 1) (i : Nat) : bits.getD i 0 ≤ 1 := by
  rw [List.getD_eq_getElem?_getD]
  by_cases h : i < bits.length
  · rw [List.getElem?_eq_getElem h]
    exact hb _ (List.getElem_mem h)
  · rw [List.getElem?_eq_none (by omega)]
    exact Nat.zero_le _

theorem bit_at_cons (x : Nat) (rest : List Nat) (i : Nat) :
    bit_at (x :: rest) (i + 8) = bit_at rest i := by
  unfold bit_at
  rw [show (i + 8) / 8 = i / 8 + 1 by omega, List.getD_cons_succ,
    show (i + 8) % 8 = i % 8 by omega]

/-- The bits of a packed bit string are the bits that were packed. -/
theorem bit_at_pack_bits : ∀ (n : Nat) (bits : List Nat) (i : Nat), (∀ b ∈ bits, b ≤ 1) →
    i < 8 * n → bit_at (pack_bits n bits) i = bits.getD i 0
  | 0, _, _, _, h => absurd h (by omega)
  | n + 1, bits, i, hb, h => by
    by_cases h8 : i < 8
    · have b0 := getD_le_one bits hb 0
      have b1 := getD_le_one bits hb 1
      have b2 := getD_le_one bits hb 2
      have b3 := getD_le_one bits hb 3
      have b4 := getD_le_one bits hb 4
      have b5 := getD_le_one bits hb 5
      have b6 := getD_le_one bits hb 6
      have b7 := getD_le_one bits hb 7
      unfold pack_bits bit_at byte_of_bits
      interval_cases i <;> simp only [Nat.zero_div, Nat.reduceDiv, List.getD_cons_zero,
        Nat.reduceMod, Nat.reduceSub, Nat.reduceMod, Nat.zero_mod, Nat.sub_zero, Nat.reducePow,
        Nat.pow_zero, Nat.div_one] <;> omega
    · obtain ⟨j, rfl⟩ : ∃ j, i = j + 8 := ⟨i - 8, by omega⟩
      rw [pack_bits, bit_at_cons, bit_at_pack_bits n (bits.drop 8) j
        (fun b hb' => hb b (List.mem_of_mem_drop hb')) (by omega)]
      rw [List.getD_eq_getElem?_getD, List.getD_eq_getElem?_getD, List.getElem?_drop,
        Nat.add_comm]

theorem bits_of_le_one (s : Nat) : ∀ k, ∀ b ∈ bits_of s k, b ≤ 1 := by
  intro k
  induction k generalizing s with
  | zero => intro b hb; exact absurd hb (List.not_mem_nil b)
  | succ k ih =>
    intro b hb
    rw [bits_of, List.mem_append] at hb
    rcases hb with hb | hb
    · exact ih _ b hb
    · rw [List.mem_singleton] at hb
      rw [hb]
      omega

theorem ue_code_le_one (k s : Nat) : ∀ b ∈ ue_code k s, b ≤ 1 := by
  intro b hb
  rw [ue_code, List.mem_append, List.mem_cons] at hb
  rcases hb with hb | hb | hb
  · rw [List.eq_of_mem_replicate hb]
    exact Nat.zero_le _
  · rw [hb]
  · exact bits_of_le_one s k b hb

theorem bits_of_length (s : Nat) : ∀ k, (bits_of s k).length = k := by
  intro k
  induction k generalizing s with
  | zero => rfl
  | succ k ih => simp [bits_of, ih]

/-- Bits that spell `s` in `k` places are read back as `s`. -/
theorem bits_value_bits_of (data : List Nat) (p : Nat) : ∀ (k s : Nat), s < 2 ^ k →
    (∀ i, i < k → bit_at data (p + i) = (bits_of s k).getD i 0) → bits_value data p k = s := by
  intro k
  induction k with
  | zero =>
    intro s hs _
    simp only [pow_zero, Nat.lt_one_iff] at hs
    rw [hs]; rfl
  | succ k ih =>
    intro s hs hb
    have hlen := bits_of_length (s / 2) k
    have h1 : bits_value data p k = s / 2 := by
      apply ih (s / 2) (by rw [Nat.pow_succ] at hs; omega)
      intro i hi
      rw [hb i (by omega), bits_of, List.getD_append _ _ _ _ (by rw [hlen]; exact hi)]
    have h2 : bit_at data (p + k) = s % 2 := by
      rw [hb k (by omega), bits_of, List.getD_append_right _ _ _ _ (by rw [hlen])]
      rw [hlen, Nat.sub_self]
      rfl
    simp only [bits_value]
    rw [h1, h2]
    omega

theorem bit_read_one (r : ngx_rtmp_bit_reader_t) (h : r.pos + 1 ≤ 8 * r.data.length) :
    ngx_rtmp_bit_read 1 r = (bit_at r.data r.pos, { r with pos := r.pos + 1 }) := by
  rw [bit_read_in_range 1 r h]
  have hb := bit_at_le r.data r.pos
  have : bits_value r.data r.pos 1 = bit_at r.data r.pos := by
    simp [bits_value]
  rw [this, Nat.mod_eq_of_lt (by unfold NGX_UINT_MOD; omega)]

/-- The zero-counting loop on `k` zero bits followed by a 1 bit: it counts
`k` and leaves the reader behind the 1 bit. -/
theorem golomb_zeros_count : ∀ (k fuel n : Nat) (r : ngx_rtmp_bit_reader_t),
    r.err = false → r.pos + k + 1 ≤ 8 * r.data.length →
    (∀ i, i < k → bit_at r.data (r.pos + i) = 0) → bit_at r.data (r.pos + k) = 1 →
    k < fuel →
    golomb_zeros fuel n r = (n + k, { r with pos := r.pos + k + 1 })
  | _, 0, _, _, _, _, _, _, hf => absurd hf (Nat.not_lt_zero _)
  | 0, fuel + 1, n, r, _, hfit, _, h1, _ => by
    simp only [golomb_zeros, bitm_bind_apply, bitm_get_apply, bit_read_one r (by omega)]
    rw [Nat.add_zero] at h1
    rw [if_neg (by rw [h1]; simp)]
    rfl
  | k + 1, fuel + 1, n, r, herr, hfit, h0, h1, hf => by
    have hz : bit_at r.data r.pos = 0 := h0 0 (by omega)
    simp only [golomb_zeros, bitm_bind_apply, bitm_get_apply, bit_read_one r (by omega)]
    rw [if_pos ⟨hz, herr⟩]
    rw [golomb_zeros_count k fuel (n + 1) { r with pos := r.pos + 1 } herr
      (by show r.pos + 1 + k + 1 ≤ 8 * r.data.length; omega)
      (fun i hi => by
        show bit_at r.data (r.pos + 1 + i) = 0
        rw [Nat.add_assoc, Nat.add_comm 1 i]
        exact h0 (i + 1) (by omega))
      (by
        show bit_at r.data (r.pos + 1 + k) = 1
        rw [Nat.add_assoc, Nat.add_comm 1 k]
        exact h1)
      (by omega)]
    show (n + 1 + k, ({ r with pos := r.pos + 1 + k + 1 } : ngx_rtmp_bit_reader_t)) = _
    have e1 : n + 1 + k = n + (k + 1) := by omega
    have e2 : r.pos + 1 + k + 1 = r.pos + (k + 1) + 1 := by omega
    rw [e1, e2]

theorem ue_code_bits (k s : Nat) :
    (ue_code k s).length = 2 * k + 1 ∧
    (∀ i, i < k → (ue_code k s).getD i 0 = 0) ∧
    (ue_code k s).getD k 0 = 1 ∧
    (∀ i, i < k → (ue_code k s).getD (k + 1 + i) 0 = (bits_of s k).getD i 0) := by
  have hl : (List.replicate k 0).length = k := List.length_replicate _ _
  refine ⟨?_, ?_, ?_, ?_⟩
  · simp [ue_code, bits_of_length]; omega
  · intro i hi
    unfold ue_code
    rw [List.getD_append _ _ _ _ (by rw [hl]; exact hi), List.getD_eq_getElem?_getD,
      List.getElem?_replicate, if_pos hi]
    rfl
  · unfold ue_code
    rw [List.getD_append_right _ _ _ _ (by rw [hl]), hl, Nat.sub_self]
    rfl
  · intro i _
    unfold ue_code
    rw [List.getD_append_right _ _ _ _ (by rw [hl]; omega), hl,
      show k + 1 + i - k = i + 1 by omega]
    rfl

/-- Every number has a ue(v) code: with k the position of the highest 1 bit of
v + 1, the suffix is v + 1 - 2^k. -/
theorem ue_code_exists (v : Nat) : ∃ k s, s < 2 ^ k ∧ v = 2 ^ k - 1 + s := by
  have h1 := Nat.log2_self_le (show v + 1 ≠ 0 by omega)
  have h2 := @Nat.lt_log2_self (v + 1)
  refine ⟨Nat.log2 (v + 1), v + 1 - 2 ^ Nat.log2 (v + 1), ?_, ?_⟩
  · rw [Nat.pow_succ] at h2
    omega
  · have : 0 < 2 ^ Nat.log2 (v + 1) := Nat.two_pow_pos _
    omega

/-- The Exp-Golomb read on a reader whose next bits are the code with `k`
leading zeros and suffix `s`, when the value fits a 64-bit word. -/
theorem golomb_read_code (k s : Nat) (r : ngx_rtmp_bit_reader_t) (hs : s < 2 ^ k)
    (hk : k < 63) (herr : r.err = false) (hfit : r.pos + (2 * k + 1) ≤ 8 * r.data.length)
    (hbits : ∀ i, i < 2 * k + 1 → bit_at r.data (r.pos + i) = (ue_code k s).getD i 0) :
    ngx_rtmp_bit_read_golomb r = (2 ^ k - 1 + s, { r with pos := r.pos + (2 * k + 1) }) := by
  obtain ⟨_, c0, c1, c2⟩ := ue_code_bits k s
  have hz := golomb_zeros_count k (8 * r.data.length - r.pos + 1) 0 r herr (by omega)
    (fun i hi => by rw [hbits i (by omega), c0 i hi])
    (by rw [hbits k (by omega), c1]) (by omega)
  have hv : bits_value r.data (r.pos + k + 1) k = s :=
    bits_value_bits_of r.data (r.pos + k + 1) k s hs (fun i hi => by
      rw [show r.pos + k + 1 + i = r.pos + (k + 1 + i) by omega, hbits _ (by omega), c2 i hi])
  have hr : ngx_rtmp_bit_read k { r with pos := r.pos + k + 1 } =
      (s, { r with pos := r.pos + k + 1 + k }) := by
    rw [bit_read_in_range k _ (by show r.pos + k + 1 + k ≤ 8 * r.data.length; omega)]
    show (bits_value r.data (r.pos + k + 1) k % NGX_UINT_MOD, _) = _
    have h2 : 2 ^ k < 2 ^ 64 := Nat.pow_lt_pow_right (by decide) (by omega)
    rw [hv, Nat.mod_eq_of_lt (by unfold NGX_UINT_MOD; omega)]
  have hp : 0 < 2 ^ k := Nat.two_pow_pos k
  have h3 : 2 ^ k ≤ 2 ^ 62 := Nat.pow_le_pow_right (by decide) (by omega)
  unfold ngx_rtmp_bit_read_golomb
  simp only [bitm_bind_apply, bitm_get_apply, hz, hr, bitm_pure_apply, Nat.zero_add]
  rw [Nat.mod_eq_of_lt (by unfold NGX_UINT_MOD; omega)]
  have e1 : 2 ^ k + s - 1 = 2 ^ k - 1 + s := by omega
  have e2 : r.pos + k + 1 + k = r.pos + (2 * k + 1) := by omega
  rw [e1, e2]

/-- The Exp-Golomb read on the bytes that hold just the code with `k` leading
zeros and suffix `s`. -/
theorem golomb_read_packed (k s : Nat) (hs : s < 2 ^ k) (hk : k < 63) :
    ngx_rtmp_bit_read_golomb (ngx_rtmp_bit_init_reader (bits_to_bytes (ue_code k s))) =
      (2 ^ k - 1 + s, ⟨bits_to_bytes (ue_code k s), 2 * k + 1, false⟩) := by
  have hl := (ue_code_bits k s).1
  have hn : (bits_to_bytes (ue_code k s)).length = (2 * k + 1 + 7) / 8 := by
    rw [bits_to_bytes, pack_bits_length, hl]
  have h := golomb_read_code k s (ngx_rtmp_bit_init_reader (bits_to_bytes (ue_code k s))) hs hk
    rfl
    (by
      show 0 + (2 * k + 1) ≤ 8 * (bits_to_bytes (ue_code k s)).length
      rw [hn]; omega)
    (fun i hi => by
      show bit_at (bits_to_bytes (ue_code k s)) (0 + i) = _
      rw [Nat.zero_add, bits_to_bytes, hl]
      exact bit_at_pack_bits _ _ i (ue_code_le_one k s) (by omega))
  rw [h]
  show (_, (⟨bits_to_bytes (ue_code k s), 0 + (2 * k + 1), false⟩ : ngx_rtmp_bit_reader_t)) = _
  rw [Nat.zero_add]

/-- C18: for every v with 0 ≤ v ≤ 2^20 and its ue(v) code (k leading zero
bits, a 1 bit, then the k bits of the suffix s, with v = 2^k - 1 + s and
s < 2^k), ngx_rtmp_bit_read_golomb on a reader whose next 2k + 1 bits are that
code returns v and advances the bit cursor by exactly 2k + 1 bits, without the
end-of-data condition; so it does on the bytes that hold just the code, read
from bit 0; the code has 2k + 1 bits, and every v has one. -/
theorem C18_golomb_roundtrip (v k s : Nat) (r : ngx_rtmp_bit_reader_t)
    (hv : v ≤ 2 ^ 20) (hs : s < 2 ^ k) (hvk : v = 2 ^ k - 1 + s)
    (herr : r.err = false) (hfit : r.pos + (2 * k + 1) ≤ 8 * r.data.length)
    (hbits : ∀ i, i < 2 * k + 1 → bit_at r.data (r.pos + i) = (ue_code k s).getD i 0) :
    ngx_rtmp_bit_read_golomb r = (v, { r with pos := r.pos + (2 * k + 1) }) ∧
    (ngx_rtmp_bit_read_golomb r).2.pos = r.pos + (2 * k + 1) ∧
    (ngx_rtmp_bit_read_golomb r).2.err = false ∧
    ngx_rtmp_bit_read_golomb (ngx_rtmp_bit_init_reader (bits_to_bytes (ue_code k s))) =
      (v, ⟨bits_to_bytes (ue_code k s), 2 * k + 1, false⟩) ∧
    (ue_code k s).length = 2 * k + 1 ∧
    ∃ k0 s0, s0 < 2 ^ k0 ∧ v = 2 ^ k0 - 1 + s0 := by
  have hk : k < 63 := by
    by_contra hge
    have h1 : 2 ^ 63 ≤ 2 ^ k := Nat.pow_le_pow_right (by decide) (by omega)
    have h2 : (2 : Nat) ^ 20 < 2 ^ 63 := by decide
    omega
  have h := golomb_read_code k s r hs hk herr hfit hbits
  have hp := golomb_read_packed k s hs hk
  rw [← hvk] at h hp
  refine ⟨h, ?_, ?_, hp, (ue_code_bits k s).1, ue_code_exists v⟩
  · rw [h]
  · rw [h]; exact herr

theorem C18_golomb_roundtrip_witness :
    ue_code 3 3 = [0, 0, 0, 1, 0, 1, 1] ∧
    ngx_rtmp_bit_read_golomb ⟨[0xda, 0x0b, 0x17], 9, false⟩ = (10, ⟨[0xda, 0x0b, 0x17], 16, false⟩) :=
  ⟨by decide, (C18_golomb_roundtrip 10 3 3 ⟨[0xda, 0x0b, 0x17], 9, false⟩ (by decide) (by decide)
    (by decide) rfl (by decide) (by decide)).1⟩


/-! ## C19: the bytes the synthesizer writes -/

theorem be_value_append (xs ys : List Nat) :
    be_value (xs ++ ys) = be_value xs * 256 ^ ys.length + be_value ys := by
  induction xs with
  | nil => simp [be_value]
  | cons x xs ih =>
    show x * 256 ^ (xs ++ ys).length + be_value (xs ++ ys) = _
    rw [ih, List.length_append, Nat.pow_add]
    simp only [be_value]
    ring

theorem be_bytes_length : ∀ (n len : Nat), (be_bytes n len).length = n
  | 0, _ => rfl
  | n + 1, len => by simp [be_bytes, be_bytes_length n]

theorem be_value_be_bytes : ∀ (n len : Nat), len < 256 ^ n → be_value (be_bytes n len) = len
  | 0, len, h => by
    simp only [pow_zero, Nat.lt_one_iff] at h
    rw [h]; rfl
  | n + 1, len, h => by
    rw [be_bytes, be_value_append, be_value_be_bytes n (len / 256)
      (by rw [Nat.pow_succ] at h; omega)]
    simp only [List.length_singleton, pow_one, be_value, List.length_nil, pow_zero, mul_one,
      add_zero]
    omega

/-- A copy from what is left of a one-buffer chain: it fails on an exhausted
chain, also when no byte is asked for, and otherwise takes the bytes. -/
theorem hls_copy_flat (m : Nat) (l : List Nat) :
    ngx_rtmp_hls_copy m (hls_skip l []) =
      if l = [] then ⟨NGX_ERROR, [], none⟩
      else if m ≤ l.length then ⟨NGX_OK, l.take m, hls_skip (l.drop m) []⟩
      else ⟨NGX_ERROR, l, none⟩ := by
  cases l with
  | nil => rfl
  | cons x xs =>
    rw [if_neg (by simp)]
    rfl

theorem nal_units_body_nil (n : Nat) (hn : 1 ≤ n) (us : List (List Nat))
    (h : nal_units_body n us = []) : us = [] := by
  cases us with
  | nil => rfl
  | cons u us =>
    have hl := be_bytes_length n u.length
    have : (nal_units_body n (u :: us)).length = 0 := by rw [h]; rfl
    simp only [nal_units_body, List.length_append, hl] at this
    omega

theorem getLast_cons_of_ne_nil (u : List Nat) (us : List (List Nat)) (h : us ≠ []) :
    (u :: us).getLast? = us.getLast? := by
  cases us with
  | nil => exact absurd rfl h
  | cons v vs => rfl

/-- The loop of lines 375-454 on a body that is exactly a sequence of NAL
units: the output grows by what the claim lets each unit contribute, as long as
that fits the capacity and the payload does not end with a parameter set of a
single byte. -/
theorem avc_nal_loop_units (cap n : Nat) (hn1 : 1 ≤ n) (hn4 : n ≤ 4)
    (hcap : cap < NGX_UINT_MOD) :
    ∀ (units : List (List Nat)) (fuel : Nat) (out : List Nat) (hs : Nat),
    (∀ u ∈ units, u.length < 256 ^ n) →
    out.length + (synthesized_units units).length ≤ cap →
    (∀ u, units.getLast? = some u → is_parameter_set u → 2 ≤ u.length) →
    (nal_units_body n units).length < fuel →
    (avc_nal_loop cap n fuel (hls_skip (nal_units_body n units) []) out hs).out
      = out ++ synthesized_units units
  | [], fuel, out, hs, _, _, _, hf => by
    obtain ⟨f, rfl⟩ : ∃ f, fuel = f + 1 := ⟨fuel - 1, by omega⟩
    show (avc_nal_loop cap n (f + 1) none out hs).out = out ++ []
    rw [avc_nal_loop, List.append_nil]
  | u :: us, fuel, out, hs, hlen, hfit, hlast, hf => by
    obtain ⟨f, rfl⟩ : ∃ f, fuel = f + 1 := ⟨fuel - 1, by omega⟩
    have hL := hlen u (List.mem_cons_self _ _)
    have hpre := be_bytes_length n u.length
    have hval := be_value_be_bytes n u.length hL
    have h32 : u.length < UINT32_MOD := by
      have : 256 ^ n ≤ 256 ^ 4 := Nat.pow_le_pow_right (by decide) hn4
      have h4 : (256 : Nat) ^ 4 = UINT32_MOD := by decide
      omega
    have hbody : nal_units_body n (u :: us) =
        be_bytes n u.length ++ (u ++ nal_units_body n us) := by
      simp [nal_units_body]
    have hflen : (nal_units_body n us).length < f := by
      rw [hbody] at hf
      simp only [List.length_append, hpre] at hf
      omega
    have hne : be_bytes n u.length ++ (u ++ nal_units_body n us) ≠ [] := by
      intro h0
      have := congrArg List.length h0
      simp only [List.length_append, hpre, List.length_nil] at this
      omega
    have c1 : ngx_rtmp_hls_copy n (some (be_bytes n u.length ++ (u ++ nal_units_body n us), [])) =
        ⟨NGX_OK, be_bytes n u.length, hls_skip (u ++ nal_units_body n us) []⟩ := by
      have := hls_copy_take (be_bytes n u.length) (u ++ nal_units_body n us)
      rw [hpre] at this
      exact this
    have hlast' : ∀ w, us.getLast? = some w → is_parameter_set w → 2 ≤ w.length := by
      intro w hw
      by_cases hus : us = []
      · rw [hus] at hw
        exact absurd hw (by simp)
      · exact hlast w (by rw [getLast_cons_of_ne_nil u us hus]; exact hw)
    have ih := fun o s hfit' => avc_nal_loop_units cap n hn1 hn4 hcap us f o s
      (fun w hw => hlen w (List.mem_cons_of_mem _ hw)) hfit' hlast' hflen
    have hok : ¬ (NGX_OK ≠ NGX_OK) := fun hh => hh rfl
    have herr : NGX_ERROR ≠ NGX_OK := by decide
    rw [hbody, hls_skip_nil, if_neg hne, avc_nal_loop]
    simp only [c1, if_neg hok, hval, Nat.mod_eq_of_lt h32]
    cases u with
    | nil =>
      have hnp : ¬ is_parameter_set ([] : List Nat) := by decide
      rw [if_pos (show ([] : List Nat).length = 0 from rfl), List.nil_append]
      rw [ih out hs (by
        simp only [synthesized_units, if_neg hnp, List.nil_append] at hfit
        exact hfit)]
      simp only [List.nil_append, synthesized_units, if_neg hnp]
    | cons h t =>
      have hlt : (h :: t).length = t.length + 1 := rfl
      have c2 : ngx_rtmp_hls_copy 1 (hls_skip (h :: t ++ nal_units_body n us) []) =
          ⟨NGX_OK, [h], hls_skip (t ++ nal_units_body n us) []⟩ := by
        rw [hls_copy_flat, if_neg (by simp), if_pos (by simp)]
        rfl
      have c3 : ngx_rtmp_hls_copy (t.length + 1 - 1) (hls_skip (t ++ nal_units_body n us) []) =
          if t ++ nal_units_body n us = [] then ⟨NGX_ERROR, [], none⟩
          else ⟨NGX_OK, t, hls_skip (nal_units_body n us) []⟩ := by
        rw [hls_copy_flat, Nat.add_sub_cancel]
        split
        · rfl
        · rw [if_pos (by simp), List.take_left', List.drop_left']
          · rfl
          · rfl
      rw [hlt, if_neg (by omega)]
      simp only [c2, if_neg hok, List.getD_cons_zero, c3]
      by_cases hp : is_parameter_set (h :: t)
      · have hty : NGX_RTMP_NALU_SPS ≤ h &&& 0x1f ∧ h &&& 0x1f ≤ NGX_RTMP_NALU_PPS := by
          have h2 := hp.2
          simp only [List.getD_cons_zero] at h2
          unfold NGX_RTMP_NALU_SPS NGX_RTMP_NALU_PPS
          omega
        have hsl : (synthesized_units ((h :: t) :: us)).length =
            2 + (t.length + 1) + 1 + (synthesized_units us).length := by
          simp only [synthesized_units, if_pos hp, List.length_append, List.length_cons,
            List.length_nil]
        rw [hsl] at hfit
        have hleft : ¬ ((t.length + 1 + 3) % UINT32_MOD >
            (cap + NGX_UINT_MOD - out.length % NGX_UINT_MOD) % NGX_UINT_MOD) := by
          have hm := Nat.mod_le (t.length + 1 + 3) UINT32_MOD
          unfold NGX_UINT_MOD at *
          omega
        have hrest : ¬ (t ++ nal_units_body n us = []) := by
          intro h0
          have ht : t = [] := (List.append_eq_nil.mp h0).1
          have hus : us = [] := nal_units_body_nil n hn1 us (List.append_eq_nil.mp h0).2
          have := hlast (h :: t) (by rw [hus]; rfl) hp
          rw [ht] at this
          exact absurd this (by simp)
        rw [if_neg (not_not.mpr hty), if_neg hleft, if_neg hrest]
        simp only [if_neg hok]
        rw [ih _ 1 (by
          simp only [List.length_append, List.length_cons, List.length_nil]
          omega)]
        simp only [synthesized_units, if_pos hp, hlt, List.append_assoc, List.cons_append,
          List.nil_append]
      · have hty : ¬ (NGX_RTMP_NALU_SPS ≤ h &&& 0x1f ∧ h &&& 0x1f ≤ NGX_RTMP_NALU_PPS) := by
          intro hh
          apply hp
          refine ⟨by simp, ?_⟩
          simp only [List.getD_cons_zero]
          unfold NGX_RTMP_NALU_SPS NGX_RTMP_NALU_PPS at hh
          omega
        have hs0 : synthesized_units ((h :: t) :: us) = synthesized_units us := by
          simp only [synthesized_units, if_neg hp, List.nil_append]
        rw [hs0] at hfit ⊢
        rw [if_pos hty]
        by_cases hrest : t ++ nal_units_body n us = []
        · have hus : us = [] := nal_units_body_nil n hn1 us (List.append_eq_nil.mp hrest).2
          rw [if_pos hrest]
          simp only [if_pos herr, hus, synthesized_units, List.append_nil]
        · rw [if_neg hrest]
          simp only [if_neg hok]
          exact ih out hs hfit

/-- Lines 288-373 on a one-buffer key frame with packet type 1 and its three
composition-time bytes: the preamble is written and the loop starts on what
follows, which may be nothing. -/
theorem keyframe_preamble_any (cap : Nat) (ctx : ngx_rtmp_codec_ctx_t) (b0 c0 c1 c2 : Nat)
    (t : List Nat) (hv : ctx.video_codec_id = NGX_RTMP_VIDEO_H264)
    (hn : ctx.avc_nal_bytes ≠ 0) (hb0 : (b0 &&& 0xf0) >>> 4 = 1) :
    ngx_rtmp_codec_parse_avc_header_in_keyframe cap (some ctx)
        (chain_of (b0 :: 0x01 :: c0 :: c1 :: c2 :: t)) =
      avc_nal_loop cap ctx.avc_nal_bytes (t.length + 5) (hls_skip t [])
        (synthesized_preamble ctx) 0 := by
  have hg : ¬ (ctx.video_codec_id ≠ NGX_RTMP_VIDEO_H264 ∨ ctx.avc_nal_bytes = 0) := by
    rw [hv]; simp [hn]
  have hok : ¬ (NGX_OK ≠ NGX_OK) := fun hh => hh rfl
  have hidr : ¬ ((b0 &&& 0xf0) >>> 4 ≠ NGX_RTMP_FRAME_IDR) := by rw [hb0]; decide
  have h11 : ¬ ((1 : Nat) ≠ 1) := fun hh => hh rfl
  have p1 := hls_copy_cons b0 (0x01 :: c0 :: c1 :: c2 :: t) (by simp)
  have p2 := hls_copy_cons 0x01 (c0 :: c1 :: c2 :: t) (by simp)
  have p3 : ngx_rtmp_hls_copy 3 (some (c0 :: c1 :: c2 :: t, [])) =
      ⟨NGX_OK, [c0, c1, c2], hls_skip t []⟩ := hls_copy_take [c0, c1, c2] t
  have hlen : (chain_bytes (chain_of (b0 :: 0x01 :: c0 :: c1 :: c2 :: t))).length
      = t.length + 5 := by
    simp [chain_bytes, chain_of]
  unfold ngx_rtmp_codec_parse_avc_header_in_keyframe
  simp only [if_neg hg, chain_of_data, chain_of_next, p1, p2, p3, if_neg hok,
    List.getD_cons_zero, if_neg hidr, if_neg h11, hb0, hlen]
  rfl

/-- C19, as the code has it: for every context with video codec H.264 and
NAL length size n in {1..4}, and every key-frame payload (frame-type nibble 1,
packet type 1, 3 composition-time bytes), in a chain of any number of buffers,
whose body is exactly a sequence of NAL units each behind its n-byte
big-endian length L, with the total output within the capacity and the
payload not ending with an SPS/PPS unit of a single byte: the synthesizer's
output is the 11-byte preamble 17 00 00 00 00 01, avc_profile, avc_compat,
avc_level (each as one byte), ff, e1, followed, for each unit in input order
with L ≥ 1 and (first byte & 0x1f) in {7, 8}, by the bytes L >> 8 and L & 0xff
(each as one byte), the L bytes of the unit and one byte 0x01; zero-length
units and units of any other type contribute nothing. -/
theorem C19_synthesized_output_amended (cap : Nat) (ctx : ngx_rtmp_codec_ctx_t)
    (k : ngx_chain_t) (b0 c0 c1 c2 : Nat) (units : List (List Nat))
    (hv : ctx.video_codec_id = NGX_RTMP_VIDEO_H264)
    (hn1 : 1 ≤ ctx.avc_nal_bytes) (hn4 : ctx.avc_nal_bytes ≤ 4)
    (hb0 : (b0 &&& 0xf0) >>> 4 = 1)
    (hk : chain_bytes k =
      b0 :: 0x01 :: c0 :: c1 :: c2 :: nal_units_body ctx.avc_nal_bytes units)
    (hlen : ∀ u ∈ units, u.length < 256 ^ ctx.avc_nal_bytes)
    (hfit : 11 + (synthesized_units units).length ≤ cap) (hcap : cap < NGX_UINT_MOD)
    (hlast : ∀ u, units.getLast? = some u → is_parameter_set u → 2 ≤ u.length) :
    (ngx_rtmp_codec_parse_avc_header_in_keyframe cap (some ctx) k).out =
      synthesized_preamble ctx ++ synthesized_units units := by
  rw [keyframe_flat cap (some ctx) k, hk,
    keyframe_preamble_any cap ctx b0 c0 c1 c2 _ hv (by omega) hb0]
  exact avc_nal_loop_units cap ctx.avc_nal_bytes hn1 hn4 hcap units _ _ 0 hlen hfit hlast
    (by omega)

theorem C19_synthesized_output_witness :
    (ngx_rtmp_codec_parse_avc_header_in_keyframe 256 (some ctx_h264) idr_two_buffers).out =
      synthesized_preamble ctx_h264 ++ synthesized_units
        [[0x67, 0x42, 0x00, 0x1e, 0xda, 0x0b, 0x17, 0x90], [0x68, 0xce, 0x38, 0x80]] :=
  C19_synthesized_output_amended 256 ctx_h264 idr_two_buffers 0x17 0 0 0
    [[0x67, 0x42, 0x00, 0x1e, 0xda, 0x0b, 0x17, 0x90], [0x68, 0xce, 0x38, 0x80]]
    rfl (by decide) (by decide) (by decide) (by decide) (by decide) (by decide) (by decide)
    (by decide)

/-- C19, the claim as stated fails: on the key frame 17 01 00 00 00 whose body
is the one unit 00 00 00 01 67 (L = 1, type 7), well within the capacity, the
copy of the empty rest of the unit fails on the exhausted chain, and the output
is the preamble followed by 00 01 67, without the byte 0x01 that the claim
puts behind every copied unit. -/
theorem C19_single_byte_unit_counterexample :
    is_parameter_set [0x67] ∧
    11 + (synthesized_units [[0x67]]).length ≤ 256 ∧
    synthesized_preamble ctx_h264 ++ synthesized_units [[0x67]] =
      [0x17, 0, 0, 0, 0, 1, 0, 0, 0, 0xff, 0xe1, 0, 1, 0x67, 0x01] ∧
    (ngx_rtmp_codec_parse_avc_header_in_keyframe 256 (some ctx_h264)
      (chain_of (0x17 :: 0x01 :: 0 :: 0 :: 0 :: nal_units_body 4 [[0x67]]))).out =
      [0x17, 0, 0, 0, 0, 1, 0, 0, 0, 0xff, 0xe1, 0, 1, 0x67] ∧
    (ngx_rtmp_codec_parse_avc_header_in_keyframe 256 (some ctx_h264)
      (chain_of (0x17 :: 0x01 :: 0 :: 0 :: 0 :: nal_units_body 4 [[0x67]]))).out ≠
      synthesized_preamble ctx_h264 ++ synthesized_units [[0x67]] := by
  decide!


/-! ## C22, C28: the fields ngx_rtmp_codec_parse_avc_header takes from bytes 6 to 9 -/

/-- Lines 690-712 on a payload of at least 14 bytes that fails one of the two
checks in front of the SPS: the four fields of lines 694-699 are stored and
nothing else changes. -/
theorem avc_decode_stop (ctx : ngx_rtmp_codec_ctx_t) (data : List Nat)
    (h14 : 14 ≤ data.length)
    (hstop : data.getD 10 0 % 256 &&& 0x1f = 0 ∨ data.getD 13 0 % 256 ≠ 0x67) :
    (avc_decode ctx (ngx_rtmp_bit_init_reader data)).1 =
      { ctx with
          avc_profile := data.getD 6 0 % 256,
          avc_compat := data.getD 7 0 % 256,
          avc_level := data.getD 8 0 % 256,
          avc_nal_bytes := (data.getD 9 0 % 256 &&& 0x03) + 1 } := by
  have e0 : ngx_rtmp_bit_read 48 ⟨data, 0, false⟩ =
      (bits_value data 0 48 % NGX_UINT_MOD, ⟨data, 48, false⟩) :=
    bit_read_at data 0 48 false (by omega)
  have e1 : ngx_rtmp_bit_read_8 ⟨data, 48, false⟩ = (data.getD 6 0 % 256, ⟨data, 56, false⟩) :=
    bit_read_8_aligned data 6 false (by omega)
  have e2 : ngx_rtmp_bit_read_8 ⟨data, 56, false⟩ = (data.getD 7 0 % 256, ⟨data, 64, false⟩) :=
    bit_read_8_aligned data 7 false (by omega)
  have e3 : ngx_rtmp_bit_read_8 ⟨data, 64, false⟩ = (data.getD 8 0 % 256, ⟨data, 72, false⟩) :=
    bit_read_8_aligned data 8 false (by omega)
  have e4 : ngx_rtmp_bit_read_8 ⟨data, 72, false⟩ = (data.getD 9 0 % 256, ⟨data, 80, false⟩) :=
    bit_read_8_aligned data 9 false (by omega)
  have e5 : ngx_rtmp_bit_read_8 ⟨data, 80, false⟩ = (data.getD 10 0 % 256, ⟨data, 88, false⟩) :=
    bit_read_8_aligned data 10 false (by omega)
  have e6 : ngx_rtmp_bit_read 16 ⟨data, 88, false⟩ =
      (bits_value data 88 16 % NGX_UINT_MOD, ⟨data, 104, false⟩) :=
    bit_read_at data 88 16 false (by omega)
  have e7 : ngx_rtmp_bit_read_8 ⟨data, 104, false⟩ = (data.getD 13 0 % 256, ⟨data, 112, false⟩) :=
    bit_read_8_aligned data 13 false (by omega)
  unfold avc_decode
  simp only [bitm_bind_apply, ngx_rtmp_bit_init_reader, e0, e1, e2, e3, e4, e5]
  by_cases hn : data.getD 10 0 % 256 &&& 0x1f = 0
  · rw [if_pos hn]
    rfl
  · rw [if_neg hn]
    simp only [bitm_bind_apply, e6, e7]
    rcases hstop with h | h
    · exact absurd h hn
    · rw [if_pos h]
      rfl

/-- C22: for every AVC configuration payload of at least 14 bytes in which the
low 5 bits of byte 10 are zero, or in which byte 13 is not 0x67,
ngx_rtmp_codec_parse_avc_header stops in front of the SPS: avc_profile,
avc_compat and avc_level are bytes 6, 7 and 8, avc_nal_bytes is
(byte 9 & 0x03) + 1, and every other field, avc_ref_frames, width and height
among them, keeps its value. A byte b of the payload is read as b % 256, which
is b for a byte. -/
theorem C22_avc_stops_before_sps (ctx : ngx_rtmp_codec_ctx_t) (c : ngx_chain_t)
    (h14 : 14 ≤ c.buf.data.length)
    (hstop : c.buf.data.getD 10 0 % 256 &&& 0x1f = 0 ∨ c.buf.data.getD 13 0 % 256 ≠ 0x67) :
    ngx_rtmp_codec_parse_avc_header ctx c =
      { ctx with
          avc_profile := c.buf.data.getD 6 0 % 256,
          avc_compat := c.buf.data.getD 7 0 % 256,
          avc_level := c.buf.data.getD 8 0 % 256,
          avc_nal_bytes := (c.buf.data.getD 9 0 % 256 &&& 0x03) + 1 } ∧
    (ngx_rtmp_codec_parse_avc_header ctx c).avc_ref_frames = ctx.avc_ref_frames ∧
    (ngx_rtmp_codec_parse_avc_header ctx c).width = ctx.width ∧
    (ngx_rtmp_codec_parse_avc_header ctx c).height = ctx.height := by
  have h : ngx_rtmp_codec_parse_avc_header ctx c = _ := avc_decode_stop ctx c.buf.data h14 hstop
  refine ⟨h, ?_, ?_, ?_⟩ <;> rw [h]

theorem C22_avc_stops_before_sps_witness :
    ngx_rtmp_codec_parse_avc_header ctx_640x480
      (chain_of [0x17, 0, 0, 0, 0, 1, 0x64, 0x00, 0x1f, 0xfd, 0xe0, 0x00, 0x08, 0x67, 0x64]) =
      { ctx_640x480 with avc_profile := 100, avc_compat := 0, avc_level := 31,
                         avc_nal_bytes := 2 } ∧
    (ngx_rtmp_codec_parse_avc_header ctx_640x480
      (chain_of [0x17, 0, 0, 0, 0, 1, 0x64, 0x00, 0x1f, 0xfd, 0xe1, 0x00, 0x08, 0x68, 0x64])).width
      = 640 :=
  ⟨(C22_avc_stops_before_sps ctx_640x480
      (chain_of [0x17, 0, 0, 0, 0, 1, 0x64, 0x00, 0x1f, 0xfd, 0xe0, 0x00, 0x08, 0x67, 0x64])
      (by decide) (Or.inl (by decide))).1,
    (C22_avc_stops_before_sps ctx_640x480
      (chain_of [0x17, 0, 0, 0, 0, 1, 0x64, 0x00, 0x1f, 0xfd, 0xe1, 0x00, 0x08, 0x68, 0x64])
      (by decide) (Or.inr (by decide))).2.2.1⟩

/-- Lines 698-699 on a payload of at least 10 bytes: the length size stored is
(byte 9 & 0x03) + 1, whatever follows. -/
theorem parse_avc_nal_bytes_byte (ctx : ngx_rtmp_codec_ctx_t) (c : ngx_chain_t)
    (h : 10 ≤ c.buf.data.length) :
    (ngx_rtmp_codec_parse_avc_header ctx c).avc_nal_bytes =
      (c.buf.data.getD 9 0 % 256 &&& 0x03) + 1 := by
  have e0 : ngx_rtmp_bit_read 48 ⟨c.buf.data, 0, false⟩ =
      (bits_value c.buf.data 0 48 % NGX_UINT_MOD, ⟨c.buf.data, 48, false⟩) :=
    bit_read_at c.buf.data 0 48 false (by omega)
  have e1 : ngx_rtmp_bit_read_8 ⟨c.buf.data, 48, false⟩ =
      (c.buf.data.getD 6 0 % 256, ⟨c.buf.data, 56, false⟩) :=
    bit_read_8_aligned c.buf.data 6 false (by omega)
  have e2 : ngx_rtmp_bit_read_8 ⟨c.buf.data, 56, false⟩ =
      (c.buf.data.getD 7 0 % 256, ⟨c.buf.data, 64, false⟩) :=
    bit_read_8_aligned c.buf.data 7 false (by omega)
  have e3 : ngx_rtmp_bit_read_8 ⟨c.buf.data, 64, false⟩ =
      (c.buf.data.getD 8 0 % 256, ⟨c.buf.data, 72, false⟩) :=
    bit_read_8_aligned c.buf.data 8 false (by omega)
  have e4 : ngx_rtmp_bit_read_8 ⟨c.buf.data, 72, false⟩ =
      (c.buf.data.getD 9 0 % 256, ⟨c.buf.data, 80, false⟩) :=
    bit_read_8_aligned c.buf.data 9 false (by omega)
  unfold ngx_rtmp_codec_parse_avc_header avc_decode
  simp only [bitm_bind_apply, ngx_rtmp_bit_init_reader, e0, e1, e2, e3, e4]
  split
  · rfl
  · simp only [bitm_bind_apply]
    split <;> rfl

/-- C28: whenever ngx_rtmp_codec_parse_avc_header_in_keyframe returns NGX_OK on
a payload of packet type 1, byte 9 of the synthesized buffer is the constant
0xff, ngx_rtmp_codec_parse_avc_header_compat re-parses that buffer, and
avc_nal_bytes is 4 after it and after lines 548-580 of ngx_rtmp_codec_av on
the combined path, whatever length size the context held to walk the units of
the key frame. -/
theorem C28_combo_sets_length_size_4 (cap : Nat) (ctx : ngx_rtmp_codec_ctx_t) (c : ngx_chain_t)
    (h1 : (chain_bytes c).getD 1 0 = 1)
    (hrc : (ngx_rtmp_codec_parse_avc_header_in_keyframe cap (some ctx) c).rc = NGX_OK) :
    (ngx_rtmp_codec_parse_avc_header_in_keyframe cap (some ctx) c).out.getD 9 0 = 0xff ∧
    (ngx_rtmp_codec_parse_avc_header_compat cap ctx c).2 =
      sps_chain (ngx_rtmp_codec_parse_avc_header_in_keyframe cap (some ctx) c).out ∧
    (ngx_rtmp_codec_parse_avc_header_compat cap ctx c).1.avc_nal_bytes = 4 ∧
    (av_save_header cap ctx NGX_RTMP_MSG_VIDEO NGX_RTMP_CODEC_COMBO_SEQ_HEADER c).avc_nal_bytes
      = 4 := by
  obtain ⟨rest, hout⟩ := keyframe_ok_preamble cap ctx c hrc h1
  have hv : ctx.video_codec_id = NGX_RTMP_VIDEO_H264 := by
    by_contra hne
    have : (ngx_rtmp_codec_parse_avc_header_in_keyframe cap (some ctx) c).rc = NGX_ERROR := by
      unfold ngx_rtmp_codec_parse_avc_header_in_keyframe
      simp only [if_pos (Or.inl hne : ctx.video_codec_id ≠ NGX_RTMP_VIDEO_H264 ∨
        ctx.avc_nal_bytes = 0)]
    rw [this] at hrc
    exact absurd hrc (by decide)
  have hcompat : ngx_rtmp_codec_parse_avc_header_compat cap ctx c =
      (ngx_rtmp_codec_parse_avc_header ctx
          (sps_chain (ngx_rtmp_codec_parse_avc_header_in_keyframe cap (some ctx) c).out),
        sps_chain (ngx_rtmp_codec_parse_avc_header_in_keyframe cap (some ctx) c).out) := by
    unfold ngx_rtmp_codec_parse_avc_header_compat
    simp only [if_neg (not_not.mpr hrc)]
  have h9 : (ngx_rtmp_codec_parse_avc_header_in_keyframe cap (some ctx) c).out.getD 9 0
      = 0xff := by
    rw [hout]
    rfl
  have hlen : 10 ≤ (sps_chain
      (ngx_rtmp_codec_parse_avc_header_in_keyframe cap (some ctx) c).out).buf.data.length := by
    show 10 ≤ (ngx_rtmp_codec_parse_avc_header_in_keyframe cap (some ctx) c).out.length
    rw [hout]
    simp
  have hparse : (ngx_rtmp_codec_parse_avc_header ctx (sps_chain
      (ngx_rtmp_codec_parse_avc_header_in_keyframe cap (some ctx) c).out)).avc_nal_bytes = 4 := by
    rw [parse_avc_nal_bytes_byte ctx _ hlen]
    show ((ngx_rtmp_codec_parse_avc_header_in_keyframe cap (some ctx) c).out.getD 9 0 % 256
      &&& 0x03) + 1 = 4
    rw [h9]
    decide
  refine ⟨h9, by rw [hcompat], by rw [hcompat]; exact hparse, ?_⟩
  rw [av_save_header_combo_ok cap ctx c hv hrc]
  exact hparse

theorem C28_combo_sets_length_size_4_witness :
    (ngx_rtmp_codec_parse_avc_header_in_keyframe 256
      (some { ctx_h264 with avc_nal_bytes := 2 })
      (chain_of [0x17, 0x01, 0, 0, 0, 0, 2, 0x67, 0x42, 0, 2, 0x68, 0xce])).rc = NGX_OK ∧
    (ngx_rtmp_codec_parse_avc_header_compat 256 { ctx_h264 with avc_nal_bytes := 2 }
      (chain_of [0x17, 0x01, 0, 0, 0, 0, 2, 0x67, 0x42, 0, 2, 0x68, 0xce])).1.avc_nal_bytes = 4 :=
  ⟨by decide!, (C28_combo_sets_length_size_4 256 { ctx_h264 with avc_nal_bytes := 2 }
    (chain_of [0x17, 0x01, 0, 0, 0, 0, 2, 0x67, 0x42, 0, 2, 0x68, 0xce])
    (by decide) (by decide!)).2.2.1⟩

/-! ## C23: the HEVC profile field -/

/-- C23: for every payload and every prior context, the avc_profile that
ngx_rtmp_codec_parse_hevc_header stores is 0: the profile byte is masked with
0x1f and the result, which is below 32, is shifted right by 5. -/
theorem C23_hevc_profile_zero (ctx : ngx_rtmp_codec_ctx_t) (c : ngx_chain_t) :
    (ngx_rtmp_codec_parse_hevc_header ctx c).avc_profile = 0 ∧
    ∀ p : Nat, (p &&& 0x1f) >>> 5 = 0 := by
  have hz : ∀ p : Nat, (p &&& 0x1f) >>> 5 = 0 := by
    intro p
    have : p &&& 0x1f ≤ 0x1f := Nat.and_le_right
    rw [Nat.shiftRight_eq_div_pow]
    omega
  refine ⟨?_, hz⟩
  unfold ngx_rtmp_codec_parse_hevc_header hevc_decode
  simp only [bitm_bind_apply]
  exact hz _

/-! ## C30: the SBR and PS flags -/

/-- C30: for every prior context and every AAC sequence-header payload, with t
the (possibly escaped) first object type that ngx_rtmp_codec_parse_aac_header
reads: when t is neither 5 nor 29, aac_sbr and aac_ps keep their values; when
t is 5, aac_ps keeps its value; and whatever t is, each flag afterwards is
what it was or 1. -/
theorem C30_aac_flags_kept (ctx : ngx_rtmp_codec_ctx_t) (c : ngx_chain_t) :
    ((aac_read_object_type
          (ngx_rtmp_bit_read 16 (ngx_rtmp_bit_init_reader c.buf.data)).2).1 ≠ 5 ∧
      (aac_read_object_type
          (ngx_rtmp_bit_read 16 (ngx_rtmp_bit_init_reader c.buf.data)).2).1 ≠ 29 →
      (ngx_rtmp_codec_parse_aac_header ctx c).aac_sbr = ctx.aac_sbr ∧
      (ngx_rtmp_codec_parse_aac_header ctx c).aac_ps = ctx.aac_ps) ∧
    ((aac_read_object_type
          (ngx_rtmp_bit_read 16 (ngx_rtmp_bit_init_reader c.buf.data)).2).1 = 5 →
      (ngx_rtmp_codec_parse_aac_header ctx c).aac_ps = ctx.aac_ps) ∧
    ((ngx_rtmp_codec_parse_aac_header ctx c).aac_sbr = ctx.aac_sbr ∨
      (ngx_rtmp_codec_parse_aac_header ctx c).aac_sbr = 1) ∧
    ((ngx_rtmp_codec_parse_aac_header ctx c).aac_ps = ctx.aac_ps ∨
      (ngx_rtmp_codec_parse_aac_header ctx c).aac_ps = 1) := by
  unfold ngx_rtmp_codec_parse_aac_header aac_decode
  simp only [bitm_bind_apply]
  refine ⟨?_, ?_, ?_, ?_⟩
  · intro ht
    rw [if_neg (by
      intro hh
      rcases hh with hh | hh
      · exact ht.1 hh
      · exact ht.2 hh)]
    exact ⟨rfl, rfl⟩
  · intro ht
    rw [if_pos (Or.inl ht)]
    simp only [bitm_bind_apply, bitm_pure_apply]
    rw [if_neg (by rw [ht]; decide)]
  · split
    · exact Or.inr rfl
    · exact Or.inl rfl
  · split
    · simp only [bitm_bind_apply, bitm_pure_apply]
      split
      · exact Or.inr rfl
      · exact Or.inl rfl
    · exact Or.inl rfl

theorem C30_aac_flags_kept_witness :
    (ngx_rtmp_codec_parse_aac_header { ctx_zero with aac_sbr := 1, aac_ps := 1 }
      (chain_of [0xaf, 0x00, 0x12, 0x10])).aac_sbr = 1 ∧
    (ngx_rtmp_codec_parse_aac_header { ctx_zero with aac_sbr := 1, aac_ps := 1 }
      (chain_of [0xaf, 0x00, 0x12, 0x10])).aac_ps = 1 :=
  (C30_aac_flags_kept { ctx_zero with aac_sbr := 1, aac_ps := 1 }
    (chain_of [0xaf, 0x00, 0x12, 0x10])).1 (by decide!)


/-! ## C26: what ngx_rtmp_codec_av changes on short and raw payloads -/

/-- C26: for every prior context and every audio or video payload that is
shorter than 3 bytes or is classified as raw media, ngx_rtmp_codec_av leaves
the context as it was except for the fields of lines 512-525, taken from the
tag byte when there is one: audio_codec_id, audio_channels, sample_size and,
when it was 0, sample_rate for audio, video_codec_id for video; the cached
headers, the metadata buffer and every field the parsers write are unchanged.
For a message that is neither audio nor video nothing changes, with or
without a context. -/
theorem C26_raw_media_frame (cap : Nat) (ctx : ngx_rtmp_codec_ctx_t) (h_type : Nat)
    (c : ngx_chain_t) (s : Option ngx_rtmp_codec_ctx_t)
    (hraw : c.buf.data.length < 3 ∨
      ngx_rtmp_get_codec_header_type (some (av_save_codec ctx h_type (buf_at c.buf 0))) h_type c
        = NGX_RTMP_CODEC_NON_SEQ_HEADER) :
    (h_type = NGX_RTMP_MSG_AUDIO_TYPE →
      ngx_rtmp_codec_av cap (some ctx) h_type c =
        some (if c.buf.data.length < 1 then ctx else
          { ctx with
            audio_codec_id := (buf_at c.buf 0 &&& 0xf0) >>> 4,
            audio_channels := (buf_at c.buf 0 &&& 0x01) + 1,
            sample_size := if buf_at c.buf 0 &&& 0x02 ≠ 0 then 2 else 1,
            sample_rate := if ctx.sample_rate = 0 then
                sample_rates.getD ((buf_at c.buf 0 &&& 0x0c) >>> 2) 0
              else ctx.sample_rate })) ∧
    (h_type = NGX_RTMP_MSG_VIDEO →
      ngx_rtmp_codec_av cap (some ctx) h_type c =
        some (if c.buf.data.length < 1 then ctx else
          { ctx with video_codec_id := buf_at c.buf 0 &&& 0x0f })) ∧
    (h_type ≠ NGX_RTMP_MSG_AUDIO_TYPE ∧ h_type ≠ NGX_RTMP_MSG_VIDEO →
      ngx_rtmp_codec_av cap s h_type c = s) := by
  have hsave : (h_type = NGX_RTMP_MSG_AUDIO_TYPE ∨ h_type = NGX_RTMP_MSG_VIDEO) →
      ngx_rtmp_codec_av cap (some ctx) h_type c =
        some (if c.buf.data.length < 1 then ctx
          else av_save_codec ctx h_type (buf_at c.buf 0)) := by
    intro hh
    have h1 : ¬ (h_type ≠ NGX_RTMP_MSG_AUDIO_TYPE ∧ h_type ≠ NGX_RTMP_MSG_VIDEO) := by
      rcases hh with h | h <;> rw [h] <;> decide
    unfold ngx_rtmp_codec_av
    rw [if_neg h1]
    simp only [Option.getD_some]
    split
    · rfl
    · split
      · rfl
      · rename_i h3
        rcases hraw with h | h
        · exact absurd h h3
        · rw [if_pos h]
  refine ⟨?_, ?_, ?_⟩
  · intro ha
    rw [hsave (Or.inl ha), ha]
    congr 1
    split
    · rfl
    · unfold av_save_codec
      rw [if_pos rfl]
      dsimp only
      split <;> rfl
  · intro hv
    rw [hsave (Or.inr hv), hv]
    rfl
  · intro hn
    unfold ngx_rtmp_codec_av
    rw [if_pos hn]

theorem C26_raw_media_frame_witness :
    ngx_rtmp_codec_av 256 (some ctx_640x480) NGX_RTMP_MSG_VIDEO (chain_of [0x27, 0x01]) =
      some (if (chain_of [0x27, 0x01]).buf.data.length < 1 then ctx_640x480 else
        { ctx_640x480 with video_codec_id := buf_at (chain_of [0x27, 0x01]).buf 0 &&& 0x0f }) :=
  (C26_raw_media_frame 256 ctx_640x480 NGX_RTMP_MSG_VIDEO (chain_of [0x27, 0x01]) none
    (Or.inl (by decide))).2.1 rfl

/-! ## C27: the byte the classifier reads -/

/-- C27, the off-by-one of line 236 seen from ngx_rtmp_codec_video_is_combined_nals:
on a key-frame payload of exactly 5 + avc_nal_bytes = 9 bytes the guard
`pos + 5 + avc_nal_bytes <= last` holds, offset 9 is not below the payload
length (an Option lookup there gives none), and the result follows the byte
stored at `last`: NGX_OK with 0x67 there, NGX_ERROR with 0x00 there. -/
theorem C27_guard_admits_byte_at_last :
    5 + ctx_h264.avc_nal_bytes ≤ [0x17, 0x01, 0, 0, 0, 0, 0, 0, 2].length ∧
    ¬ (5 + ctx_h264.avc_nal_bytes < [0x17, 0x01, 0, 0, 0, 0, 0, 0, 2].length) ∧
    [0x17, 0x01, 0, 0, 0, 0, 0, 0, 2][5 + ctx_h264.avc_nal_bytes]? = none ∧
    ngx_rtmp_codec_video_is_combined_nals
      { buf := { data := [0x17, 0x01, 0, 0, 0, 0, 0, 0, 2], spare := [0x67] }, next := [] }
      (some ctx_h264) = NGX_OK ∧
    ngx_rtmp_codec_video_is_combined_nals
      { buf := { data := [0x17, 0x01, 0, 0, 0, 0, 0, 0, 2], spare := [0x00] }, next := [] }
      (some ctx_h264) = NGX_ERROR := by
  decide


/-! ## C21: the nested fields of an SBR or PS configuration -/

/-- Lines 641-644 at bit `q` of a payload that holds the object type. -/
theorem aac_object_type_pos (data : List Nat) (q : Nat)
    (h : (if bits_value data q 5 = 31 then q + 11 else q + 5) ≤ 8 * data.length) :
    aac_read_object_type ⟨data, q, false⟩ =
      (if bits_value data q 5 = 31 then bits_value data (q + 5) 6 + 32 else bits_value data q 5,
        ⟨data, if bits_value data q 5 = 31 then q + 11 else q + 5, false⟩) := by
  unfold aac_read_object_type
  by_cases h31 : bits_value data q 5 = 31
  · rw [if_pos h31] at h
    simp only [bitm_bind_apply, bit_read_value data q 5 false (by omega) (by decide), if_pos h31,
      bit_read_value data (q + 5) 6 false (by omega) (by decide), bitm_pure_apply]
    have := bits_value_lt data (q + 5) 6
    rw [Nat.mod_eq_of_lt (by unfold NGX_UINT_MOD; omega)]
  · rw [if_neg h31] at h
    simp only [bitm_bind_apply, bit_read_value data q 5 false (by omega) (by decide), if_neg h31,
      bitm_pure_apply]

theorem aac_config_end_le (data : List Nat) :
    (aac_config_of data).bits_end + 9 ≤ (aac_nested_of data).bits_end := by
  unfold aac_nested_of
  dsimp only
  split <;> split <;> omega

/-- The reads of lines 634-644 on a payload that holds the nested fields. -/
theorem aac_nested_reads (data : List Nat)
    (h : (aac_nested_of data).bits_end ≤ 8 * data.length) :
    ∃ q, aac_read_sample_rate ⟨data, (aac_config_of data).bits_end, false⟩ =
        ((aac_nested_of data).sample_rate, ⟨data, q, false⟩) ∧
      (aac_read_object_type ⟨data, q, false⟩).1 = (aac_nested_of data).object_type := by
  unfold aac_nested_of at h ⊢
  dsimp only at h ⊢
  by_cases h15 : bits_value data (aac_config_of data).bits_end 4 = 15
  · simp only [if_pos h15] at h ⊢
    have hq : (aac_config_of data).bits_end + 28 + 5 ≤ 8 * data.length := by
      split at h <;> omega
    refine ⟨(aac_config_of data).bits_end + 28, ?_, ?_⟩
    · rw [aac_sample_rate_at data _ (by rw [if_pos h15]; omega)]
      simp only [if_pos h15]
    · rw [aac_object_type_pos data _ h]
  · simp only [if_neg h15] at h ⊢
    have hq : (aac_config_of data).bits_end + 4 + 5 ≤ 8 * data.length := by
      split at h <;> omega
    refine ⟨(aac_config_of data).bits_end + 4, ?_, ?_⟩
    · rw [aac_sample_rate_at data _ (by rw [if_neg h15]; omega)]
      simp only [if_neg h15]
    · rw [aac_object_type_pos data _ h]

/-- C21: for every AAC sequence-header payload long enough to hold the fields
read whose (possibly escaped) first object type t is 5 or 29,
ngx_rtmp_codec_parse_aac_header sets aac_sbr = 1, sets aac_ps = 1 when t is 29
and leaves it when t is 5, stores as sample_rate the value decoded from the
second frequency index and as aac_profile the second (possibly escaped) object
type, as the spec words them (`aac_nested_of`); aac_chan_conf is the channel
configuration read before them. -/
theorem C21_aac_nested_decode (ctx : ngx_rtmp_codec_ctx_t) (c : ngx_chain_t)
    (h : (aac_nested_of c.buf.data).bits_end ≤ 8 * c.buf.data.length)
    (ht : (aac_config_of c.buf.data).object_type = 5 ∨
      (aac_config_of c.buf.data).object_type = 29) :
    (ngx_rtmp_codec_parse_aac_header ctx c).aac_sbr = 1 ∧
    (ngx_rtmp_codec_parse_aac_header ctx c).aac_ps =
      (if (aac_config_of c.buf.data).object_type = 29 then 1 else ctx.aac_ps) ∧
    (ngx_rtmp_codec_parse_aac_header ctx c).sample_rate
      = (aac_nested_of c.buf.data).sample_rate ∧
    (ngx_rtmp_codec_parse_aac_header ctx c).aac_profile
      = (aac_nested_of c.buf.data).object_type ∧
    (ngx_rtmp_codec_parse_aac_header ctx c).aac_chan_conf
      = (aac_config_of c.buf.data).chan_conf := by
  have hend := aac_config_end_le c.buf.data
  obtain ⟨e16, eo, es, ec⟩ := aac_config_reads c.buf.data (by omega)
  obtain ⟨q, es2, eo2⟩ := aac_nested_reads c.buf.data h
  unfold ngx_rtmp_codec_parse_aac_header aac_decode
  simp only [bitm_bind_apply, ngx_rtmp_bit_init_reader, e16, eo, es, ec]
  rw [if_pos ht]
  simp only [bitm_bind_apply, bitm_pure_apply, es2, eo2]
  exact ⟨trivial, trivial, trivial, trivial, trivial⟩

theorem C21_aac_nested_decode_witness :
    aac_config_of [0xaf, 0x00, 0x2b, 0x92, 0x08, 0x00] = ⟨5, 22050, 2, 29⟩ ∧
    aac_nested_of [0xaf, 0x00, 0x2b, 0x92, 0x08, 0x00] = ⟨44100, 2, 38⟩ ∧
    (ngx_rtmp_codec_parse_aac_header ctx_zero
      (chain_of [0xaf, 0x00, 0x2b, 0x92, 0x08, 0x00])).aac_sbr = 1 ∧
    (ngx_rtmp_codec_parse_aac_header ctx_zero
      (chain_of [0xaf, 0x00, 0x2b, 0x92, 0x08, 0x00])).aac_ps = 0 ∧
    (ngx_rtmp_codec_parse_aac_header ctx_zero
      (chain_of [0xaf, 0x00, 0x2b, 0x92, 0x08, 0x00])).sample_rate = 44100 ∧
    (ngx_rtmp_codec_parse_aac_header ctx_zero
      (chain_of [0xaf, 0x00, 0x2b, 0x92, 0x08, 0x00])).aac_profile = 2 :=
  ⟨by decide, by decide,
    (C21_aac_nested_decode ctx_zero (chain_of [0xaf, 0x00, 0x2b, 0x92, 0x08, 0x00])
      (by decide) (Or.inl (by decide))).1,
    (C21_aac_nested_decode ctx_zero (chain_of [0xaf, 0x00, 0x2b, 0x92, 0x08, 0x00])
      (by decide) (Or.inl (by decide))).2.1,
    (C21_aac_nested_decode ctx_zero (chain_of [0xaf, 0x00, 0x2b, 0x92, 0x08, 0x00])
      (by decide) (Or.inl (by decide))).2.2.1,
    (C21_aac_nested_decode ctx_zero (chain_of [0xaf, 0x00, 0x2b, 0x92, 0x08, 0x00])
      (by decide) (Or.inl (by decide))).2.2.2.1⟩


/-! ## C24, C25: the fields ngx_rtmp_codec_parse_hevc_header stores -/

theorem reads_state_in_range : ∀ (ws : List Nat) (r : ngx_rtmp_bit_reader_t),
    r.pos + ws.sum ≤ 8 * r.data.length →
    reads_state ws r = { r with pos := r.pos + ws.sum }
  | [], r, _ => by simp [reads_state]
  | w :: ws, r, h => by
    rw [List.sum_cons] at h
    rw [reads_state, bit_read_in_range w r (by omega),
      reads_state_in_range ws _ (by show r.pos + w + ws.sum ≤ 8 * r.data.length; omega),
      List.sum_cons]
    show ({ r with pos := r.pos + w + ws.sum } : ngx_rtmp_bit_reader_t) = _
    rw [Nat.add_assoc]

/-- The value of a read of `w` bits that follows reads of the widths `ws` from
the start of the data: the bits at the position the widths add up to when
they all lie inside the data, and 0 when the data ends before. -/
theorem read_after (data : List Nat) (ws : List Nat) (w : Nat) (hw : 0 < w)
    (hws : ∀ n ∈ ws, 0 < n) :
    (ngx_rtmp_bit_read w (reads_state ws (ngx_rtmp_bit_init_reader data))).1 =
      if ws.sum + w ≤ 8 * data.length then bits_value data ws.sum w % NGX_UINT_MOD else 0 := by
  by_cases h : ws.sum + w ≤ 8 * data.length
  · rw [if_pos h, reads_state_in_range ws _ (by
      show 0 + ws.sum ≤ 8 * data.length
      omega)]
    rw [bit_read_in_range w _ (by
      show 0 + ws.sum + w ≤ 8 * data.length
      omega)]
    show bits_value data (0 + ws.sum) w % NGX_UINT_MOD = _
    rw [Nat.zero_add]
  · rw [if_neg h]
    apply bit_read_past_end_val
    have hp := reads_state_pos ws (ngx_rtmp_bit_init_reader data) 0 hws (Or.inl rfl)
    rw [reads_state_data]
    have hd : (ngx_rtmp_bit_init_reader data).data = data := rfl
    rw [hd] at hp ⊢
    omega

theorem bits_value_add (data : List Nat) (p n : Nat) : ∀ m,
    bits_value data p (n + m) = bits_value data p n * 2 ^ m + bits_value data (p + n) m
  | 0 => by simp [bits_value]
  | m + 1 => by
    rw [← Nat.add_assoc]
    simp only [bits_value]
    rw [bits_value_add data p n m, Nat.pow_succ, Nat.add_assoc]
    ring

theorem bits_value_16 (data : List Nat) (k : Nat) :
    bits_value data (8 * k) 16 = data.getD k 0 % 256 * 256 + data.getD (k + 1) 0 % 256 := by
  rw [show (16 : Nat) = 8 + 8 from rfl, bits_value_add, bits_value_byte,
    show 8 * k + 8 = 8 * (k + 1) by omega, bits_value_byte]
  norm_num

theorem bits_value_32 (data : List Nat) (k : Nat) :
    bits_value data (8 * k) 32 =
      ((data.getD k 0 % 256 * 256 + data.getD (k + 1) 0 % 256) * 256
        + data.getD (k + 2) 0 % 256) * 256 + data.getD (k + 3) 0 % 256 := by
  rw [show (32 : Nat) = 8 + 8 + 8 + 8 from rfl, bits_value_add, bits_value_add, bits_value_add,
    bits_value_byte, show 8 * k + 8 = 8 * (k + 1) by omega, bits_value_byte,
    show 8 * k + (8 + 8) = 8 * (k + 2) by omega, bits_value_byte,
    show 8 * k + (8 + 8 + 8) = 8 * (k + 3) by omega, bits_value_byte]
  norm_num

/-- The two bits at the top of a byte and the two at its bottom. -/
theorem bits_value_top_bottom (data : List Nat) (k : Nat) :
    bits_value data (8 * k) 2 = (data.getD k 0 % 256) >>> 6 ∧
    bits_value data (8 * k + 6) 2 = data.getD k 0 % 256 &&& 0x03 := by
  have e1 : (8 * k + 0) / 8 = k := by omega
  have e2 : (8 * k + 1) / 8 = k := by omega
  have e3 : (8 * k + 6 + 0) / 8 = k := by omega
  have e4 : (8 * k + 6 + 1) / 8 = k := by omega
  have m1 : (8 * k + 0) % 8 = 0 := by omega
  have m2 : (8 * k + 1) % 8 = 1 := by omega
  have m3 : (8 * k + 6 + 0) % 8 = 6 := by omega
  have m4 : (8 * k + 6 + 1) % 8 = 7 := by omega
  have h3 : data.getD k 0 % 256 &&& 0x03 = data.getD k 0 % 256 % 4 :=
    Nat.and_pow_two_sub_one_eq_mod _ 2
  constructor
  · simp only [bits_value, bit_at, e1, e2, m1, m2, Nat.shiftRight_eq_div_pow]
    norm_num
    omega
  · rw [h3]
    simp only [bits_value, bit_at, e3, e4, m3, m4]
    norm_num
    omega


theorem bit_read_16_val (r : ngx_rtmp_bit_reader_t) :
    (ngx_rtmp_bit_read_16 r).1 = (ngx_rtmp_bit_read 16 r).1 % 65536 := rfl

theorem bit_read_16_state (r : ngx_rtmp_bit_reader_t) :
    (ngx_rtmp_bit_read_16 r).2 = (ngx_rtmp_bit_read 16 r).2 := rfl

theorem bit_read_32_val (r : ngx_rtmp_bit_reader_t) :
    (ngx_rtmp_bit_read_32 r).1 = (ngx_rtmp_bit_read 32 r).1 % 4294967296 := rfl

theorem bit_read_32_state (r : ngx_rtmp_bit_reader_t) :
    (ngx_rtmp_bit_read_32 r).2 = (ngx_rtmp_bit_read 32 r).2 := rfl

/-- Lines 871-914 for a payload of any length: each field is the value of its
read, which is the bits at the field's place when the payload reaches that far
and 0 when it ends before; no other field changes. -/
theorem hevc_decode_fields (ctx : ngx_rtmp_codec_ctx_t) (c : ngx_chain_t) :
    ngx_rtmp_codec_parse_hevc_header ctx c =
      { ctx with
        avc_profile :=
          (((if 56 ≤ 8 * c.buf.data.length then bits_value c.buf.data 48 8 % NGX_UINT_MOD
            else 0) % 256) &&& 0x1f) >>> 5,
        avc_compat :=
          (if 88 ≤ 8 * c.buf.data.length then bits_value c.buf.data 56 32 % NGX_UINT_MOD
            else 0) % 4294967296,
        avc_level :=
          (if 144 ≤ 8 * c.buf.data.length then bits_value c.buf.data 136 8 % NGX_UINT_MOD
            else 0) % 256,
        frame_rate :=
          (if 208 ≤ 8 * c.buf.data.length then bits_value c.buf.data 192 16 % NGX_UINT_MOD
            else 0) % 65536,
        avc_ref_frames :=
          if 210 ≤ 8 * c.buf.data.length then bits_value c.buf.data 208 2 % NGX_UINT_MOD
            else 0,
        avc_nal_bytes :=
          ((if 216 ≤ 8 * c.buf.data.length then bits_value c.buf.data 214 2 % NGX_UINT_MOD
            else 0) + 1) % NGX_UINT_MOD } := by
  have hp := read_after c.buf.data [48] 8 (by decide) (by decide)
  have hc := read_after c.buf.data [48, 8] 32 (by decide) (by decide)
  have hl := read_after c.buf.data [48, 8, 32, 48] 8 (by decide) (by decide)
  have hf := read_after c.buf.data [48, 8, 32, 48, 8, 48] 16 (by decide) (by decide)
  have hr := read_after c.buf.data [48, 8, 32, 48, 8, 48, 16] 2 (by decide) (by decide)
  have hn := read_after c.buf.data [48, 8, 32, 48, 8, 48, 16, 2, 4] 2 (by decide) (by decide)
  simp only [reads_state, List.sum_cons, List.sum_nil, Nat.add_zero, Nat.reduceAdd]
    at hp hc hl hf hr hn
  unfold ngx_rtmp_codec_parse_hevc_header hevc_decode
  simp only [bitm_bind_apply, bitm_pure_apply, bit_read_8_val, bit_read_8_state,
    bit_read_16_val, bit_read_16_state, bit_read_32_val, bit_read_32_state,
    hp, hc, hl, hf, hr, hn]


theorem hevc_field_values (data : List Nat) :
    bits_value data 56 32 % NGX_UINT_MOD % 4294967296 =
      ((data.getD 7 0 % 256 * 256 + data.getD 8 0 % 256) * 256 + data.getD 9 0 % 256) * 256
        + data.getD 10 0 % 256 ∧
    bits_value data 136 8 % NGX_UINT_MOD % 256 = data.getD 17 0 % 256 ∧
    bits_value data 192 16 % NGX_UINT_MOD % 65536 =
      data.getD 24 0 % 256 * 256 + data.getD 25 0 % 256 ∧
    bits_value data 208 2 % NGX_UINT_MOD = (data.getD 26 0 % 256) >>> 6 ∧
    (bits_value data 214 2 % NGX_UINT_MOD + 1) % NGX_UINT_MOD
      = (data.getD 26 0 % 256 &&& 0x03) + 1 := by
  have h32 := bits_value_lt data 56 32
  have h8 := bits_value_lt data 136 8
  have h16 := bits_value_lt data 192 16
  have h2 := bits_value_lt data 208 2
  have h2' := bits_value_lt data 214 2
  have e32 := bits_value_32 data 7
  have e8 := bits_value_byte data 17
  have e16 := bits_value_16 data 24
  have e2 := bits_value_top_bottom data 26
  simp only [Nat.reduceMul, Nat.reduceAdd] at e32 e8 e16 e2
  unfold NGX_UINT_MOD
  refine ⟨?_, ?_, ?_, ?_, ?_⟩
  · rw [← e32]; omega
  · rw [← e8]; omega
  · rw [← e16]; omega
  · rw [← e2.1]; omega
  · rw [← e2.2]; omega

/-- C24: for every HEVC configuration payload of at least 27 bytes,
ngx_rtmp_codec_parse_hevc_header stores avc_compat = the big-endian 32-bit
value of bytes 7..10, avc_level = byte 17, frame_rate = the big-endian 16-bit
value of bytes 24..25, avc_ref_frames = byte 26 >> 6 and avc_nal_bytes =
(byte 26 & 0x03) + 1; avc_profile becomes 0 and every other field, width and
height among them, is left as it was. A byte b of the payload is read as
b % 256, which is b for a byte. -/
theorem C24_hevc_fields (ctx : ngx_rtmp_codec_ctx_t) (c : ngx_chain_t)
    (h27 : 27 ≤ c.buf.data.length) :
    ngx_rtmp_codec_parse_hevc_header ctx c =
      { ctx with
        avc_profile := 0,
        avc_compat :=
          ((c.buf.data.getD 7 0 % 256 * 256 + c.buf.data.getD 8 0 % 256) * 256
            + c.buf.data.getD 9 0 % 256) * 256 + c.buf.data.getD 10 0 % 256,
        avc_level := c.buf.data.getD 17 0 % 256,
        frame_rate := c.buf.data.getD 24 0 % 256 * 256 + c.buf.data.getD 25 0 % 256,
        avc_ref_frames := (c.buf.data.getD 26 0 % 256) >>> 6,
        avc_nal_bytes := (c.buf.data.getD 26 0 % 256 &&& 0x03) + 1 } ∧
    (ngx_rtmp_codec_parse_hevc_header ctx c).width = ctx.width ∧
    (ngx_rtmp_codec_parse_hevc_header ctx c).height = ctx.height := by
  obtain ⟨v1, v2, v3, v4, v5⟩ := hevc_field_values c.buf.data
  have hz : ∀ p : Nat, (p &&& 0x1f) >>> 5 = 0 := by
    intro p
    have : p &&& 0x1f ≤ 0x1f := Nat.and_le_right
    rw [Nat.shiftRight_eq_div_pow]
    omega
  have h : ngx_rtmp_codec_parse_hevc_header ctx c = _ := hevc_decode_fields ctx c
  rw [if_pos (by omega), if_pos (by omega), if_pos (by omega), if_pos (by omega),
    if_pos (by omega), if_pos (by omega), hz, v1, v2, v3, v4, v5] at h
  refine ⟨h, ?_, ?_⟩ <;> rw [h]

theorem C24_hevc_fields_witness :
    (ngx_rtmp_codec_parse_hevc_header ctx_640x480
      (chain_of [0x1c, 0, 0, 0, 0, 1, 0x01, 0x60, 0x00, 0x00, 0x01, 0, 0, 0, 0, 0, 0, 0x5d,
        0xf0, 0x00, 0xfc, 0xfd, 0xf8, 0xf8, 0x00, 0x19, 0x4f])).avc_level = 0x5d ∧
    (ngx_rtmp_codec_parse_hevc_header ctx_640x480
      (chain_of [0x1c, 0, 0, 0, 0, 1, 0x01, 0x60, 0x00, 0x00, 0x01, 0, 0, 0, 0, 0, 0, 0x5d,
        0xf0, 0x00, 0xfc, 0xfd, 0xf8, 0xf8, 0x00, 0x19, 0x4f])).width = 640 :=
  ⟨by
    rw [(C24_hevc_fields ctx_640x480
      (chain_of [0x1c, 0, 0, 0, 0, 1, 0x01, 0x60, 0x00, 0x00, 0x01, 0, 0, 0, 0, 0, 0, 0x5d,
        0xf0, 0x00, 0xfc, 0xfd, 0xf8, 0xf8, 0x00, 0x19, 0x4f]) (by decide)).1]
    rfl,
   (C24_hevc_fields ctx_640x480
      (chain_of [0x1c, 0, 0, 0, 0, 1, 0x01, 0x60, 0x00, 0x00, 0x01, 0, 0, 0, 0, 0, 0, 0x5d,
        0xf0, 0x00, 0xfc, 0xfd, 0xf8, 0xf8, 0x00, 0x19, 0x4f]) (by decide)).2.1⟩

/-- C25, as the code has it: for every prior context and every HEVC
configuration payload of k < 27 bytes, ngx_rtmp_codec_parse_hevc_header assigns
each of avc_compat, avc_level, frame_rate, avc_ref_frames and avc_nal_bytes: a
field whose bytes lie within the first k bytes gets its decoded value
(avc_compat when k ≥ 11, avc_level when k ≥ 18, frame_rate when k = 26), and a
field at or beyond the end of the payload gets the value of a read that
returns 0: avc_compat = 0, avc_level = 0, frame_rate = 0, avc_ref_frames = 0
and avc_nal_bytes = 1. No other field changes but avc_profile, which is 0. -/
theorem C25_hevc_truncated_amended (ctx : ngx_rtmp_codec_ctx_t) (c : ngx_chain_t)
    (hk : c.buf.data.length < 27) :
    ngx_rtmp_codec_parse_hevc_header ctx c =
      { ctx with
        avc_profile := 0,
        avc_compat :=
          if 11 ≤ c.buf.data.length then
            ((c.buf.data.getD 7 0 % 256 * 256 + c.buf.data.getD 8 0 % 256) * 256
              + c.buf.data.getD 9 0 % 256) * 256 + c.buf.data.getD 10 0 % 256
          else 0,
        avc_level := if 18 ≤ c.buf.data.length then c.buf.data.getD 17 0 % 256 else 0,
        frame_rate :=
          if 26 ≤ c.buf.data.length then
            c.buf.data.getD 24 0 % 256 * 256 + c.buf.data.getD 25 0 % 256
          else 0,
        avc_ref_frames := 0,
        avc_nal_bytes := 1 } := by
  obtain ⟨v1, v2, v3, _, _⟩ := hevc_field_values c.buf.data
  have hz : ∀ p : Nat, (p &&& 0x1f) >>> 5 = 0 := by
    intro p
    have : p &&& 0x1f ≤ 0x1f := Nat.and_le_right
    rw [Nat.shiftRight_eq_div_pow]
    omega
  have c1 : (if 88 ≤ 8 * c.buf.data.length then bits_value c.buf.data 56 32 % NGX_UINT_MOD
      else 0) % 4294967296 =
      if 11 ≤ c.buf.data.length then
        ((c.buf.data.getD 7 0 % 256 * 256 + c.buf.data.getD 8 0 % 256) * 256
          + c.buf.data.getD 9 0 % 256) * 256 + c.buf.data.getD 10 0 % 256
      else 0 := by
    by_cases h : 11 ≤ c.buf.data.length
    · rw [if_pos (show 88 ≤ 8 * c.buf.data.length by omega), if_pos h, v1]
    · rw [if_neg (show ¬ 88 ≤ 8 * c.buf.data.length by omega), if_neg h]
  have c2 : (if 144 ≤ 8 * c.buf.data.length then bits_value c.buf.data 136 8 % NGX_UINT_MOD
      else 0) % 256 = if 18 ≤ c.buf.data.length then c.buf.data.getD 17 0 % 256 else 0 := by
    by_cases h : 18 ≤ c.buf.data.length
    · rw [if_pos (show 144 ≤ 8 * c.buf.data.length by omega), if_pos h, v2]
    · rw [if_neg (show ¬ 144 ≤ 8 * c.buf.data.length by omega), if_neg h]
  have c3 : (if 208 ≤ 8 * c.buf.data.length then bits_value c.buf.data 192 16 % NGX_UINT_MOD
      else 0) % 65536 =
      if 26 ≤ c.buf.data.length then
        c.buf.data.getD 24 0 % 256 * 256 + c.buf.data.getD 25 0 % 256
      else 0 := by
    by_cases h : 26 ≤ c.buf.data.length
    · rw [if_pos (show 208 ≤ 8 * c.buf.data.length by omega), if_pos h, v3]
    · rw [if_neg (show ¬ 208 ≤ 8 * c.buf.data.length by omega), if_neg h]
  have h := hevc_decode_fields ctx c
  rw [hz, c1, c2, c3, if_neg (show ¬ 210 ≤ 8 * c.buf.data.length by omega),
    if_neg (show ¬ 216 ≤ 8 * c.buf.data.length by omega)] at h
  exact h

theorem C25_hevc_truncated_witness :
    (ngx_rtmp_codec_parse_hevc_header ctx_640x480
      (chain_of [0x1c, 0, 0, 0, 0, 1, 0x01, 0x60, 0x00, 0x00, 0x01, 0, 0])).avc_compat
      = 0x60000001 ∧
    (ngx_rtmp_codec_parse_hevc_header ctx_640x480
      (chain_of [0x1c, 0, 0, 0, 0, 1, 0x01, 0x60, 0x00, 0x00, 0x01, 0, 0])).avc_nal_bytes = 1 :=
  ⟨by
    rw [C25_hevc_truncated_amended ctx_640x480
      (chain_of [0x1c, 0, 0, 0, 0, 1, 0x01, 0x60, 0x00, 0x00, 0x01, 0, 0]) (by decide)]
    rfl,
   by
    rw [C25_hevc_truncated_amended ctx_640x480
      (chain_of [0x1c, 0, 0, 0, 0, 1, 0x01, 0x60, 0x00, 0x00, 0x01, 0, 0]) (by decide)]⟩

/-- C25, the claim as stated fails: on an HEVC payload cut after its first 7
bytes, the five fields that lie beyond the cut do not keep their values 192,
30, 25, 1 and 4 of the context: they become 0, 0, 0, 0 and 1. -/
theorem C25_hevc_truncated_counterexample :
    ngx_rtmp_codec_parse_hevc_header
      { ctx_640x480 with video_codec_id := 12, frame_rate := 25 }
      (chain_of [0x1c, 0, 0, 0, 0, 1, 0x01]) =
      { ctx_640x480 with video_codec_id := 12, avc_profile := 0, avc_compat := 0,
                         avc_level := 0, frame_rate := 0, avc_ref_frames := 0,
                         avc_nal_bytes := 1 } ∧
    ({ ctx_640x480 with video_codec_id := 12, frame_rate := 25 } :
      ngx_rtmp_codec_ctx_t).avc_compat = 192 ∧
    ({ ctx_640x480 with video_codec_id := 12, frame_rate := 25 } :
      ngx_rtmp_codec_ctx_t).avc_level = 30 ∧
    ({ ctx_640x480 with video_codec_id := 12, frame_rate := 25 } :
      ngx_rtmp_codec_ctx_t).frame_rate = 25 ∧
    ({ ctx_640x480 with video_codec_id := 12, frame_rate := 25 } :
      ngx_rtmp_codec_ctx_t).avc_ref_frames = 1 ∧
    ({ ctx_640x480 with video_codec_id := 12, frame_rate := 25 } :
      ngx_rtmp_codec_ctx_t).avc_nal_bytes = 4 := by
  decide!


/-! ## C29: the loop of the synthesizer ends -/

/-- The loop of lines 375-454 is the iteration of its body. -/
theorem avc_nal_loop_body (cap nb fuel : Nat) (c : List Nat × List ngx_buf_t)
    (out : List Nat) (hs : Nat) :
    avc_nal_loop cap nb (fuel + 1) (some c) out hs =
      match avc_nal_body cap nb c out hs with
      | Sum.inl r => r
      | Sum.inr (k, o, s) => avc_nal_loop cap nb fuel k o s := by
  rw [avc_nal_loop]
  unfold avc_nal_body
  dsimp only
  split
  · rfl
  · split
    · rfl
    · split
      · rfl
      · split
        · split <;> rfl
        · split
          · rfl
          · split <;> rfl

/-- The cursor a copy leaves is NULL or has an unread byte, when the copy
started from such a cursor or asked for at least one byte. -/
theorem hls_copy_norm (n : Nat) (k : chain_cursor)
    (hk : cursor_norm k ∨ (0 < n ∧ k ≠ none)) :
    cursor_norm (ngx_rtmp_hls_copy n k).cur := by
  have h := hls_copy_equiv n k k rfl (by
    rcases hk with h | h
    · exact Or.inl ⟨h, h⟩
    · exact Or.inr ⟨h.1, h.2, h.2⟩)
  exact h.2.2.1

/-- A pass through the loop body that does not return has read at least
`nal_bytes` bytes, and leaves a cursor that is NULL or has an unread byte. -/
theorem avc_nal_body_consumes (cap nb : Nat) (hnb : 1 ≤ nb) (c : List Nat × List ngx_buf_t)
    (out : List Nat) (hs : Nat) (k : chain_cursor) (o : List Nat) (s : Nat)
    (h : avc_nal_body cap nb c out hs = Sum.inr (k, o, s)) :
    cursor_norm k ∧ (cursor_bytes k).length + nb ≤ (cursor_bytes (some c)).length := by
  have n1 := hls_copy_norm nb (some c) (Or.inr ⟨by omega, by simp⟩)
  have n2 := hls_copy_norm 1 (ngx_rtmp_hls_copy nb (some c)).cur (Or.inl n1)
  have n3 := hls_copy_norm (be_value (ngx_rtmp_hls_copy nb (some c)).bytes % UINT32_MOD - 1)
    (ngx_rtmp_hls_copy 1 (ngx_rtmp_hls_copy nb (some c)).cur).cur (Or.inl n2)
  have l1 := hls_copy_ok_length nb (some c)
  have l2 := hls_copy_ok_length 1 (ngx_rtmp_hls_copy nb (some c)).cur
  have l3 := hls_copy_ok_length
    (be_value (ngx_rtmp_hls_copy nb (some c)).bytes % UINT32_MOD - 1)
    (ngx_rtmp_hls_copy 1 (ngx_rtmp_hls_copy nb (some c)).cur).cur
  unfold avc_nal_body at h
  dsimp only at h
  split at h
  · exact absurd h (by simp)
  · rename_i h1
    have l1' := l1 (not_not.mp h1)
    split at h
    · have hk : (ngx_rtmp_hls_copy nb (some c)).cur = k := (Prod.mk.inj (Sum.inr.inj h)).1
      rw [← hk]
      exact ⟨n1, by omega⟩
    · split at h
      · exact absurd h (by simp)
      · rename_i h2
        have l2' := l2 (not_not.mp h2)
        split at h
        · split at h
          · exact absurd h (by simp)
          · rename_i h3
            have l3' := l3 (not_not.mp h3)
            have hk := (Prod.mk.inj (Sum.inr.inj h)).1
            rw [← hk]
            exact ⟨n3, by omega⟩
        · split at h
          · exact absurd h (by simp)
          · split at h
            · exact absurd h (by simp)
            · rename_i h3
              have l3' := l3 (not_not.mp h3)
              have hk := (Prod.mk.inj (Sum.inr.inj h)).1
              rw [← hk]
              exact ⟨n3, by omega⟩

theorem cursor_norm_pos (c : List Nat × List ngx_buf_t) (h : cursor_norm (some c)) :
    1 ≤ (cursor_bytes (some c)).length := by
  obtain ⟨cur, rest⟩ := c
  have hne : cur ≠ [] := h
  have : 1 ≤ cur.length := by
    cases cur with
    | nil => exact absurd rfl hne
    | cons x xs => simp
  simp only [cursor_bytes, List.length_append]
  omega

/-- The loop makes at most as many passes as there are unread bytes. -/
theorem avc_nal_passes_bounded (cap nb : Nat) (hnb : 1 ≤ nb) : ∀ (fuel : Nat) (k : chain_cursor)
    (out : List Nat) (hs : Nat), cursor_norm k → (cursor_bytes k).length ≤ fuel →
    ∃ n, avc_nal_passes cap nb fuel k out hs = some n ∧ n ≤ (cursor_bytes k).length
  | fuel, none, out, hs, _, _ => ⟨0, by cases fuel <;> rfl, Nat.zero_le _⟩
  | 0, some c, _, _, hk, hf => by
    have := cursor_norm_pos c hk
    omega
  | fuel + 1, some c, out, hs, hk, hf => by
    have hpos := cursor_norm_pos c hk
    rw [avc_nal_passes]
    cases hb : avc_nal_body cap nb c out hs with
    | inl r => exact ⟨1, rfl, hpos⟩
    | inr v =>
      obtain ⟨k', o', s'⟩ := v
      obtain ⟨hn', hl'⟩ := avc_nal_body_consumes cap nb hnb c out hs k' o' s' hb
      obtain ⟨n, hn, hle⟩ := avc_nal_passes_bounded cap nb hnb fuel k' o' s' hn' (by omega)
      refine ⟨n + 1, ?_, by omega⟩
      show (avc_nal_passes cap nb fuel k' o' s').map (fun n => n + 1) = some (n + 1)
      rw [hn]
      rfl

/-- The cursor with which lines 375-454 are entered: after the tag byte, the
packet type and the three composition-time bytes have been read, it is NULL or
has an unread byte, and 5 bytes of the chain are behind it. -/
theorem keyframe_loop_entry (c : ngx_chain_t)
    (h1 : (ngx_rtmp_hls_copy 1 (some (c.buf.data, c.next))).rc = NGX_OK)
    (h2 : (ngx_rtmp_hls_copy 1 (ngx_rtmp_hls_copy 1 (some (c.buf.data, c.next))).cur).rc
      = NGX_OK)
    (h3 : (ngx_rtmp_hls_copy 3
      (ngx_rtmp_hls_copy 1 (ngx_rtmp_hls_copy 1 (some (c.buf.data, c.next))).cur).cur).rc
      = NGX_OK) :
    cursor_norm (ngx_rtmp_hls_copy 3
      (ngx_rtmp_hls_copy 1 (ngx_rtmp_hls_copy 1 (some (c.buf.data, c.next))).cur).cur).cur ∧
    (cursor_bytes (ngx_rtmp_hls_copy 3
      (ngx_rtmp_hls_copy 1 (ngx_rtmp_hls_copy 1 (some (c.buf.data, c.next))).cur).cur).cur).length
      + 5 = (chain_bytes c).length := by
  have n1 := hls_copy_norm 1 (some (c.buf.data, c.next)) (Or.inr ⟨by decide, by simp⟩)
  have n2 := hls_copy_norm 1 _ (Or.inl n1)
  have n3 := hls_copy_norm 3 _ (Or.inl n2)
  have l1 := hls_copy_ok_length 1 _ h1
  have l2 := hls_copy_ok_length 1 _ h2
  have l3 := hls_copy_ok_length 3 _ h3
  have hb : cursor_bytes (some (c.buf.data, c.next)) = chain_bytes c := rfl
  rw [hb] at l1
  exact ⟨n3, by omega⟩


/-- C29: with a length size of at least 1 the loop of
ngx_rtmp_codec_parse_avc_header_in_keyframe ends, from every cursor that is
NULL or has an unread byte, as the cursor behind the composition time is:
every pass through the body returns or reads at least nal_bytes bytes, the
zero-length `continue` branch included; the number of passes is at most the
number of unread bytes; the result of the loop is the same for every fuel
above that number; and on every chain whose first five bytes can be read the
loop is entered with such a cursor and makes at most as many passes as bytes
follow those five. -/
theorem C29_nal_loop_terminates (cap nb : Nat) (hnb : 1 ≤ nb) (k : chain_cursor)
    (out : List Nat) (hs : Nat) (hk : cursor_norm k) (c : ngx_chain_t) :
    (∀ b k' o' s', k = some b → avc_nal_body cap nb b out hs = Sum.inr (k', o', s') →
      cursor_norm k' ∧ (cursor_bytes k').length + nb ≤ (cursor_bytes k).length) ∧
    (∀ fuel, (cursor_bytes k).length ≤ fuel →
      ∃ n, avc_nal_passes cap nb fuel k out hs = some n ∧ n ≤ (cursor_bytes k).length) ∧
    (∀ fuel fuel', (cursor_bytes k).length < fuel → fuel ≤ fuel' →
      avc_nal_loop cap nb fuel k out hs = avc_nal_loop cap nb fuel' k out hs) ∧
    ((ngx_rtmp_hls_copy 1 (some (c.buf.data, c.next))).rc = NGX_OK →
      (ngx_rtmp_hls_copy 1 (ngx_rtmp_hls_copy 1 (some (c.buf.data, c.next))).cur).rc
        = NGX_OK →
      (ngx_rtmp_hls_copy 3
        (ngx_rtmp_hls_copy 1 (ngx_rtmp_hls_copy 1 (some (c.buf.data, c.next))).cur).cur).rc
        = NGX_OK →
      ∃ n, avc_nal_passes cap nb (chain_bytes c).length
          (ngx_rtmp_hls_copy 3
            (ngx_rtmp_hls_copy 1 (ngx_rtmp_hls_copy 1 (some (c.buf.data, c.next))).cur).cur).cur
          out hs = some n ∧
        n + 5 ≤ (chain_bytes c).length) := by
  refine ⟨?_, ?_, ?_, ?_⟩
  · intro b k' o' s' hb hbody
    rw [hb]
    exact avc_nal_body_consumes cap nb hnb b out hs k' o' s' hbody
  · intro fuel hf
    exact avc_nal_passes_bounded cap nb hnb fuel k out hs hk hf
  · intro fuel fuel' hf hle
    exact avc_nal_loop_fuel cap nb hnb fuel fuel' k out hs hf hle
  · intro h1 h2 h3
    obtain ⟨hn, hl⟩ := keyframe_loop_entry c h1 h2 h3
    obtain ⟨n, hp, hle⟩ := avc_nal_passes_bounded cap nb hnb (chain_bytes c).length _ out hs hn
      (by omega)
    exact ⟨n, hp, by omega⟩

theorem C29_nal_loop_terminates_witness :
    ∃ n, avc_nal_passes 256 4 13
        (some ([0, 0, 0, 0, 0, 0, 0, 2, 0x67, 0x42, 0, 0, 0], [])) [] 0 = some n ∧
      n ≤ (cursor_bytes (some ([0, 0, 0, 0, 0, 0, 0, 2, 0x67, 0x42, 0, 0, 0], []))).length :=
  (C29_nal_loop_terminates 256 4 (by decide)
    (some ([0, 0, 0, 0, 0, 0, 0, 2, 0x67, 0x42, 0, 0, 0], [])) [] 0 (by simp [cursor_norm])
    (chain_of [])).2.1 13 (by decide)

end NgxRtmpCodec
